import Mathlib

/-! User-level threads library (`uthreads.cpp`, `Threads.cpp`, `Threads.h`).

A shallow embedding of the library state and of every public and internal
function of `uthreads.cpp`, followed by the properties of the scheduler.

Modelling conventions.

* The file-scope variables of `uthreads.cpp` are the fields of `Lib`.
* `int` values are mathematical integers (`Int`); the counters are never
  reduced modulo a word size.
* `threads` is the `std::vector<Thread *>` of line 31: a list of cells, `none`
  for `nullptr`.  Its size is fixed by its declaration and never changes.
* `tid_que` is a `std::priority_queue` ordered by `std::greater<int>`; the
  model keeps its contents as a list, `top` is the least element, `pop` removes
  one occurrence of it and `push` adds an element.
* `priority_array` keeps the values that the copy loop of `uthread_init`
  writes; `priority_array_cells` records how many `int` cells the allocation
  of line 153 provides.
* Every function returns a `Res`: it returns a value, it leaves through
  `siglongjmp` into the thread that is now running, it ends the process, or
  its behaviour is undefined (dereferencing `nullptr`, indexing outside a
  container, `front()` of an empty list).
* The answers of the operating system and of the allocator for one call are
  the argument `Sys`.
* The signal mask, stacks and saved register contexts are not part of the
  state; a quantum expiry is an event between two calls.
* `MAX_THREAD_NUM` is declared in `uthreads.h`; every definition that needs
  it takes it as a parameter.
* `uthread_init` is called once, at program start (comment of lines 113-121).
-/

namespace UThreads

/-! ## Constants -/

/-- State constant `RUNNING` of `Threads.h`. -/
abbrev RUNNING : Int := 0
/-- State constant `READY` of `Threads.h`. -/
abbrev READY : Int := 1
/-- State constant `BLOCKED` of `Threads.h`. -/
abbrev BLOCKED : Int := 2
/-- Return value `SUCCESS`. -/
abbrev SUCCESS : Int := 0
/-- Return value `FAIL`. -/
abbrev FAIL : Int := -1
/-- Id of the main thread. -/
abbrev MAIN_THREAD_ID : Int := 0
/-- Priority given to the main thread. -/
abbrev MAIN_THREAD_PRIORITY : Int := 0

/-! ## Class `Thread` -/

/-- Data members of class `Thread` (stack pointer and `env` left out); `f` is
the entry point, `none` for `nullptr`. -/
structure Thread where
  __thread_id : Int
  __thread_cs : Int
  __thread_priority : Int
  __num_of_quantum : Int
  f : Option Nat
deriving DecidableEq, Repr

namespace Thread

/-- Constructor `Thread::Thread(f, tid, priority)`: state `READY`, the member
initialiser gives `__num_of_quantum = 0`. -/
def mk' (f : Option Nat) (tid priority : Int) : Thread :=
  { __thread_id := tid, __thread_cs := READY, __thread_priority := priority,
    __num_of_quantum := 0, f := f }

/-- Method `Thread::getState`. -/
def getState (t : Thread) : Int := t.__thread_cs
/-- Method `Thread::getQuantum`. -/
def getQuantum (t : Thread) : Int := t.__num_of_quantum
/-- Method `Thread::getPriority`. -/
def getPriority (t : Thread) : Int := t.__thread_priority
/-- Method `Thread::setPriority`. -/
def setPriority (t : Thread) (new_priority : Int) : Thread :=
  { t with __thread_priority := new_priority }
/-- Method `Thread::setState`. -/
def setState (t : Thread) (next_state : Int) : Thread :=
  { t with __thread_cs := next_state }
/-- Method `Thread::incrQuantum`. -/
def incrQuantum (t : Thread) : Thread :=
  { t with __num_of_quantum := t.__num_of_quantum + 1 }

end Thread

/-! ## Library state -/

/-- The file-scope variables of `uthreads.cpp`. -/
structure Lib where
  threads : List (Option Thread)
  ready_threads : List Int
  total_quantums : Int
  priority_array : List Int
  priority_array_cells : Nat
  priority_array_size : Int
  running_thread : Int
  tid_que : List Int
  vt_usec : Int
deriving DecidableEq, Repr

/-- Answers of the operating system and of the allocator during one call:
whether `sigaction`, `new (std::nothrow) Thread`, `new (std::nothrow) char[]`
and `setitimer` succeed. -/
structure Sys where
  sigaction_ok : Bool
  new_Thread_ok : Bool
  new_stack_ok : Bool
  setitimer_ok : Bool
deriving DecidableEq, Repr

/-- Every system call and allocation succeeds. -/
def Sys.ok : Sys := ⟨true, true, true, true⟩

/-- How a call ends. -/
inductive Res (α : Type) where
  /-- The call returns `a` to its caller. -/
  | returned (a : α) (s : Lib)
  /-- The call leaves through `siglongjmp(threads[running_thread]->env, 5)`. -/
  | switched (s : Lib)
  /-- The call ends the process through `exit(status)`. -/
  | exited (status : Int) (s : Lib)
  /-- Undefined behaviour. -/
  | undefined
deriving DecidableEq, Repr

/-- Sequencing: what follows a call that returned. -/
def Res.andThen {α β : Type} (r : Res α) (k : α → Lib → Res β) : Res β :=
  match r with
  | .returned a s => k a s
  | .switched s => .switched s
  | .exited c s => .exited c s
  | .undefined => .undefined

/-- The state in which the library goes on after a call, if the process goes on. -/
def Res.next {α : Type} : Res α → Option Lib
  | .returned _ s => some s
  | .switched s => some s
  | .exited _ _ => none
  | .undefined => none

/-- State at program start: static initialisation of the variables. -/
def Lib.initial (MAX_THREAD_NUM : Nat) : Lib :=
  { threads := List.replicate MAX_THREAD_NUM none, ready_threads := [],
    total_quantums := 0, priority_array := [], priority_array_cells := 0,
    priority_array_size := 0, running_thread := 0, tid_que := [], vt_usec := 0 }

/-- Cell `tid` of a thread table: `none` when the index is outside the vector or
the cell holds `nullptr`. -/
def cell (T : List (Option Thread)) (tid : Int) : Option Thread :=
  if tid < 0 then none else T.getD tid.toNat none

/-- Read of `threads[tid]` followed by a dereference. -/
def Lib.thread (s : Lib) (tid : Int) : Option Thread := cell s.threads tid

/-- Assignment `threads[tid] = p`; `none` when the index is outside the vector. -/
def Lib.store (s : Lib) (tid : Int) (p : Option Thread) : Option Lib :=
  if 0 ≤ tid ∧ tid.toNat < s.threads.length then
    some { s with threads := s.threads.set tid.toNat p }
  else none

/-- Call `threads[tid]->method(...)` of a method that updates the object. -/
def Lib.modify (s : Lib) (tid : Int) (g : Thread → Thread) : Option Lib :=
  match s.thread tid with
  | none => none
  | some t => s.store tid (some (g t))

/-! ## Internal functions -/

/-- Function `get_next_tid` (lines 405-412): `FAIL` on an empty queue, else the
least element, which is popped. -/
def get_next_tid (s : Lib) : Int × Lib :=
  match s.tid_que.min? with
  | none => (FAIL, s)
  | some tid => (tid, { s with tid_que := s.tid_que.erase tid })

/-- Function `valid_tid` (lines 418-425). -/
def valid_tid (MAX_THREAD_NUM : Nat) (s : Lib) (tid : Int) : Bool :=
  decide (0 ≤ tid) && decide (tid < MAX_THREAD_NUM) && (s.thread tid).isSome

/-- Function `valid_priority` (lines 446-453). -/
def valid_priority (s : Lib) (priority : Int) : Bool :=
  decide (0 ≤ priority) && decide (priority < s.priority_array_size)

/-- Function `terminate_thread` (lines 431-440): `std::list::remove` deletes
every occurrence of `tid`. -/
def terminate_thread (tid : Int) (s : Lib) : Option Lib :=
  match s.thread tid with
  | none => none
  | some t =>
    let s1 : Lib :=
      if t.getState = READY then
        { s with ready_threads := s.ready_threads.filter (fun x => x ≠ tid) }
      else s
    match s1.store tid none with
    | none => none
    | some s2 => some { s2 with tid_que := s2.tid_que ++ [tid] }

/-- Function `set_virtual_timer` (lines 484-497). -/
def set_virtual_timer (sys : Sys) (tid : Int) (s : Lib) : Res Unit :=
  match s.thread tid with
  | none => .undefined
  | some t =>
    let priority := t.getPriority
    if priority < 0 then .undefined
    else
      match s.priority_array[priority.toNat]? with
      | none => .undefined
      | some vt_usec =>
        let s1 : Lib := { s with vt_usec := vt_usec }
        if sys.setitimer_ok then .returned () s1 else .exited 1 s1

/-- Function `switch_threads_helper` (lines 512-529). -/
def switch_threads_helper (sys : Sys) (mode : Int) (s : Lib) : Res Unit :=
  let s1 : Option Lib :=
    if mode ≠ BLOCKED then
      (s.modify s.running_thread (fun t => t.setState READY)).map
        (fun s0 => { s0 with ready_threads := s0.ready_threads ++ [s0.running_thread] })
    else
      s.modify s.running_thread (fun t => t.setState BLOCKED)
  match s1 with
  | none => .undefined
  | some s1 =>
    match s1.ready_threads with
    | [] => .undefined
    | next :: rest =>
      let s2 : Lib := { s1 with running_thread := next, ready_threads := rest,
                                total_quantums := s1.total_quantums + 1 }
      match s2.modify next (fun t => t.incrQuantum.setState RUNNING) with
      | none => .undefined
      | some s3 => set_virtual_timer sys next s3

/-- Function `switch_threads` (lines 535-547), entered with the first return of
`sigsetjmp`: it leaves through `siglongjmp`. -/
def switch_threads (sys : Sys) (mode : Int) (s : Lib) : Res Unit :=
  (switch_threads_helper sys mode s).andThen fun _ s1 => .switched s1

/-- Function `vt_handler_function` (lines 503-506): what a quantum expiry runs. -/
def vt_handler_function (sys : Sys) (s : Lib) : Res Unit :=
  switch_threads sys READY s

/-! ## External interface -/

/-- Validation loop of `uthread_init` (lines 131-138) from index `i` for `n`
more cells: `some false` at the first non-positive duration, `none` when the
loop reads past the caller's array. -/
def scan_quantum_usecs (quantum_usecs : List Int) : Nat → Nat → Option Bool
  | _, 0 => some true
  | i, n + 1 =>
    match quantum_usecs[i]? with
    | none => none
    | some q => if q ≤ 0 then some false else scan_quantum_usecs quantum_usecs (i + 1) n

/-- Function `uthread_init` (lines 122-186).  The test of line 154 is dead: a
plain `new` does not return `nullptr`. -/
def uthread_init (MAX_THREAD_NUM : Nat) (sys : Sys) (quantum_usecs : List Int) (size : Int)
    (s : Lib) : Res Int :=
  if size ≤ 0 then .returned FAIL s
  else
    match scan_quantum_usecs quantum_usecs 0 size.toNat with
    | none => .undefined
    | some false => .returned FAIL s
    | some true =>
      if !sys.sigaction_ok then .returned FAIL s
      else
        let s1 : Lib := { s with priority_array := quantum_usecs.take size.toNat,
                                 priority_array_cells := 1,
                                 priority_array_size := size }
        let s2 : Lib :=
          { s1 with tid_que := s1.tid_que ++ (List.range' 1 (MAX_THREAD_NUM - 1)).map Int.ofNat }
        if !sys.new_Thread_ok then .returned FAIL s2
        else
          let main_thread := (Thread.mk' none MAIN_THREAD_ID MAIN_THREAD_PRIORITY).setState RUNNING
          let s3 : Lib := { s2 with threads := List.replicate MAX_THREAD_NUM none }
          match s3.store MAIN_THREAD_ID (some main_thread) with
          | none => .undefined
          | some s4 =>
            match s4.modify MAIN_THREAD_ID Thread.incrQuantum with
            | none => .undefined
            | some s5 =>
              (set_virtual_timer sys MAIN_THREAD_ID { s5 with total_quantums := 1 }).andThen
                fun _ s6 => .returned SUCCESS s6

/-- Function `uthread_spawn` (lines 199-227).  The stack of a thread with a
non-null entry point is allocated inside the constructor, which ends the
process with status 1 when that allocation fails. -/
def uthread_spawn (sys : Sys) (f : Option Nat) (priority : Int) (s : Lib) : Res Int :=
  if f.isNone || !valid_priority s priority then .returned FAIL s
  else
    let (tid, s1) := get_next_tid s
    if tid = FAIL then .returned FAIL s1
    else if !sys.new_Thread_ok then .returned FAIL s1
    else if !sys.new_stack_ok then .exited 1 s1
    else
      match s1.store tid (some (Thread.mk' f tid priority)) with
      | none => .undefined
      | some s2 =>
        match s2.modify tid (fun t => t.setState READY) with
        | none => .undefined
        | some s3 =>
          .returned tid { s3 with ready_threads := s3.ready_threads ++ [tid] }

/-- Function `uthread_change_priority` (lines 235-247). -/
def uthread_change_priority (MAX_THREAD_NUM : Nat) (tid priority : Int) (s : Lib) : Res Int :=
  if !valid_priority s priority || !valid_tid MAX_THREAD_NUM s tid then .returned FAIL s
  else
    match s.modify tid (fun t => t.setPriority priority) with
    | none => .undefined
    | some s1 => .returned SUCCESS s1

/-- Loop of lines 272-278 over the ids in `ids`. -/
def terminate_all : List Int → Lib → Option Lib
  | [], s => some s
  | i :: ids, s =>
    if (s.threads.getD i.toNat none).isSome then
      match terminate_thread i s with
      | none => none
      | some s1 => terminate_all ids s1
    else terminate_all ids s

/-- Function `uthread_terminate` (lines 260-296).  The release of the priority
table at line 279 leaves the state as it is. -/
def uthread_terminate (MAX_THREAD_NUM : Nat) (sys : Sys) (tid : Int) (s : Lib) : Res Int :=
  if !valid_tid MAX_THREAD_NUM s tid then .returned FAIL s
  else if tid = MAIN_THREAD_ID then
    match terminate_all ((List.range' 1 (MAX_THREAD_NUM - 1)).map Int.ofNat) s with
    | none => .undefined
    | some s1 => .exited 0 s1
  else if tid = s.running_thread then
    (switch_threads_helper sys BLOCKED s).andThen fun _ s1 =>
      match terminate_thread tid s1 with
      | none => .undefined
      | some s2 => .switched s2
  else
    match terminate_thread tid s with
    | none => .undefined
    | some s1 => .returned SUCCESS s1

/-- Function `uthread_resume` (lines 307-323). -/
def uthread_resume (MAX_THREAD_NUM : Nat) (tid : Int) (s : Lib) : Res Int :=
  if !valid_tid MAX_THREAD_NUM s tid then .returned FAIL s
  else
    match s.thread tid with
    | none => .undefined
    | some t =>
      if t.getState = BLOCKED then
        match s.modify tid (fun t => t.setState READY) with
        | none => .undefined
        | some s1 => .returned SUCCESS { s1 with ready_threads := s1.ready_threads ++ [tid] }
      else .returned SUCCESS s

/-- Function `uthread_block` (lines 332-352). -/
def uthread_block (MAX_THREAD_NUM : Nat) (sys : Sys) (tid : Int) (s : Lib) : Res Int :=
  if !valid_tid MAX_THREAD_NUM s tid || tid = MAIN_THREAD_ID then .returned FAIL s
  else
    match s.thread tid with
    | none => .undefined
    | some t =>
      let s1 : Option Lib :=
        if t.getState = READY then
          ({ s with ready_threads := s.ready_threads.filter (fun x => x ≠ tid) } : Lib).modify tid
            (fun t => t.setState BLOCKED)
        else some s
      match s1 with
      | none => .undefined
      | some s1 =>
        if tid = s1.running_thread then
          (switch_threads sys BLOCKED s1).andThen fun _ s2 => .returned SUCCESS s2
        else .returned SUCCESS s1

/-- Function `uthread_get_tid` (lines 358-361). -/
def uthread_get_tid (s : Lib) : Int := s.running_thread

/-- Function `uthread_get_total_quantums` (lines 371-374). -/
def uthread_get_total_quantums (s : Lib) : Int := s.total_quantums

/-- Function `uthread_get_quantums` (lines 386-396). -/
def uthread_get_quantums (MAX_THREAD_NUM : Nat) (tid : Int) (s : Lib) : Res Int :=
  if valid_tid MAX_THREAD_NUM s tid = false then .returned FAIL s
  else
    match s.thread tid with
    | none => .undefined
    | some t => .returned t.getQuantum s

/-! ## Executions -/

/-- What can happen to an initialised library: a call of a public function by
the running thread, or the expiry of the quantum timer. -/
inductive Event where
  | spawn (f : Option Nat) (priority : Int)
  | change_priority (tid priority : Int)
  | terminate (tid : Int)
  | block (tid : Int)
  | resume (tid : Int)
  | get_quantums (tid : Int)
  | expiry
deriving DecidableEq, Repr

/-- The call or handler that an event runs; an expiry yields no value, given
here as `0`. -/
def Event.run (MAX_THREAD_NUM : Nat) (sys : Sys) (e : Event) (s : Lib) : Res Int :=
  match e with
  | .spawn f priority => uthread_spawn sys f priority s
  | .change_priority tid priority => uthread_change_priority MAX_THREAD_NUM tid priority s
  | .terminate tid => uthread_terminate MAX_THREAD_NUM sys tid s
  | .block tid => uthread_block MAX_THREAD_NUM sys tid s
  | .resume tid => uthread_resume MAX_THREAD_NUM tid s
  | .get_quantums tid => uthread_get_quantums MAX_THREAD_NUM tid s
  | .expiry => (vt_handler_function sys s).andThen fun _ s1 => .returned 0 s1

/-- One step of an execution in which every system call succeeds. -/
def step (MAX_THREAD_NUM : Nat) (e : Event) (s : Lib) : Option Lib :=
  (e.run MAX_THREAD_NUM Sys.ok s).next

/-- States reachable after a successful `uthread_init`, called once at program
start, through public calls and quantum expiries, all system calls succeeding. -/
inductive Reachable (MAX_THREAD_NUM : Nat) : Lib → Prop where
  | init (quantum_usecs : List Int) (size : Int) (s : Lib)
      (h : uthread_init MAX_THREAD_NUM Sys.ok quantum_usecs size (Lib.initial MAX_THREAD_NUM)
            = .returned SUCCESS s) : Reachable MAX_THREAD_NUM s
  | step (e : Event) (s s' : Lib) (hs : Reachable MAX_THREAD_NUM s)
      (h : step MAX_THREAD_NUM e s = some s') : Reachable MAX_THREAD_NUM s'

/-! ## Invariant -/

/-- Invariant of the initialised library. -/
structure Inv (MAX_THREAD_NUM : Nat) (s : Lib) : Prop where
  len : s.threads.length = MAX_THREAD_NUM
  run_live : ∃ t, s.thread s.running_thread = some t ∧ t.__thread_cs = RUNNING
  run_unique : ∀ i t, s.thread i = some t → t.__thread_cs = RUNNING → i = s.running_thread
  ready_iff : ∀ i, i ∈ s.ready_threads ↔ ∃ t, s.thread i = some t ∧ t.__thread_cs = READY
  ready_nodup : s.ready_threads.Nodup
  pool_iff : ∀ i, i ∈ s.tid_que ↔ (1 ≤ i ∧ i < MAX_THREAD_NUM ∧ s.thread i = none)
  pool_nodup : s.tid_que.Nodup
  main_live : ∃ t, s.thread 0 = some t ∧ (t.__thread_cs = RUNNING ∨ t.__thread_cs = READY)
  prio : ∀ i t, s.thread i = some t →
    0 ≤ t.__thread_priority ∧ t.__thread_priority < s.priority_array_size
  table : s.priority_array.length = s.priority_array_size.toNat

/-! ## Executions and their effects -/

/-- Number of threads that have a TCB. -/
def live_count (s : Lib) : Nat := s.threads.countP Option.isSome

/-- Whether event `e`, happening in state `s`, invokes the scheduler: a quantum
expiry, a block of the running thread, a termination of the running thread
other than the main thread. -/
def Event.schedules (e : Event) (s : Lib) : Bool :=
  match e with
  | .expiry => true
  | .block tid => decide (tid = s.running_thread) && decide (tid ≠ MAIN_THREAD_ID)
  | .terminate tid => decide (tid = s.running_thread) && decide (tid ≠ MAIN_THREAD_ID)
  | _ => false

/-- Run a sequence of events, all system calls succeeding, and count the
scheduler-invoking ones. -/
def run_counting (MAX_THREAD_NUM : Nat) : List Event → Lib → Option (Lib × Nat)
  | [], s => some (s, 0)
  | e :: es, s =>
    match step MAX_THREAD_NUM e s with
    | none => none
    | some s1 =>
      match run_counting MAX_THREAD_NUM es s1 with
      | none => none
      | some (s2, n) => some (s2, n + (if e.schedules s then 1 else 0))

/-- The effect of one step on a state that satisfies the invariant, case by case. -/
inductive StepEffect (s : Lib) : Event → Lib → Prop where
  | same (e : Event) (h : e.schedules s = false) : StepEffect s e s
  | spawn (a : Nat) (p tid : Int) (T : List (Option Thread))
      (hvp : valid_priority s p = true) (hmin : s.tid_que.min? = some tid)
      (hnone : s.thread tid = none) (hlen : T.length = s.threads.length)
      (hcell : ∀ j, cell T j = if j = tid then some (Thread.mk' (some a) tid p) else s.thread j) :
      StepEffect s (.spawn (some a) p) { s with threads := T, ready_threads := s.ready_threads ++ [tid], tid_que := s.tid_que.erase tid }
  | change_priority (tid p : Int) (t : Thread) (T : List (Option Thread))
      (hvp : valid_priority s p = true) (ht : s.thread tid = some t)
      (hlen : T.length = s.threads.length)
      (hcell : ∀ j, cell T j = if j = tid then some (t.setPriority p) else s.thread j) :
      StepEffect s (.change_priority tid p) { s with threads := T }
  | terminate_other (tid : Int) (t : Thread) (T : List (Option Thread))
      (ht : s.thread tid = some t) (hne0 : tid ≠ 0) (hner : tid ≠ s.running_thread)
      (hlen : T.length = s.threads.length)
      (hcell : ∀ j, cell T j = if j = tid then none else s.thread j) :
      StepEffect s (.terminate tid) { s with threads := T, ready_threads := s.ready_threads.filter (fun x => x ≠ tid), tid_que := s.tid_que ++ [tid] }
  | terminate_running (tr th : Thread) (h : Int) (rest : List Int) (v : Int)
      (T : List (Option Thread))
      (hr : s.thread s.running_thread = some tr) (hne0 : s.running_thread ≠ 0)
      (hq : s.ready_threads = h :: rest) (hh : s.thread h = some th)
      (hne : h ≠ s.running_thread)
      (hv : s.priority_array[th.__thread_priority.toNat]? = some v)
      (hlen : T.length = s.threads.length)
      (hcell : ∀ j, cell T j =
        if j = s.running_thread then none
        else if j = h then some (th.incrQuantum.setState RUNNING)
        else s.thread j) :
      StepEffect s (.terminate s.running_thread) { s with threads := T, ready_threads := rest, running_thread := h, total_quantums := s.total_quantums + 1, vt_usec := v, tid_que := s.tid_que ++ [s.running_thread] }
  | block_other (tid : Int) (t : Thread) (T : List (Option Thread))
      (ht : s.thread tid = some t) (hst : t.__thread_cs = READY) (hne0 : tid ≠ 0)
      (hner : tid ≠ s.running_thread) (hlen : T.length = s.threads.length)
      (hcell : ∀ j, cell T j = if j = tid then some (t.setState BLOCKED) else s.thread j) :
      StepEffect s (.block tid) { s with threads := T, ready_threads := s.ready_threads.filter (fun x => x ≠ tid) }
  | block_running (tr th : Thread) (h : Int) (rest : List Int) (v : Int)
      (T : List (Option Thread))
      (hr : s.thread s.running_thread = some tr) (hne0 : s.running_thread ≠ 0)
      (hq : s.ready_threads = h :: rest) (hh : s.thread h = some th)
      (hne : h ≠ s.running_thread)
      (hv : s.priority_array[th.__thread_priority.toNat]? = some v)
      (hlen : T.length = s.threads.length)
      (hcell : ∀ j, cell T j =
        if j = h then some (th.incrQuantum.setState RUNNING)
        else if j = s.running_thread then some (tr.setState BLOCKED)
        else s.thread j) :
      StepEffect s (.block s.running_thread) { s with threads := T, ready_threads := rest, running_thread := h, total_quantums := s.total_quantums + 1, vt_usec := v }
  | resume (tid : Int) (t : Thread) (T : List (Option Thread))
      (ht : s.thread tid = some t) (hst : t.__thread_cs = BLOCKED)
      (hlen : T.length = s.threads.length)
      (hcell : ∀ j, cell T j = if j = tid then some (t.setState READY) else s.thread j) :
      StepEffect s (.resume tid) { s with threads := T, ready_threads := s.ready_threads ++ [tid] }
  | expiry (tr th : Thread) (h : Int) (rest : List Int) (v : Int) (T : List (Option Thread))
      (hr : s.thread s.running_thread = some tr)
      (hq : s.ready_threads ++ [s.running_thread] = h :: rest)
      (hh : (if h = s.running_thread then some (tr.setState READY) else s.thread h) = some th)
      (hv : s.priority_array[th.__thread_priority.toNat]? = some v)
      (hlen : T.length = s.threads.length)
      (hcell : ∀ j, cell T j =
        if j = h then some (th.incrQuantum.setState RUNNING)
        else if j = s.running_thread then some (tr.setState READY)
        else s.thread j) :
      StepEffect s .expiry { s with threads := T, ready_threads := rest, running_thread := h, total_quantums := s.total_quantums + 1, vt_usec := v }

/-! ## Sample states -/

/-- State after `uthread_init` with durations `[100, 200]`, for a table of 3 threads. -/
def demo_init : Lib :=
  ((uthread_init 3 Sys.ok [100, 200] 2 (Lib.initial 3)).next).getD (Lib.initial 3)

/-- State after `uthread_init` with durations `[100, 200]`, for a table of 100 threads. -/
def demo_init_100 : Lib :=
  ((uthread_init 100 Sys.ok [100, 200] 2 (Lib.initial 100)).next).getD (Lib.initial 100)

/-- Run a sequence of events, all system calls succeeding. -/
def run (MAX_THREAD_NUM : Nat) : List Event → Lib → Option Lib
  | [], s => some s
  | e :: es, s =>
    match step MAX_THREAD_NUM e s with
    | none => none
    | some s1 => run MAX_THREAD_NUM es s1

/-- State reached from `demo_init` by a sequence of events. -/
def demo_after (es : List Event) : Lib := (run 3 es demo_init).getD demo_init

/-! ## Further notions used by the properties -/

/-- Contents of `ready_threads` when `switch_threads_helper(mode)` reaches the
pop of lines 523-524: the running thread has been pushed unless `mode` is
`BLOCKED` (lines 514-522). -/
def queue_at_pop (mode : Int) (s : Lib) : List Int :=
  if mode ≠ BLOCKED then s.ready_threads ++ [s.running_thread] else s.ready_threads

/-- Whether index `i` lies inside the block that line 153 allocates for
`priority_array`. -/
def priority_array_in_bounds (s : Lib) (i : Int) : Bool :=
  decide (0 ≤ i) && decide (i.toNat < s.priority_array_cells)

/-- System answers in which only `sigaction` fails. -/
def Sys.sigaction_fails : Sys := ⟨false, true, true, true⟩
/-- System answers in which only the allocation of a `Thread` object fails. -/
def Sys.new_Thread_fails : Sys := ⟨true, false, true, true⟩
/-- System answers in which only the allocation of a stack fails. -/
def Sys.new_stack_fails : Sys := ⟨true, true, false, true⟩
/-- System answers in which only `setitimer` fails. -/
def Sys.setitimer_fails : Sys := ⟨true, true, true, false⟩

/-- The value a call returns to its caller, if it returns. -/
def Res.returnValue {α : Type} : Res α → Option α
  | .returned a _ => some a
  | _ => none

/-- The status with which a call ends the process, if it does. -/
def Res.exitStatus {α : Type} : Res α → Option Int
  | .exited c _ => some c
  | _ => none

/-- Whether event `e` sets the priority of thread `t` or terminates it. -/
def Event.touches (t : Int) (e : Event) : Bool :=
  match e with
  | .change_priority tid _ => decide (tid = t)
  | .terminate tid => decide (tid = t)
  | _ => false

/-- Two states that agree on everything but the priorities of the threads, the
duration values of the table and the armed timer. -/
structure Similar (s1 s2 : Lib) : Prop where
  len : s1.threads.length = s2.threads.length
  cells : ∀ j, (s1.thread j).map (fun t => t.setPriority 0)
    = (s2.thread j).map (fun t => t.setPriority 0)
  ready : s1.ready_threads = s2.ready_threads
  total : s1.total_quantums = s2.total_quantums
  running : s1.running_thread = s2.running_thread
  pool : s1.tid_que = s2.tid_que
  size : s1.priority_array_size = s2.priority_array_size

/-- Two events that differ at most in a priority argument that is valid in a
table of `size` priorities. -/
def Event.alike (size : Int) (e1 e2 : Event) : Bool :=
  match e1, e2 with
  | .spawn f p1, .spawn g p2 =>
    decide (f = g) && (decide (p1 = p2) ||
      (decide (0 ≤ p1) && decide (p1 < size) && decide (0 ≤ p2) && decide (p2 < size)))
  | .change_priority t1 p1, .change_priority t2 p2 =>
    decide (t1 = t2) && (decide (p1 = p2) ||
      (decide (0 ≤ p1) && decide (p1 < size) && decide (0 ≤ p2) && decide (p2 < size)))
  | e1, e2 => decide (e1 = e2)

/-- Two outcomes with the same kind, the same returned value or exit status and
similar states. -/
def Res.alike : Res Int → Res Int → Prop
  | .returned a s1, .returned b s2 => a = b ∧ Similar s1 s2
  | .switched s1, .switched s2 => Similar s1 s2
  | .exited c1 _, .exited c2 _ => c1 = c2
  | .undefined, .undefined => True
  | _, _ => False

/-- State after `uthread_init` with durations `[5, 7]`, for a table of 3 threads. -/
def demo_init_alt : Lib :=
  ((uthread_init 3 Sys.ok [5, 7] 2 (Lib.initial 3)).next).getD (Lib.initial 3)

/-! ## Quantum counts of the live threads -/

/-- Sum of `uthread_get_quantums(t)` over the ids `t` of `[0, MAX_THREAD_NUM)` that
have a live thread. -/
def quantum_sum (MAX_THREAD_NUM : Nat) (s : Lib) : Int :=
  ((List.range MAX_THREAD_NUM).map fun i : Nat =>
    if valid_tid MAX_THREAD_NUM s i = true then
      ((uthread_get_quantums MAX_THREAD_NUM i s).returnValue).getD 0
    else 0).sum

/-- Whether event `e`, happening in state `s`, terminates a thread: a call of
`uthread_terminate` with the id of a live thread. -/
def Event.terminates (MAX_THREAD_NUM : Nat) (e : Event) (s : Lib) : Bool :=
  match e with
  | .terminate tid => valid_tid MAX_THREAD_NUM s tid
  | _ => false

/-- Run a sequence of events, all system calls succeeding, and count the
events that terminate a thread. -/
def run_terminations (MAX_THREAD_NUM : Nat) : List Event → Lib → Option (Lib × Nat)
  | [], s => some (s, 0)
  | e :: es, s =>
    match step MAX_THREAD_NUM e s with
    | none => none
    | some s1 =>
      match run_terminations MAX_THREAD_NUM es s1 with
      | none => none
      | some (s2, n) => some (s2, n + (if e.terminates MAX_THREAD_NUM s then 1 else 0))

/-- Quantum count held by a table cell, 0 for an empty cell. -/
def cell_quantum (c : Option Thread) : Int := (c.map Thread.getQuantum).getD 0

/-! ## A failed allocation -/

/-- State in which `uthread_spawn(f, 0)` leaves `demo_init` when
`new (std::nothrow) Thread` answers `nullptr` (lines 215-221): the call has
returned and the program goes on from here. -/
def demo_leaked : Lib :=
  ((uthread_spawn Sys.new_Thread_fails (some 1) 0 demo_init).next).getD demo_init

/-! ## The thread table -/

theorem cell_bounds {T : List (Option Thread)} {i : Int} {t : Thread} (h : cell T i = some t) :
    0 ≤ i ∧ i.toNat < T.length := by
  unfold cell at h
  split at h
  · cases h
  · refine ⟨by omega, ?_⟩
    by_contra hlt
    rw [List.getD_eq_getElem?_getD, List.getElem?_eq_none (by omega)] at h
    cases h

theorem cell_set (T : List (Option Thread)) (tid j : Int) (p : Option Thread) (h0 : 0 ≤ tid)
    (h1 : tid.toNat < T.length) :
    cell (T.set tid.toNat p) j = if j = tid then p else cell T j := by
  unfold cell
  by_cases hj : j < 0
  · have : j ≠ tid := by omega
    simp [hj, this]
  · simp only [hj, if_false, List.getD_eq_getElem?_getD, List.getElem?_set]
    by_cases hjt : j = tid
    · subst hjt; simp [h1]
    · have : tid.toNat ≠ j.toNat := by omega
      simp [hjt, this]

theorem cell_replicate (n : Nat) (i : Int) : cell (List.replicate n none) i = none := by
  unfold cell
  split
  · rfl
  · rw [List.getD_eq_getElem?_getD]
    by_cases hi : i.toNat < n
    · simp [List.getElem?_replicate, hi]
    · simp [List.getElem?_replicate, hi]

theorem thread_bounds {s : Lib} {i : Int} {t : Thread} (h : s.thread i = some t) :
    0 ≤ i ∧ i.toNat < s.threads.length := cell_bounds h

theorem store_eq (s : Lib) (tid : Int) (p : Option Thread) (h0 : 0 ≤ tid)
    (h1 : tid.toNat < s.threads.length) :
    s.store tid p = some { s with threads := s.threads.set tid.toNat p } := by
  simp [Lib.store, h0, h1]

theorem modify_eq (s : Lib) (tid : Int) (g : Thread → Thread) (t : Thread)
    (h : s.thread tid = some t) :
    s.modify tid g = some { s with threads := s.threads.set tid.toNat (some (g t)) } := by
  obtain ⟨h0, h1⟩ := thread_bounds h
  simp [Lib.modify, h, store_eq s tid _ h0 h1]


theorem scan_true (q : List Int) : ∀ (n i : Nat), scan_quantum_usecs q i n = some true →
    ∀ k, i ≤ k → k < i + n → ∃ x, q[k]? = some x ∧ 0 < x := by
  intro n
  induction n with
  | zero => intro i _ k h1 h2; omega
  | succ n ih =>
    intro i h k h1 h2
    unfold scan_quantum_usecs at h
    split at h
    · cases h
    · rename_i x hx
      split at h
      · cases h
      · rename_i hpos
        by_cases hk : k = i
        · subst hk; exact ⟨x, hx, by omega⟩
        · exact ih (i + 1) h k (by omega) (by omega)

theorem init_spec (MAX_THREAD_NUM : Nat) (q : List Int) (size : Int) (s : Lib)
    (h : uthread_init MAX_THREAD_NUM Sys.ok q size (Lib.initial MAX_THREAD_NUM)
          = .returned SUCCESS s) :
    0 < MAX_THREAD_NUM ∧ 0 < size ∧ size.toNat ≤ q.length ∧
    ∃ v, q[0]? = some v ∧
    s = { threads := (List.replicate MAX_THREAD_NUM none).set 0
            (some ((Thread.mk' none 0 0).setState RUNNING).incrQuantum),
          ready_threads := [], total_quantums := 1,
          priority_array := q.take size.toNat, priority_array_cells := 1,
          priority_array_size := size, running_thread := 0,
          tid_que := (List.range' 1 (MAX_THREAD_NUM - 1)).map Int.ofNat,
          vt_usec := v } := by
  unfold uthread_init at h
  split at h
  · cases h
  · rename_i hsize
    split at h
    · cases h
    · cases h
    · rename_i hscan
      have hall := scan_true q _ 0 hscan
      have hsz : 0 < size := by omega
      obtain ⟨v, hv, _⟩ := hall 0 (le_refl _) (by omega)
      have hlen : size.toNat ≤ q.length := by
        obtain ⟨x, hx, _⟩ := hall (size.toNat - 1) (by omega) (by omega)
        have := (List.getElem?_eq_some_iff.mp hx).1
        omega
      by_cases hM : MAX_THREAD_NUM = 0
      · subst hM
        simp [Sys.ok, Lib.store, Lib.initial] at h
      · have hM' : 0 < MAX_THREAD_NUM := by omega
        refine ⟨hM', hsz, hlen, v, hv, ?_⟩
        simp [Sys.ok, Lib.store, Lib.initial, Lib.modify, Lib.thread, cell, hM', set_virtual_timer,
          Thread.getPriority, Thread.setState, Thread.incrQuantum, Thread.mk', Res.andThen] at h
        have h0 : (List.take size.toNat q)[0]? = some v := by
          rw [List.getElem?_take_of_lt (by omega)]; exact hv
        rw [h0] at h
        simp only [Res.returned.injEq, true_and] at h
        rw [← h]
        rfl

theorem mem_pool_init (n : Nat) (i : Int) :
    i ∈ (List.range' 1 (n - 1)).map Int.ofNat ↔ 1 ≤ i ∧ i < n := by
  simp only [List.mem_map, List.mem_range'_1]
  constructor
  · rintro ⟨a, ⟨h1, h2⟩, rfl⟩
    simp only [Int.ofNat_eq_coe]
    omega
  · rintro ⟨h1, h2⟩
    refine ⟨i.toNat, ⟨by omega, by omega⟩, ?_⟩
    simp only [Int.ofNat_eq_coe]
    omega

theorem nodup_pool_init (n : Nat) : ((List.range' 1 (n - 1)).map Int.ofNat).Nodup := by
  apply List.Nodup.map
  · intro a b h
    simpa using h
  · exact List.nodup_range' 1 (n - 1)

theorem inv_init (MAX_THREAD_NUM : Nat) (q : List Int) (size : Int) (s : Lib)
    (h : uthread_init MAX_THREAD_NUM Sys.ok q size (Lib.initial MAX_THREAD_NUM)
          = .returned SUCCESS s) : Inv MAX_THREAD_NUM s := by
  obtain ⟨hM, hsz, hlen, v, hv, hs⟩ := init_spec MAX_THREAD_NUM q size s h
  have hthreads : s.threads = (Lib.initial MAX_THREAD_NUM).threads.set (0 : Int).toNat
      (some ((Thread.mk' none 0 0).setState RUNNING).incrQuantum) := by rw [hs]; rfl
  have hready : s.ready_threads = [] := by rw [hs]
  have hrun : s.running_thread = 0 := by rw [hs]
  have hque : s.tid_que = (List.range' 1 (MAX_THREAD_NUM - 1)).map Int.ofNat := by rw [hs]
  have hsize : s.priority_array_size = size := by rw [hs]
  have harr : s.priority_array = q.take size.toNat := by rw [hs]
  have hth : ∀ j : Int, s.thread j
      = if j = 0 then some ((Thread.mk' none 0 0).setState RUNNING).incrQuantum else none := by
    intro j
    unfold Lib.thread
    rw [hthreads, cell_set _ 0 j _ (le_refl _) (by simpa [Lib.initial] using hM)]
    simp only [Lib.initial, cell_replicate]
  clear hs h
  constructor
  · rw [hthreads]; simp [Lib.initial]
  · exact ⟨_, by rw [hth, hrun]; exact if_pos rfl, rfl⟩
  · intro i t hi _
    rw [hth] at hi
    rw [hrun]
    by_contra hne
    rw [if_neg hne] at hi
    cases hi
  · intro i
    rw [hready]
    simp only [List.not_mem_nil, false_iff, not_exists, not_and]
    intro t ht
    rw [hth] at ht
    split at ht
    · cases ht; decide
    · cases ht
  · rw [hready]; exact List.nodup_nil
  · intro i
    rw [hth, hque, mem_pool_init]
    constructor
    · rintro ⟨h1, h2⟩
      exact ⟨h1, h2, by rw [if_neg (by omega)]⟩
    · rintro ⟨h1, h2, _⟩
      exact ⟨h1, h2⟩
  · rw [hque]; exact nodup_pool_init _
  · exact ⟨_, by rw [hth]; exact if_pos rfl, Or.inl rfl⟩
  · intro i t hi
    rw [hth] at hi
    rw [hsize]
    split at hi
    · cases hi
      simp only [Thread.incrQuantum, Thread.setState, Thread.mk']
      omega
    · cases hi
  · rw [harr, hsize, List.length_take]
    omega

theorem timer_spec (s : Lib) (tid : Int) (t : Thread) (v : Int)
    (ht : s.thread tid = some t) (hp : 0 ≤ t.__thread_priority)
    (hv : s.priority_array[t.__thread_priority.toNat]? = some v) :
    set_virtual_timer Sys.ok tid s = .returned () { s with vt_usec := v } := by
  simp [set_virtual_timer, ht, Thread.getPriority, hp, hv, Sys.ok]

theorem helper_spec (s : Lib) (mode : Int) (tr th : Thread) (h : Int) (rest : List Int) (v : Int)
    (hr : s.thread s.running_thread = some tr)
    (hq : (if mode ≠ BLOCKED then s.ready_threads ++ [s.running_thread] else s.ready_threads)
            = h :: rest)
    (hh : (if h = s.running_thread
            then some (tr.setState (if mode ≠ BLOCKED then READY else BLOCKED))
            else s.thread h) = some th)
    (hp : 0 ≤ th.__thread_priority)
    (hv : s.priority_array[th.__thread_priority.toNat]? = some v) :
    ∃ T : List (Option Thread),
      switch_threads_helper Sys.ok mode s = .returned ()
        { s with threads := T, ready_threads := rest, running_thread := h,
                 total_quantums := s.total_quantums + 1, vt_usec := v } ∧
      T.length = s.threads.length ∧
      ∀ j, cell T j =
        if j = h then some (th.incrQuantum.setState RUNNING)
        else if j = s.running_thread
          then some (tr.setState (if mode ≠ BLOCKED then READY else BLOCKED))
        else s.thread j := by
  obtain ⟨hr0, hr1⟩ := thread_bounds hr
  have hbh : 0 ≤ h ∧ h.toNat < s.threads.length := by
    split at hh
    · rename_i e; rw [e]; exact ⟨hr0, hr1⟩
    · exact thread_bounds hh
  have hc : ∀ j, cell ((s.threads.set s.running_thread.toNat
      (some (tr.setState (if mode ≠ BLOCKED then READY else BLOCKED)))).set h.toNat
      (some (th.incrQuantum.setState RUNNING))) j =
        if j = h then some (th.incrQuantum.setState RUNNING)
        else if j = s.running_thread
          then some (tr.setState (if mode ≠ BLOCKED then READY else BLOCKED))
        else s.thread j := by
    intro j
    rw [cell_set _ h j _ hbh.1 (by simpa using hbh.2), cell_set _ _ j _ hr0 hr1]
    rfl
  refine ⟨_, ?_, ?_, hc⟩
  · unfold switch_threads_helper
    by_cases hm : mode = BLOCKED
    · subst hm
      simp only [ne_eq, not_true_eq_false, if_false] at hq hh ⊢
      rw [modify_eq s _ _ tr hr]
      simp only [hq]
      have hh' : Lib.thread { threads := s.threads.set s.running_thread.toNat (some (tr.setState BLOCKED)), ready_threads := rest, total_quantums := s.total_quantums + 1, priority_array := s.priority_array, priority_array_cells := s.priority_array_cells, priority_array_size := s.priority_array_size, running_thread := h, tid_que := s.tid_que, vt_usec := s.vt_usec } h = some th := by
        unfold Lib.thread
        simp only []
        rw [cell_set _ _ h _ hr0 hr1]
        exact hh
      rw [modify_eq _ _ _ th hh']
      simp only []
      refine timer_spec _ h (th.incrQuantum.setState RUNNING) v ?_ hp hv
      unfold Lib.thread
      simp only []
      rw [cell_set _ h h _ hbh.1 (by simpa using hbh.2)]
      simp
    · simp only [ne_eq, hm, not_false_eq_true, if_true] at hq hh ⊢
      rw [modify_eq s _ _ tr hr]
      simp only [Option.map_some', hq]
      have hh' : Lib.thread { threads := s.threads.set s.running_thread.toNat (some (tr.setState READY)), ready_threads := rest, total_quantums := s.total_quantums + 1, priority_array := s.priority_array, priority_array_cells := s.priority_array_cells, priority_array_size := s.priority_array_size, running_thread := h, tid_que := s.tid_que, vt_usec := s.vt_usec } h = some th := by
        unfold Lib.thread
        simp only []
        rw [cell_set _ _ h _ hr0 hr1]
        exact hh
      rw [modify_eq _ _ _ th hh']
      simp only []
      refine timer_spec _ h (th.incrQuantum.setState RUNNING) v ?_ hp hv
      unfold Lib.thread
      simp only []
      rw [cell_set _ h h _ hbh.1 (by simpa using hbh.2)]
      simp
  · simp

/-! ## Effect of each function -/

theorem valid_tid_iff (MAX_THREAD_NUM : Nat) (s : Lib) (tid : Int) :
    valid_tid MAX_THREAD_NUM s tid = true ↔
      0 ≤ tid ∧ tid < MAX_THREAD_NUM ∧ ∃ t, s.thread tid = some t := by
  simp [valid_tid, Option.isSome_iff_exists, and_assoc]

theorem valid_tid_of_live (MAX_THREAD_NUM : Nat) (s : Lib) (tid : Int) (t : Thread)
    (hlen : s.threads.length = MAX_THREAD_NUM) (ht : s.thread tid = some t) :
    valid_tid MAX_THREAD_NUM s tid = true := by
  obtain ⟨h0, h1⟩ := thread_bounds ht
  rw [valid_tid_iff]
  exact ⟨h0, by omega, t, ht⟩

theorem valid_priority_iff (s : Lib) (p : Int) :
    valid_priority s p = true ↔ 0 ≤ p ∧ p < s.priority_array_size := by
  simp [valid_priority]

theorem terminate_thread_spec (s : Lib) (tid : Int) (t : Thread) (ht : s.thread tid = some t) :
    terminate_thread tid s = some { s with threads := s.threads.set tid.toNat none, ready_threads := (if t.__thread_cs = READY then s.ready_threads.filter (fun x => x ≠ tid) else s.ready_threads), tid_que := s.tid_que ++ [tid] } := by
  obtain ⟨h0, h1⟩ := thread_bounds ht
  unfold terminate_thread
  rw [ht]
  by_cases hst : t.__thread_cs = READY
  · simp [Thread.getState, hst, Lib.store, h0, h1]
  · simp [Thread.getState, hst, Lib.store, h0, h1]

theorem spawn_spec (s : Lib) (a : Nat) (p tid : Int) (hvp : valid_priority s p = true)
    (hmin : s.tid_que.min? = some tid) (h0 : 0 ≤ tid) (h1 : tid.toNat < s.threads.length) :
    ∃ T : List (Option Thread),
      uthread_spawn Sys.ok (some a) p s = .returned tid { s with threads := T, ready_threads := s.ready_threads ++ [tid], tid_que := s.tid_que.erase tid } ∧
      T.length = s.threads.length ∧
      ∀ j, cell T j = if j = tid then some (Thread.mk' (some a) tid p) else s.thread j := by
  refine ⟨(s.threads.set tid.toNat (some (Thread.mk' (some a) tid p))).set tid.toNat
    (some ((Thread.mk' (some a) tid p).setState READY)), ?_, by simp, ?_⟩
  · have hne : tid ≠ FAIL := by
      intro h; rw [h] at h0; exact absurd h0 (by decide)
    unfold uthread_spawn
    simp only [Option.isNone_some, hvp, Bool.not_true, Bool.or_self, Bool.false_eq_true,
      if_false, get_next_tid, hmin, hne, Sys.ok]
    simp only [Lib.store, h0, h1, and_self, if_true]
    have hc : Lib.thread { s with tid_que := s.tid_que.erase tid, threads := s.threads.set tid.toNat (some (Thread.mk' (some a) tid p)) } tid = some (Thread.mk' (some a) tid p) := by
      unfold Lib.thread
      simp only []
      rw [cell_set _ _ _ _ h0 h1, if_pos rfl]
    rw [modify_eq _ _ _ _ hc]
  · intro j
    rw [cell_set _ _ _ _ h0 (by simpa using h1), cell_set _ _ _ _ h0 h1]
    by_cases e : j = tid
    · simp only [e, if_true]; rfl
    · simp only [e, if_false]; rfl

theorem change_priority_spec (MAX_THREAD_NUM : Nat) (s : Lib) (tid p : Int) (t : Thread)
    (hvp : valid_priority s p = true) (hv : valid_tid MAX_THREAD_NUM s tid = true)
    (ht : s.thread tid = some t) :
    uthread_change_priority MAX_THREAD_NUM tid p s = .returned SUCCESS { s with threads := s.threads.set tid.toNat (some (t.setPriority p)) } := by
  unfold uthread_change_priority
  simp only [hvp, hv, Bool.not_true, Bool.or_self, Bool.false_eq_true, if_false]
  rw [modify_eq _ _ _ _ ht]

theorem resume_spec (MAX_THREAD_NUM : Nat) (s : Lib) (tid : Int) (t : Thread)
    (hv : valid_tid MAX_THREAD_NUM s tid = true) (ht : s.thread tid = some t) :
    uthread_resume MAX_THREAD_NUM tid s =
      if t.__thread_cs = BLOCKED then .returned SUCCESS { s with threads := s.threads.set tid.toNat (some (t.setState READY)), ready_threads := s.ready_threads ++ [tid] }
      else .returned SUCCESS s := by
  unfold uthread_resume
  simp only [hv, Bool.not_true, Bool.false_eq_true, if_false, ht, Thread.getState]
  split
  · rw [modify_eq _ _ _ _ ht]
  · rfl

theorem block_other_spec (MAX_THREAD_NUM : Nat) (sys : Sys) (s : Lib) (tid : Int) (t : Thread)
    (hv : valid_tid MAX_THREAD_NUM s tid = true) (ht : s.thread tid = some t)
    (hne0 : tid ≠ 0) (hner : tid ≠ s.running_thread) :
    uthread_block MAX_THREAD_NUM sys tid s =
      if t.__thread_cs = READY then .returned SUCCESS { s with threads := s.threads.set tid.toNat (some (t.setState BLOCKED)), ready_threads := s.ready_threads.filter (fun x => x ≠ tid) }
      else .returned SUCCESS s := by
  unfold uthread_block
  simp only [hv, Bool.not_true, Bool.false_eq_true, hne0, decide_False, Bool.or_self, if_false,
    ht, Thread.getState]
  have hc : Lib.thread { s with ready_threads := s.ready_threads.filter (fun x => x ≠ tid) } tid = some t := ht
  by_cases hst : t.__thread_cs = READY
  · simp only [hst, if_true]
    rw [modify_eq _ _ _ _ hc]
    simp only [hner, if_false]
  · simp only [hst, if_false, hner]

theorem block_running_spec (MAX_THREAD_NUM : Nat) (sys : Sys) (s : Lib) (t : Thread)
    (hv : valid_tid MAX_THREAD_NUM s s.running_thread = true)
    (ht : s.thread s.running_thread = some t)
    (hne0 : s.running_thread ≠ 0) (hst : t.__thread_cs ≠ READY) :
    uthread_block MAX_THREAD_NUM sys s.running_thread s =
      (switch_threads_helper sys BLOCKED s).andThen fun _ s1 => .switched s1 := by
  unfold uthread_block
  simp only [hv, Bool.not_true, Bool.false_eq_true, hne0, decide_False, Bool.or_self, if_false,
    ht, Thread.getState, hst, if_true, switch_threads]
  cases switch_threads_helper sys BLOCKED s <;> rfl

/-! ## Preservation of the invariant -/

theorem inv_dispatch (MAX_THREAD_NUM : Nat) (s s' : Lib) (tr th : Thread) (h : Int)
    (rest : List Int) (X : Int) (hX : X = READY ∨ (X = BLOCKED ∧ s.running_thread ≠ 0))
    (hinv : Inv MAX_THREAD_NUM s) (hr : s.thread s.running_thread = some tr)
    (hq : (if X = READY then s.ready_threads ++ [s.running_thread] else s.ready_threads)
            = h :: rest)
    (hh : (if h = s.running_thread then some (tr.setState X) else s.thread h) = some th)
    (hlen : s'.threads.length = s.threads.length)
    (hready : s'.ready_threads = rest) (hrun : s'.running_thread = h)
    (hque : s'.tid_que = s.tid_que) (hsize : s'.priority_array_size = s.priority_array_size)
    (harr : s'.priority_array = s.priority_array)
    (hth : ∀ j, s'.thread j =
        if j = h then some (th.incrQuantum.setState RUNNING)
        else if j = s.running_thread then some (tr.setState X)
        else s.thread j) : Inv MAX_THREAD_NUM s' := by
  obtain ⟨tr', htr', hrun_state⟩ := hinv.run_live
  rw [hr] at htr'
  cases htr'
  have hr_notin : s.running_thread ∉ s.ready_threads := by
    intro hmem
    obtain ⟨t, ht, hst⟩ := (hinv.ready_iff _).mp hmem
    rw [hr] at ht
    cases ht
    rw [hrun_state] at hst
    exact absurd hst (by decide)
  have hXne : X ≠ RUNNING := by
    rcases hX with hX | ⟨hX, _⟩ <;> rw [hX] <;> decide
  -- the queue that is popped has no duplicates
  have hnd : (h :: rest).Nodup := by
    rw [← hq]
    split
    · exact List.Nodup.append hinv.ready_nodup (List.nodup_singleton _)
        (by simpa using hr_notin)
    · exact hinv.ready_nodup
  have hmem_q : ∀ i, i ∈ h :: rest ↔
      ((∃ t, s.thread i = some t ∧ t.__thread_cs = READY) ∨ (X = READY ∧ i = s.running_thread)) := by
    intro i
    rw [← hq]
    split
    · rename_i hx
      simp only [List.mem_append, List.mem_singleton, hinv.ready_iff, hx, true_and]
    · rename_i hx
      simp only [hinv.ready_iff, hx, false_and, or_false]
  -- the head is either the preempted thread itself or a thread that was READY
  have hhead : (h = s.running_thread ∧ X = READY ∧ th = tr.setState X) ∨
      (h ≠ s.running_thread ∧ s.thread h = some th ∧ th.__thread_cs = READY) := by
    have := (hmem_q h).mp (List.mem_cons_self _ _)
    by_cases e : h = s.running_thread
    · left
      rw [if_pos e] at hh
      rcases this with ⟨t, ht, hst⟩ | ⟨hx, _⟩
      · rw [e, hr] at ht
        cases ht
        rw [hrun_state] at hst
        exact absurd hst (by decide)
      · exact ⟨e, hx, by cases hh; rfl⟩
    · right
      rw [if_neg e] at hh
      rcases this with ⟨t, ht, hst⟩ | ⟨_, e'⟩
      · rw [hh] at ht
        cases ht
        exact ⟨e, hh, hst⟩
      · exact absurd e' e
  have hlive : ∀ j, (s'.thread j = none ↔ s.thread j = none) := by
    intro j
    rw [hth]
    by_cases e1 : j = h
    · rw [if_pos e1]
      rcases hhead with ⟨e, _, _⟩ | ⟨_, hsome, _⟩
      · rw [e1, e, hr]; simp
      · rw [e1, hsome]; simp
    · rw [if_neg e1]
      by_cases e2 : j = s.running_thread
      · rw [if_pos e2, e2, hr]; simp
      · rw [if_neg e2]
  constructor
  · rw [hlen]; exact hinv.len
  · exact ⟨_, by rw [hrun, hth, if_pos rfl], rfl⟩
  · intro i t hi hst
    rw [hrun]
    rw [hth] at hi
    by_contra e1
    rw [if_neg e1] at hi
    by_cases e2 : i = s.running_thread
    · rw [if_pos e2] at hi
      cases hi
      exact hXne hst
    · rw [if_neg e2] at hi
      exact e2 (hinv.run_unique i t hi hst)
  · intro i
    rw [hready, hth]
    have hcons : i ∈ rest ↔ (i ∈ h :: rest ∧ i ≠ h) := by
      constructor
      · intro hi
        refine ⟨List.mem_cons_of_mem _ hi, ?_⟩
        rintro rfl
        exact (List.nodup_cons.mp hnd).1 hi
      · rintro ⟨hi, hne⟩
        rcases List.mem_cons.mp hi with e | hi
        · exact absurd e hne
        · exact hi
    rw [hcons, hmem_q]
    by_cases e1 : i = h
    · rw [if_pos e1]
      constructor
      · rintro ⟨_, hne⟩; exact absurd e1 hne
      · rintro ⟨t, ht, hst⟩
        cases ht
        exact absurd (show (0 : Int) = 1 from hst) (by decide)
    · rw [if_neg e1]
      by_cases e2 : i = s.running_thread
      · rw [if_pos e2]
        constructor
        · rintro ⟨hor, _⟩
          rcases hor with ⟨t, ht, hst⟩ | ⟨hx, _⟩
          · rw [e2, hr] at ht
            cases ht
            rw [hrun_state] at hst
            exact absurd hst (by decide)
          · exact ⟨_, rfl, hx⟩
        · rintro ⟨t, ht, hst⟩
          cases ht
          exact ⟨Or.inr ⟨hst, e2⟩, e1⟩
      · rw [if_neg e2]
        constructor
        · rintro ⟨hor, _⟩
          rcases hor with hor | ⟨_, e⟩
          · exact hor
          · exact absurd e e2
        · intro hex
          exact ⟨Or.inl hex, e1⟩
  · rw [hready]; exact (List.nodup_cons.mp hnd).2
  · intro i
    rw [hque, hinv.pool_iff, hlive]
  · rw [hque]; exact hinv.pool_nodup
  · rw [hth]
    by_cases e1 : (0 : Int) = h
    · exact ⟨_, if_pos e1, Or.inl rfl⟩
    · rw [if_neg e1]
      by_cases e2 : (0 : Int) = s.running_thread
      · rw [if_pos e2]
        rcases hX with hX | ⟨_, hne⟩
        · exact ⟨_, rfl, Or.inr hX⟩
        · exact absurd e2.symm hne
      · rw [if_neg e2]
        exact hinv.main_live
  · intro i t hi
    rw [hsize]
    rw [hth] at hi
    by_cases e1 : i = h
    · rw [if_pos e1] at hi
      cases hi
      rcases hhead with ⟨_, _, hthr⟩ | ⟨_, hsome, _⟩
      · rw [hthr]
        exact hinv.prio _ tr hr
      · exact hinv.prio _ th hsome
    · rw [if_neg e1] at hi
      by_cases e2 : i = s.running_thread
      · rw [if_pos e2] at hi
        cases hi
        exact hinv.prio _ tr hr
      · rw [if_neg e2] at hi
        exact hinv.prio _ _ hi
  · rw [harr, hsize]; exact hinv.table

theorem inv_update (MAX_THREAD_NUM : Nat) (s s' : Lib) (tid : Int) (p : Option Thread)
    (hinv : Inv MAX_THREAD_NUM s)
    (hlen : s'.threads.length = s.threads.length)
    (hrun : s'.running_thread = s.running_thread)
    (hsize : s'.priority_array_size = s.priority_array_size)
    (harr : s'.priority_array = s.priority_array)
    (hth : ∀ j, s'.thread j = if j = tid then p else s.thread j)
    (hp_run : tid = s.running_thread → ∃ t, p = some t ∧ t.__thread_cs = RUNNING)
    (hp_nrun : ∀ t, p = some t → t.__thread_cs = RUNNING → tid = s.running_thread)
    (hp_main : tid = 0 → ∃ t, p = some t ∧ (t.__thread_cs = RUNNING ∨ t.__thread_cs = READY))
    (hp_prio : ∀ t, p = some t →
      0 ≤ t.__thread_priority ∧ t.__thread_priority < s.priority_array_size)
    (hready_mem : ∀ i, i ∈ s'.ready_threads ↔
      ((i ≠ tid ∧ i ∈ s.ready_threads) ∨ (i = tid ∧ ∃ t, p = some t ∧ t.__thread_cs = READY)))
    (hready_nd : s'.ready_threads.Nodup)
    (hque_mem : ∀ i, i ∈ s'.tid_que ↔
      ((i ≠ tid ∧ i ∈ s.tid_que) ∨ (i = tid ∧ p = none ∧ 1 ≤ tid ∧ tid < MAX_THREAD_NUM)))
    (hque_nd : s'.tid_que.Nodup) : Inv MAX_THREAD_NUM s' := by
  constructor
  · rw [hlen]; exact hinv.len
  · rw [hrun, hth]
    by_cases e : s.running_thread = tid
    · rw [if_pos e]
      obtain ⟨t, hpt, hst⟩ := hp_run e.symm
      exact ⟨t, hpt, hst⟩
    · rw [if_neg e]
      exact hinv.run_live
  · intro i t hi hst
    rw [hrun]
    rw [hth] at hi
    by_cases e : i = tid
    · rw [if_pos e] at hi
      rw [e]
      exact hp_nrun t hi hst
    · rw [if_neg e] at hi
      exact hinv.run_unique i t hi hst
  · intro i
    rw [hready_mem, hth]
    by_cases e : i = tid
    · rw [if_pos e]
      constructor
      · rintro (⟨hne, _⟩ | ⟨_, hex⟩)
        · exact absurd e hne
        · exact hex
      · intro hex
        exact Or.inr ⟨e, hex⟩
    · rw [if_neg e, ← hinv.ready_iff]
      constructor
      · rintro (⟨_, hm⟩ | ⟨e', _⟩)
        · exact hm
        · exact absurd e' e
      · intro hm
        exact Or.inl ⟨e, hm⟩
  · exact hready_nd
  · intro i
    rw [hque_mem, hth]
    by_cases e : i = tid
    · rw [if_pos e]
      constructor
      · rintro (⟨hne, _⟩ | ⟨_, hp, h1, h2⟩)
        · exact absurd e hne
        · rw [e]; exact ⟨h1, h2, hp⟩
      · rintro ⟨h1, h2, hp⟩
        rw [e] at h1 h2
        exact Or.inr ⟨e, hp, h1, h2⟩
    · rw [if_neg e, ← hinv.pool_iff]
      constructor
      · rintro (⟨_, hm⟩ | ⟨e', _⟩)
        · exact hm
        · exact absurd e' e
      · intro hm
        exact Or.inl ⟨e, hm⟩
  · exact hque_nd
  · rw [hth]
    by_cases e : (0 : Int) = tid
    · rw [if_pos e]
      exact hp_main e.symm
    · rw [if_neg e]
      exact hinv.main_live
  · intro i t hi
    rw [hsize]
    rw [hth] at hi
    by_cases e : i = tid
    · rw [if_pos e] at hi
      exact hp_prio t hi
    · rw [if_neg e] at hi
      exact hinv.prio i t hi
  · rw [harr, hsize]; exact hinv.table

theorem inv_lookup {MAX_THREAD_NUM : Nat} {s : Lib} (hinv : Inv MAX_THREAD_NUM s) {i : Int}
    {t : Thread} (ht : s.thread i = some t) :
    0 ≤ t.__thread_priority ∧ ∃ v, s.priority_array[t.__thread_priority.toNat]? = some v := by
  obtain ⟨h0, h1⟩ := hinv.prio i t ht
  refine ⟨h0, ?_⟩
  have hlt : t.__thread_priority.toNat < s.priority_array.length := by
    rw [hinv.table]; omega
  exact ⟨s.priority_array[t.__thread_priority.toNat], List.getElem?_eq_getElem hlt⟩

theorem inv_not_ready_of_running {MAX_THREAD_NUM : Nat} {s : Lib} (hinv : Inv MAX_THREAD_NUM s) :
    s.running_thread ∉ s.ready_threads := by
  intro hmem
  obtain ⟨t, ht, hst⟩ := (hinv.ready_iff _).mp hmem
  obtain ⟨t', ht', hst'⟩ := hinv.run_live
  rw [ht] at ht'
  cases ht'
  rw [hst'] at hst
  exact absurd hst (by decide)

theorem inv_live_not_pool {MAX_THREAD_NUM : Nat} {s : Lib} (hinv : Inv MAX_THREAD_NUM s)
    {i : Int} {t : Thread} (ht : s.thread i = some t) : i ∉ s.tid_que := by
  intro hmem
  have := ((hinv.pool_iff i).mp hmem).2.2
  rw [ht] at this
  cases this

theorem inv_main_in_ready {MAX_THREAD_NUM : Nat} {s : Lib} (hinv : Inv MAX_THREAD_NUM s)
    (hne : s.running_thread ≠ 0) : (0 : Int) ∈ s.ready_threads := by
  obtain ⟨t, ht, hst⟩ := hinv.main_live
  rcases hst with hst | hst
  · exact absurd (hinv.run_unique 0 t ht hst).symm hne
  · exact (hinv.ready_iff 0).mpr ⟨t, ht, hst⟩

/-- Effect of `switch_threads_helper` in a state that satisfies the invariant. -/
theorem dispatch_spec (MAX_THREAD_NUM : Nat) (s : Lib) (mode : Int)
    (hmode : mode = READY ∨ (mode = BLOCKED ∧ s.running_thread ≠ 0))
    (hinv : Inv MAX_THREAD_NUM s) :
    ∃ (tr th : Thread) (h : Int) (rest : List Int) (v : Int) (T : List (Option Thread)),
      s.thread s.running_thread = some tr ∧ tr.__thread_cs = RUNNING ∧
      (if mode = READY then s.ready_threads ++ [s.running_thread] else s.ready_threads)
        = h :: rest ∧
      (if h = s.running_thread then some (tr.setState mode) else s.thread h) = some th ∧
      s.priority_array[th.__thread_priority.toNat]? = some v ∧
      switch_threads_helper Sys.ok mode s = .returned () { s with threads := T, ready_threads := rest, running_thread := h, total_quantums := s.total_quantums + 1, vt_usec := v } ∧
      T.length = s.threads.length ∧
      (∀ j, cell T j =
        if j = h then some (th.incrQuantum.setState RUNNING)
        else if j = s.running_thread then some (tr.setState mode)
        else s.thread j) ∧
      Inv MAX_THREAD_NUM { s with threads := T, ready_threads := rest, running_thread := h, total_quantums := s.total_quantums + 1, vt_usec := v } := by
  obtain ⟨tr, hr, hrs⟩ := hinv.run_live
  have hmb : (mode ≠ BLOCKED) ↔ (mode = READY) := by
    rcases hmode with h | ⟨h, _⟩ <;> rw [h] <;> decide
  have hmset : (if mode ≠ BLOCKED then READY else BLOCKED) = mode := by
    rcases hmode with h | ⟨h, _⟩ <;> rw [h] <;> decide
  -- the queue that is popped is not empty
  have hne : (if mode = READY then s.ready_threads ++ [s.running_thread] else s.ready_threads)
      ≠ [] := by
    rcases hmode with h | ⟨h, hr0⟩
    · rw [if_pos h]; simp
    · rw [if_neg (by rw [h]; decide)]
      exact List.ne_nil_of_mem (inv_main_in_ready hinv hr0)
  obtain ⟨h, rest, hq⟩ := List.exists_cons_of_ne_nil hne
  -- its head has a TCB
  have hhead : ∃ th, (if h = s.running_thread then some (tr.setState mode) else s.thread h)
      = some th ∧ 0 ≤ th.__thread_priority ∧
        ∃ v, s.priority_array[th.__thread_priority.toNat]? = some v := by
    by_cases e : h = s.running_thread
    · rw [if_pos e]
      exact ⟨_, rfl, inv_lookup (t := tr) hinv hr⟩
    · rw [if_neg e]
      have hmem : h ∈ s.ready_threads := by
        have hm : h ∈ (if mode = READY then s.ready_threads ++ [s.running_thread]
            else s.ready_threads) := by rw [hq]; exact List.mem_cons_self _ _
        split at hm
        · rcases List.mem_append.mp hm with hm | hm
          · exact hm
          · exact absurd (List.mem_singleton.mp hm) e
        · exact hm
      obtain ⟨th, hth, _⟩ := (hinv.ready_iff h).mp hmem
      exact ⟨th, hth, inv_lookup hinv hth⟩
  obtain ⟨th, hh, hp, v, hv⟩ := hhead
  have hq' : (if mode ≠ BLOCKED then s.ready_threads ++ [s.running_thread]
      else s.ready_threads) = h :: rest := by
    rw [← hq]
    by_cases hm : mode = READY
    · rw [if_pos (hmb.mpr hm), if_pos hm]
    · rw [if_neg (fun hc => hm (hmb.mp hc)), if_neg hm]
  obtain ⟨T, hres, hlen, hcell⟩ := helper_spec s mode tr th h rest v hr hq'
    (by rw [hmset]; exact hh) hp hv
  rw [hmset] at hcell
  refine ⟨tr, th, h, rest, v, T, hr, hrs, hq, hh, hv, hres, hlen, hcell, ?_⟩
  exact inv_dispatch MAX_THREAD_NUM s _ tr th h rest mode hmode hinv hr hq hh hlen rfl rfl rfl
    rfl rfl hcell

theorem min_spec {l : List Int} {a : Int} (h : l.min? = some a) : a ∈ l ∧ ∀ b ∈ l, a ≤ b := by
  haveI : Std.Antisymm (fun (x y : Int) => x ≤ y) := ⟨fun h1 h2 => le_antisymm h1 h2⟩
  exact (List.min?_eq_some_iff (α := Int) le_refl min_choice (fun _ _ _ => le_min_iff)).mp h

theorem min_none {l : List Int} (h : l.min? = none) : l = [] := by
  cases l with
  | nil => rfl
  | cons x xs => simp [List.min?] at h

theorem min_exists {l : List Int} (h : l ≠ []) : ∃ a, l.min? = some a := by
  cases hm : l.min? with
  | none => exact absurd (min_none hm) h
  | some a => exact ⟨a, rfl⟩

theorem inv_terminate_thread (MAX_THREAD_NUM : Nat) (s : Lib) (tid : Int) (t : Thread)
    (hinv : Inv MAX_THREAD_NUM s) (ht : s.thread tid = some t) (hne0 : tid ≠ 0)
    (hner : tid ≠ s.running_thread) :
    Inv MAX_THREAD_NUM { s with threads := s.threads.set tid.toNat none, ready_threads := (if t.__thread_cs = READY then s.ready_threads.filter (fun x => x ≠ tid) else s.ready_threads), tid_que := s.tid_que ++ [tid] } := by
  obtain ⟨h0, h1⟩ := thread_bounds ht
  have hnp := inv_live_not_pool hinv ht
  refine inv_update MAX_THREAD_NUM s _ tid none hinv (by simp) rfl rfl rfl
    (fun j => cell_set _ _ _ _ h0 h1) (fun e => absurd e hner) (fun _ h => by cases h)
    (fun e => absurd e hne0) (fun _ h => by cases h) ?_ ?_ ?_ ?_
  · intro i
    simp only []
    by_cases hst : t.__thread_cs = READY
    · simp only [hst, if_true, List.mem_filter, decide_eq_true_eq]
      constructor
      · rintro ⟨hm, hne⟩; exact Or.inl ⟨hne, hm⟩
      · rintro (⟨hne, hm⟩ | ⟨_, _, hc, _⟩)
        · exact ⟨hm, hne⟩
        · cases hc
    · simp only [hst, if_false]
      constructor
      · intro hm
        refine Or.inl ⟨?_, hm⟩
        rintro rfl
        obtain ⟨t', ht', hst'⟩ := (hinv.ready_iff _).mp hm
        rw [ht] at ht'; cases ht'
        exact hst hst'
      · rintro (⟨_, hm⟩ | ⟨_, _, hc, _⟩)
        · exact hm
        · cases hc
  · simp only []
    split
    · exact hinv.ready_nodup.filter _
    · exact hinv.ready_nodup
  · intro i
    simp only [List.mem_append, List.mem_singleton]
    constructor
    · rintro (hm | e)
      · refine Or.inl ⟨?_, hm⟩
        rintro rfl
        exact hnp hm
      · exact Or.inr ⟨e, trivial, by omega, by have := hinv.len; omega⟩
    · rintro (⟨_, hm⟩ | ⟨e, _⟩)
      · exact Or.inl hm
      · exact Or.inr e
  · exact List.Nodup.append hinv.pool_nodup (List.nodup_singleton _) (by simpa using hnp)

theorem inv_spawn (MAX_THREAD_NUM : Nat) (s : Lib) (tid prio : Int) (f : Option Nat)
    (T : List (Option Thread)) (hinv : Inv MAX_THREAD_NUM s) (hmem : tid ∈ s.tid_que)
    (hvp : valid_priority s prio = true) (hlen : T.length = s.threads.length)
    (hcell : ∀ j, cell T j = if j = tid then some (Thread.mk' f tid prio) else s.thread j) :
    Inv MAX_THREAD_NUM { s with threads := T, ready_threads := s.ready_threads ++ [tid], tid_que := s.tid_que.erase tid } := by
  obtain ⟨h1, h2, hnone⟩ := (hinv.pool_iff tid).mp hmem
  obtain ⟨tr, hr, _⟩ := hinv.run_live
  have hnr : tid ∉ s.ready_threads := by
    intro hm
    obtain ⟨t', ht', _⟩ := (hinv.ready_iff _).mp hm
    rw [hnone] at ht'; cases ht'
  refine inv_update MAX_THREAD_NUM s _ tid (some (Thread.mk' f tid prio)) hinv hlen rfl rfl rfl
    hcell ?_ ?_ (fun e => by omega) ?_ ?_ ?_ ?_ ?_
  · intro e
    rw [e, hr] at hnone; cases hnone
  · intro t ht hst
    cases ht
    exact absurd hst (by simp [Thread.mk'])
  · intro t ht
    cases ht
    exact (valid_priority_iff s prio).mp hvp
  · intro i
    simp only [List.mem_append, List.mem_singleton]
    constructor
    · rintro (hm | e)
      · refine Or.inl ⟨?_, hm⟩
        rintro rfl
        exact hnr hm
      · exact Or.inr ⟨e, _, rfl, rfl⟩
    · rintro (⟨_, hm⟩ | ⟨e, _⟩)
      · exact Or.inl hm
      · exact Or.inr e
  · exact List.Nodup.append hinv.ready_nodup (List.nodup_singleton _) (by simpa using hnr)
  · intro i
    simp only []
    rw [hinv.pool_nodup.mem_erase_iff]
    constructor
    · intro h; exact Or.inl h
    · rintro (h | ⟨_, hc, _⟩)
      · exact h
      · cases hc
  · exact hinv.pool_nodup.erase _

theorem inv_resume (MAX_THREAD_NUM : Nat) (s : Lib) (tid : Int) (t : Thread)
    (hinv : Inv MAX_THREAD_NUM s) (ht : s.thread tid = some t) (hst : t.__thread_cs = BLOCKED) :
    Inv MAX_THREAD_NUM { s with threads := s.threads.set tid.toNat (some (t.setState READY)), ready_threads := s.ready_threads ++ [tid] } := by
  obtain ⟨h0, h1⟩ := thread_bounds ht
  obtain ⟨tr, hr, hrs⟩ := hinv.run_live
  have hnr : tid ∉ s.ready_threads := by
    intro hm
    obtain ⟨t', ht', hst'⟩ := (hinv.ready_iff _).mp hm
    rw [ht] at ht'; cases ht'
    rw [hst] at hst'
    exact absurd hst' (by decide)
  refine inv_update MAX_THREAD_NUM s _ tid (some (t.setState READY)) hinv (by simp) rfl rfl rfl
    (fun j => cell_set _ _ _ _ h0 h1) ?_ ?_ (fun _ => ⟨_, rfl, Or.inr rfl⟩) ?_ ?_ ?_ ?_
    hinv.pool_nodup
  · intro e
    rw [e, hr] at ht; cases ht
    rw [hst] at hrs
    exact absurd hrs (by decide)
  · intro t' ht' hst'
    cases ht'
    exact absurd hst' (by simp [Thread.setState])
  · intro t' ht'
    cases ht'
    exact hinv.prio tid t ht
  · intro i
    simp only [List.mem_append, List.mem_singleton]
    constructor
    · rintro (hm | e)
      · refine Or.inl ⟨?_, hm⟩
        rintro rfl
        exact hnr hm
      · exact Or.inr ⟨e, _, rfl, rfl⟩
    · rintro (⟨_, hm⟩ | ⟨e, _⟩)
      · exact Or.inl hm
      · exact Or.inr e
  · exact List.Nodup.append hinv.ready_nodup (List.nodup_singleton _) (by simpa using hnr)
  · intro i
    simp only []
    constructor
    · intro hm
      refine Or.inl ⟨?_, hm⟩
      rintro rfl
      exact inv_live_not_pool hinv ht hm
    · rintro (⟨_, hm⟩ | ⟨_, hc, _⟩)
      · exact hm
      · cases hc

theorem inv_block_other (MAX_THREAD_NUM : Nat) (s : Lib) (tid : Int) (t : Thread)
    (hinv : Inv MAX_THREAD_NUM s) (ht : s.thread tid = some t) (hst : t.__thread_cs = READY)
    (hne0 : tid ≠ 0) :
    Inv MAX_THREAD_NUM { s with threads := s.threads.set tid.toNat (some (t.setState BLOCKED)), ready_threads := s.ready_threads.filter (fun x => x ≠ tid) } := by
  obtain ⟨h0, h1⟩ := thread_bounds ht
  obtain ⟨tr, hr, hrs⟩ := hinv.run_live
  refine inv_update MAX_THREAD_NUM s _ tid (some (t.setState BLOCKED)) hinv (by simp) rfl rfl rfl
    (fun j => cell_set _ _ _ _ h0 h1) ?_ ?_ (fun e => absurd e hne0) ?_ ?_
    (hinv.ready_nodup.filter _) ?_ hinv.pool_nodup
  · intro e
    rw [e, hr] at ht; cases ht
    rw [hst] at hrs
    exact absurd hrs (by decide)
  · intro t' ht' hst'
    cases ht'
    exact absurd hst' (by simp [Thread.setState])
  · intro t' ht'
    cases ht'
    exact hinv.prio tid t ht
  · intro i
    simp only [List.mem_filter, decide_eq_true_eq]
    constructor
    · rintro ⟨hm, hne⟩; exact Or.inl ⟨hne, hm⟩
    · rintro (⟨hne, hm⟩ | ⟨_, t', hc, hst'⟩)
      · exact ⟨hm, hne⟩
      · cases hc
        exact absurd hst' (by simp [Thread.setState])
  · intro i
    simp only []
    constructor
    · intro hm
      refine Or.inl ⟨?_, hm⟩
      rintro rfl
      exact inv_live_not_pool hinv ht hm
    · rintro (⟨_, hm⟩ | ⟨_, hc, _⟩)
      · exact hm
      · cases hc

theorem inv_change_priority (MAX_THREAD_NUM : Nat) (s : Lib) (tid p : Int) (t : Thread)
    (hinv : Inv MAX_THREAD_NUM s) (ht : s.thread tid = some t)
    (hvp : valid_priority s p = true) :
    Inv MAX_THREAD_NUM { s with threads := s.threads.set tid.toNat (some (t.setPriority p)) } := by
  obtain ⟨h0, h1⟩ := thread_bounds ht
  obtain ⟨tr, hr, hrs⟩ := hinv.run_live
  refine inv_update MAX_THREAD_NUM s _ tid (some (t.setPriority p)) hinv (by simp) rfl rfl rfl
    (fun j => cell_set _ _ _ _ h0 h1) ?_ ?_ ?_ ?_ ?_ hinv.ready_nodup ?_ hinv.pool_nodup
  · intro e
    rw [e, hr] at ht; cases ht
    exact ⟨_, rfl, hrs⟩
  · intro t' ht' hst'
    cases ht'
    exact hinv.run_unique tid t ht hst'
  · intro e
    obtain ⟨t0, ht0, hs0⟩ := hinv.main_live
    rw [e, ht0] at ht; cases ht
    exact ⟨_, rfl, hs0⟩
  · intro t' ht'
    cases ht'
    exact (valid_priority_iff s p).mp hvp
  · intro i
    simp only []
    constructor
    · intro hm
      by_cases e : i = tid
      · right
        obtain ⟨t', ht', hst'⟩ := (hinv.ready_iff _).mp hm
        rw [e, ht] at ht'; cases ht'
        exact ⟨e, _, rfl, hst'⟩
      · exact Or.inl ⟨e, hm⟩
    · rintro (⟨_, hm⟩ | ⟨e, t', hc, hst'⟩)
      · exact hm
      · cases hc
        rw [e]
        exact (hinv.ready_iff _).mpr ⟨t, ht, hst'⟩
  · intro i
    simp only []
    constructor
    · intro hm
      refine Or.inl ⟨?_, hm⟩
      rintro rfl
      exact inv_live_not_pool hinv ht hm
    · rintro (⟨_, hm⟩ | ⟨_, hc, _⟩)
      · exact hm
      · cases hc

theorem spawn_cases (MAX_THREAD_NUM : Nat) (s : Lib) (f : Option Nat) (p : Int)
    (hinv : Inv MAX_THREAD_NUM s) :
    uthread_spawn Sys.ok f p s = .returned FAIL s ∨
    ∃ (a : Nat) (tid : Int) (T : List (Option Thread)),
      f = some a ∧ valid_priority s p = true ∧ s.tid_que.min? = some tid ∧
      uthread_spawn Sys.ok f p s = .returned tid { s with threads := T, ready_threads := s.ready_threads ++ [tid], tid_que := s.tid_que.erase tid } ∧
      T.length = s.threads.length ∧
      (∀ j, cell T j = if j = tid then some (Thread.mk' (some a) tid p) else s.thread j) ∧
      Inv MAX_THREAD_NUM { s with threads := T, ready_threads := s.ready_threads ++ [tid], tid_que := s.tid_que.erase tid } := by
  cases f with
  | none => left; simp [uthread_spawn]
  | some a =>
    by_cases hvp : valid_priority s p = true
    · cases hmin : s.tid_que.min? with
      | none =>
        left
        simp [uthread_spawn, hvp, get_next_tid, hmin]
      | some tid =>
        right
        have hmem := (min_spec hmin).1
        obtain ⟨h1, h2, _⟩ := (hinv.pool_iff tid).mp hmem
        have hlen := hinv.len
        obtain ⟨T, hres, hT, hcell⟩ := spawn_spec s a p tid hvp hmin (by omega) (by omega)
        exact ⟨a, tid, T, rfl, hvp, rfl, hres, hT, hcell,
          inv_spawn MAX_THREAD_NUM s tid p (some a) T hinv hmem hvp hT hcell⟩
    · left
      simp [uthread_spawn, hvp]

theorem terminate_running_spec (MAX_THREAD_NUM : Nat) (s : Lib) (hinv : Inv MAX_THREAD_NUM s)
    (hne0 : s.running_thread ≠ 0) :
    ∃ (tr th : Thread) (h : Int) (rest : List Int) (v : Int) (T : List (Option Thread)),
      s.thread s.running_thread = some tr ∧ s.ready_threads = h :: rest ∧
      s.thread h = some th ∧ h ≠ s.running_thread ∧
      s.priority_array[th.__thread_priority.toNat]? = some v ∧
      uthread_terminate MAX_THREAD_NUM Sys.ok s.running_thread s = .switched { s with threads := T, ready_threads := rest, running_thread := h, total_quantums := s.total_quantums + 1, vt_usec := v, tid_que := s.tid_que ++ [s.running_thread] } ∧
      T.length = s.threads.length ∧
      (∀ j, cell T j =
        if j = s.running_thread then none
        else if j = h then some (th.incrQuantum.setState RUNNING)
        else s.thread j) ∧
      Inv MAX_THREAD_NUM { s with threads := T, ready_threads := rest, running_thread := h, total_quantums := s.total_quantums + 1, vt_usec := v, tid_que := s.tid_que ++ [s.running_thread] } := by
  obtain ⟨tr, th, h, rest, v, T, hr, hrs, hq, hh, hv, hres, hT, hcell, hinv1⟩ :=
    dispatch_spec MAX_THREAD_NUM s BLOCKED (Or.inr ⟨rfl, hne0⟩) hinv
  rw [if_neg (by decide)] at hq
  have hne : h ≠ s.running_thread := by
    intro e
    have := inv_not_ready_of_running hinv
    rw [hq, ← e] at this
    exact this (List.mem_cons_self _ _)
  rw [if_neg hne] at hh
  have hvalid := valid_tid_of_live MAX_THREAD_NUM s _ tr hinv.len hr
  have hr1 : Lib.thread { s with threads := T, ready_threads := rest, running_thread := h, total_quantums := s.total_quantums + 1, vt_usec := v } s.running_thread = some (tr.setState BLOCKED) := by
    show cell T s.running_thread = _
    rw [hcell, if_neg (Ne.symm hne), if_pos rfl]
  obtain ⟨hb0, hb1⟩ := thread_bounds hr
  have hterm := terminate_thread_spec _ _ _ hr1
  have hinv2 := inv_terminate_thread MAX_THREAD_NUM _ _ _ hinv1 hr1 hne0 (Ne.symm hne)
  simp only [Thread.setState, show ¬ (BLOCKED = READY) by decide, if_false] at hterm hinv2
  refine ⟨tr, th, h, rest, v, T.set s.running_thread.toNat none, hr, hq, hh, hne, hv, ?_,
    by simp [hT], ?_, hinv2⟩
  · unfold uthread_terminate
    simp only [hvalid, Bool.not_true, Bool.false_eq_true, if_false, hne0, MAIN_THREAD_ID,
      if_true, hres, Res.andThen, hterm]
  · intro j
    rw [cell_set _ _ _ _ hb0 (by omega), hcell]
    by_cases e1 : j = s.running_thread
    · simp only [e1, if_true]
    · simp only [e1, if_false]

theorem step_inv (MAX_THREAD_NUM : Nat) (e : Event) (s s' : Lib)
    (hinv : Inv MAX_THREAD_NUM s) (h : step MAX_THREAD_NUM e s = some s') :
    Inv MAX_THREAD_NUM s' := by
  unfold step at h
  cases e with
  | spawn f p =>
    simp only [Event.run] at h
    rcases spawn_cases MAX_THREAD_NUM s f p hinv with hfail | ⟨a, tid, T, _, _, _, hres, _, _, hi⟩
    · rw [hfail] at h
      simp only [Res.next, Option.some.injEq] at h
      rw [← h]; exact hinv
    · rw [hres] at h
      simp only [Res.next, Option.some.injEq] at h
      rw [← h]; exact hi
  | change_priority tid p =>
    simp only [Event.run] at h
    by_cases hvp : valid_priority s p = true
    · by_cases hv : valid_tid MAX_THREAD_NUM s tid = true
      · obtain ⟨_, _, t, ht⟩ := (valid_tid_iff _ _ _).mp hv
        rw [change_priority_spec MAX_THREAD_NUM s tid p t hvp hv ht] at h
        simp only [Res.next, Option.some.injEq] at h
        rw [← h]; exact inv_change_priority MAX_THREAD_NUM s tid p t hinv ht hvp
      · simp only [uthread_change_priority, hv, hvp, Bool.not_true, Bool.not_false,
          Bool.or_true, if_true, Res.next, Option.some.injEq] at h
        rw [← h]; exact hinv
    · simp only [uthread_change_priority, hvp, Bool.not_false, Bool.true_or,
        if_true, Res.next, Option.some.injEq] at h
      rw [← h]; exact hinv
  | terminate tid =>
    simp only [Event.run] at h
    by_cases hv : valid_tid MAX_THREAD_NUM s tid = true
    · obtain ⟨_, _, t, ht⟩ := (valid_tid_iff _ _ _).mp hv
      by_cases h0 : tid = 0
      · subst h0
        simp only [uthread_terminate, hv, Bool.not_true, Bool.false_eq_true, if_false,
          MAIN_THREAD_ID, if_true] at h
        split at h <;> simp [Res.next] at h
      · by_cases hr : tid = s.running_thread
        · subst hr
          obtain ⟨_, _, _, _, _, _, _, _, _, _, _, hres, _, _, hi⟩ :=
            terminate_running_spec MAX_THREAD_NUM s hinv h0
          rw [hres] at h
          simp only [Res.next, Option.some.injEq] at h
          rw [← h]; exact hi
        · simp only [uthread_terminate, hv, Bool.not_true, Bool.false_eq_true, if_false, h0,
            MAIN_THREAD_ID, hr, terminate_thread_spec s tid t ht, Res.next,
            Option.some.injEq] at h
          rw [← h]; exact inv_terminate_thread MAX_THREAD_NUM s tid t hinv ht h0 hr
    · simp only [uthread_terminate, hv, Bool.not_false, if_true, Res.next,
        Option.some.injEq] at h
      rw [← h]; exact hinv
  | block tid =>
    simp only [Event.run] at h
    by_cases hv : valid_tid MAX_THREAD_NUM s tid = true
    · obtain ⟨_, _, t, ht⟩ := (valid_tid_iff _ _ _).mp hv
      by_cases h0 : tid = 0
      · simp only [uthread_block, h0, MAIN_THREAD_ID, decide_True, Bool.or_true, if_true,
          Res.next, Option.some.injEq] at h
        rw [← h]; exact hinv
      · by_cases hr : tid = s.running_thread
        · subst hr
          obtain ⟨tr, htr, hrs⟩ := hinv.run_live
          rw [ht] at htr; cases htr
          rw [block_running_spec MAX_THREAD_NUM Sys.ok s t hv ht h0
            (by rw [hrs]; decide)] at h
          obtain ⟨_, _, _, _, _, _, _, _, _, _, _, hres, _, _, hi⟩ :=
            dispatch_spec MAX_THREAD_NUM s BLOCKED (Or.inr ⟨rfl, h0⟩) hinv
          rw [hres] at h
          simp only [Res.andThen, Res.next, Option.some.injEq] at h
          rw [← h]; exact hi
        · rw [block_other_spec MAX_THREAD_NUM Sys.ok s tid t hv ht h0 hr] at h
          split at h
          · rename_i hst
            simp only [Res.next, Option.some.injEq] at h
            rw [← h]; exact inv_block_other MAX_THREAD_NUM s tid t hinv ht hst h0
          · simp only [Res.next, Option.some.injEq] at h
            rw [← h]; exact hinv
    · simp only [uthread_block, hv, Bool.not_false, Bool.true_or, if_true, Res.next,
        Option.some.injEq] at h
      rw [← h]; exact hinv
  | resume tid =>
    simp only [Event.run] at h
    by_cases hv : valid_tid MAX_THREAD_NUM s tid = true
    · obtain ⟨_, _, t, ht⟩ := (valid_tid_iff _ _ _).mp hv
      rw [resume_spec MAX_THREAD_NUM s tid t hv ht] at h
      split at h
      · rename_i hst
        simp only [Res.next, Option.some.injEq] at h
        rw [← h]; exact inv_resume MAX_THREAD_NUM s tid t hinv ht hst
      · simp only [Res.next, Option.some.injEq] at h
        rw [← h]; exact hinv
    · simp only [uthread_resume, hv, Bool.not_false, if_true, Res.next,
        Option.some.injEq] at h
      rw [← h]; exact hinv
  | get_quantums tid =>
    simp only [Event.run, uthread_get_quantums] at h
    split at h
    · simp only [Res.next, Option.some.injEq] at h
      rw [← h]; exact hinv
    · split at h
      · simp [Res.next] at h
      · simp only [Res.next, Option.some.injEq] at h
        rw [← h]; exact hinv
  | expiry =>
    simp only [Event.run, vt_handler_function, switch_threads] at h
    obtain ⟨_, _, _, _, _, _, _, _, _, _, _, hres, _, _, hi⟩ :=
      dispatch_spec MAX_THREAD_NUM s READY (Or.inl rfl) hinv
    rw [hres] at h
    simp only [Res.andThen, Res.next, Option.some.injEq] at h
    rw [← h]; exact hi

theorem reachable_inv (MAX_THREAD_NUM : Nat) (s : Lib) (h : Reachable MAX_THREAD_NUM s) :
    Inv MAX_THREAD_NUM s := by
  induction h with
  | init q size s h => exact inv_init MAX_THREAD_NUM q size s h
  | step e s s' _ h ih => exact step_inv MAX_THREAD_NUM e s s' ih h

theorem filter_ne_of_not_mem (l : List Int) (x : Int) (h : x ∉ l) :
    l.filter (fun y => y ≠ x) = l := by
  rw [List.filter_eq_self]
  intro a ha
  simp only [ne_eq, decide_not, Bool.not_eq_true', decide_eq_false_iff_not]
  rintro rfl
  exact h ha

theorem step_effect (MAX_THREAD_NUM : Nat) (e : Event) (s s' : Lib)
    (hinv : Inv MAX_THREAD_NUM s) (h : step MAX_THREAD_NUM e s = some s') :
    StepEffect s e s' := by
  unfold step at h
  cases e with
  | spawn f p =>
    simp only [Event.run] at h
    rcases spawn_cases MAX_THREAD_NUM s f p hinv with
      hfail | ⟨a, tid, T, hf, hvp, hmin, hres, hT, hcell, _⟩
    · rw [hfail] at h
      simp only [Res.next, Option.some.injEq] at h
      rw [← h]; exact StepEffect.same _ rfl
    · rw [hres] at h
      simp only [Res.next, Option.some.injEq] at h
      rw [← h, hf]
      exact StepEffect.spawn a p tid T hvp hmin
        ((hinv.pool_iff tid).mp (min_spec hmin).1).2.2 hT hcell
  | change_priority tid p =>
    simp only [Event.run] at h
    by_cases hvp : valid_priority s p = true
    · by_cases hv : valid_tid MAX_THREAD_NUM s tid = true
      · obtain ⟨_, _, t, ht⟩ := (valid_tid_iff _ _ _).mp hv
        obtain ⟨h0, h1⟩ := thread_bounds ht
        rw [change_priority_spec MAX_THREAD_NUM s tid p t hvp hv ht] at h
        simp only [Res.next, Option.some.injEq] at h
        rw [← h]
        exact StepEffect.change_priority tid p t _ hvp ht (by simp)
          (fun j => cell_set _ _ _ _ h0 h1)
      · simp only [uthread_change_priority, hv, hvp, Bool.not_true, Bool.not_false,
          Bool.or_true, if_true, Res.next, Option.some.injEq] at h
        rw [← h]; exact StepEffect.same _ rfl
    · simp only [uthread_change_priority, hvp, Bool.not_false, Bool.true_or,
        if_true, Res.next, Option.some.injEq] at h
      rw [← h]; exact StepEffect.same _ rfl
  | terminate tid =>
    simp only [Event.run] at h
    by_cases hv : valid_tid MAX_THREAD_NUM s tid = true
    · obtain ⟨_, _, t, ht⟩ := (valid_tid_iff _ _ _).mp hv
      by_cases h0 : tid = 0
      · subst h0
        simp only [uthread_terminate, hv, Bool.not_true, Bool.false_eq_true, if_false,
          MAIN_THREAD_ID, if_true] at h
        split at h <;> simp [Res.next] at h
      · by_cases hr : tid = s.running_thread
        · subst hr
          obtain ⟨tr, th, hd, rest, v, T, hr, hq, hh, hne, hv', hres, hT, hcell, _⟩ :=
            terminate_running_spec MAX_THREAD_NUM s hinv h0
          rw [hres] at h
          simp only [Res.next, Option.some.injEq] at h
          rw [← h]
          exact StepEffect.terminate_running tr th hd rest v T hr h0 hq hh hne hv' hT hcell
        · obtain ⟨hb0, hb1⟩ := thread_bounds ht
          simp only [uthread_terminate, hv, Bool.not_true, Bool.false_eq_true, if_false, h0,
            MAIN_THREAD_ID, hr, terminate_thread_spec s tid t ht, Res.next,
            Option.some.injEq] at h
          have hready : (if t.__thread_cs = READY then
              s.ready_threads.filter (fun x => x ≠ tid) else s.ready_threads)
              = s.ready_threads.filter (fun x => x ≠ tid) := by
            split
            · rfl
            · rename_i hst
              rw [filter_ne_of_not_mem]
              intro hm
              obtain ⟨t', ht', hst'⟩ := (hinv.ready_iff _).mp hm
              rw [ht] at ht'; cases ht'
              exact hst hst'
          rw [hready] at h
          rw [← h]
          exact StepEffect.terminate_other tid t _ ht h0 hr (by simp)
            (fun j => cell_set _ _ _ _ hb0 hb1)
    · simp only [uthread_terminate, hv, Bool.not_false, if_true, Res.next,
        Option.some.injEq] at h
      rw [← h]
      refine StepEffect.same _ ?_
      simp only [Event.schedules, Bool.and_eq_false_imp, decide_eq_true_eq]
      rintro rfl
      obtain ⟨tr, hr, _⟩ := hinv.run_live
      rw [valid_tid_of_live MAX_THREAD_NUM s _ tr hinv.len hr] at hv
      exact absurd rfl hv
  | block tid =>
    simp only [Event.run] at h
    by_cases hv : valid_tid MAX_THREAD_NUM s tid = true
    · obtain ⟨_, _, t, ht⟩ := (valid_tid_iff _ _ _).mp hv
      by_cases h0 : tid = 0
      · simp only [uthread_block, h0, MAIN_THREAD_ID, decide_True, Bool.or_true, if_true,
          Res.next, Option.some.injEq] at h
        rw [← h, h0]
        exact StepEffect.same _ (by simp [Event.schedules])
      · by_cases hr : tid = s.running_thread
        · subst hr
          obtain ⟨tr, htr, hrs⟩ := hinv.run_live
          rw [ht] at htr; cases htr
          rw [block_running_spec MAX_THREAD_NUM Sys.ok s t hv ht h0
            (by rw [hrs]; decide)] at h
          obtain ⟨tr, th, hd, rest, v, T, hr, _, hq, hh, hv', hres, hT, hcell, _⟩ :=
            dispatch_spec MAX_THREAD_NUM s BLOCKED (Or.inr ⟨rfl, h0⟩) hinv
          rw [if_neg (by decide)] at hq
          have hne : hd ≠ s.running_thread := by
            intro e
            have := inv_not_ready_of_running hinv
            rw [hq, ← e] at this
            exact this (List.mem_cons_self _ _)
          rw [if_neg hne] at hh
          rw [hres] at h
          simp only [Res.andThen, Res.next, Option.some.injEq] at h
          rw [← h]
          exact StepEffect.block_running tr th hd rest v T hr h0 hq hh hne hv' hT hcell
        · obtain ⟨hb0, hb1⟩ := thread_bounds ht
          rw [block_other_spec MAX_THREAD_NUM Sys.ok s tid t hv ht h0 hr] at h
          split at h
          · rename_i hst
            simp only [Res.next, Option.some.injEq] at h
            rw [← h]
            exact StepEffect.block_other tid t _ ht hst h0 hr (by simp)
              (fun j => cell_set _ _ _ _ hb0 hb1)
          · simp only [Res.next, Option.some.injEq] at h
            rw [← h]
            exact StepEffect.same _ (by simp [Event.schedules, hr])
    · simp only [uthread_block, hv, Bool.not_false, Bool.true_or, if_true, Res.next,
        Option.some.injEq] at h
      rw [← h]
      refine StepEffect.same _ ?_
      simp only [Event.schedules, Bool.and_eq_false_imp, decide_eq_true_eq]
      rintro rfl
      obtain ⟨tr, hr, _⟩ := hinv.run_live
      rw [valid_tid_of_live MAX_THREAD_NUM s _ tr hinv.len hr] at hv
      exact absurd rfl hv
  | resume tid =>
    simp only [Event.run] at h
    by_cases hv : valid_tid MAX_THREAD_NUM s tid = true
    · obtain ⟨_, _, t, ht⟩ := (valid_tid_iff _ _ _).mp hv
      obtain ⟨hb0, hb1⟩ := thread_bounds ht
      rw [resume_spec MAX_THREAD_NUM s tid t hv ht] at h
      split at h
      · rename_i hst
        simp only [Res.next, Option.some.injEq] at h
        rw [← h]
        exact StepEffect.resume tid t _ ht hst (by simp) (fun j => cell_set _ _ _ _ hb0 hb1)
      · simp only [Res.next, Option.some.injEq] at h
        rw [← h]; exact StepEffect.same _ rfl
    · simp only [uthread_resume, hv, Bool.not_false, if_true, Res.next,
        Option.some.injEq] at h
      rw [← h]; exact StepEffect.same _ rfl
  | get_quantums tid =>
    simp only [Event.run, uthread_get_quantums] at h
    split at h
    · simp only [Res.next, Option.some.injEq] at h
      rw [← h]; exact StepEffect.same _ rfl
    · split at h
      · simp [Res.next] at h
      · simp only [Res.next, Option.some.injEq] at h
        rw [← h]; exact StepEffect.same _ rfl
  | expiry =>
    simp only [Event.run, vt_handler_function, switch_threads] at h
    obtain ⟨tr, th, hd, rest, v, T, hr, _, hq, hh, hv', hres, hT, hcell, _⟩ :=
      dispatch_spec MAX_THREAD_NUM s READY (Or.inl rfl) hinv
    rw [if_pos rfl] at hq
    rw [hres] at h
    simp only [Res.andThen, Res.next, Option.some.injEq] at h
    rw [← h]
    exact StepEffect.expiry tr th hd rest v T hr hq hh hv' hT hcell

theorem reachable_run (MAX_THREAD_NUM : Nat) (es : List Event) :
    ∀ (s s' : Lib), Reachable MAX_THREAD_NUM s → run MAX_THREAD_NUM es s = some s' →
      Reachable MAX_THREAD_NUM s' := by
  induction es with
  | nil =>
    intro s s' hs h
    simp only [run, Option.some.injEq] at h
    rw [← h]; exact hs
  | cons e es ih =>
    intro s s' hs h
    simp only [run] at h
    split at h
    · cases h
    · rename_i s1 hstep
      exact ih s1 s' (Reachable.step e s s1 hs hstep) h

theorem demo_init_reachable : Reachable 3 demo_init :=
  Reachable.init [100, 200] 2 demo_init (by decide)

theorem demo_after_reachable (es : List Event) (h : (run 3 es demo_init).isSome = true) :
    Reachable 3 (demo_after es) := by
  obtain ⟨s', hs'⟩ := Option.isSome_iff_exists.mp h
  unfold demo_after
  rw [hs']
  exact reachable_run 3 es demo_init s' demo_init_reachable hs'

/-! ## Spawning -/

theorem exists_free_cell {MAX_THREAD_NUM : Nat} {s : Lib} (hinv : Inv MAX_THREAD_NUM s)
    (hlive : live_count s < MAX_THREAD_NUM) :
    ∃ i : Int, 1 ≤ i ∧ i < MAX_THREAD_NUM ∧ s.thread i = none := by
  have hlen := hinv.len
  have hne : ¬ (∀ a ∈ s.threads, Option.isSome a = true) := by
    intro hall
    have := List.countP_eq_length.mpr hall
    unfold live_count at hlive
    omega
  push_neg at hne
  obtain ⟨a, ha, hnot⟩ := hne
  obtain ⟨n, hn, hget⟩ := List.getElem_of_mem ha
  have hcell : s.thread (n : Int) = none := by
    unfold Lib.thread cell
    rw [if_neg (by omega), List.getD_eq_getElem?_getD, Int.toNat_ofNat,
      List.getElem?_eq_getElem hn, hget]
    cases a with
    | none => rfl
    | some x => simp at hnot
  obtain ⟨t0, ht0, _⟩ := hinv.main_live
  have hn0 : n ≠ 0 := by
    rintro rfl
    rw [Int.ofNat_zero, ht0] at hcell
    cases hcell
  exact ⟨n, by omega, by omega, hcell⟩

theorem full_table {MAX_THREAD_NUM : Nat} {s : Lib} (hinv : Inv MAX_THREAD_NUM s)
    (hlive : live_count s = MAX_THREAD_NUM) (i : Int) (h0 : 0 ≤ i) (h1 : i < MAX_THREAD_NUM) :
    ∃ t, s.thread i = some t := by
  have hlen := hinv.len
  have hall := List.countP_eq_length.mp (show s.threads.countP Option.isSome = s.threads.length
    by unfold live_count at hlive; omega)
  have hn : i.toNat < s.threads.length := by omega
  have := hall _ (List.getElem_mem hn)
  obtain ⟨t, ht⟩ := Option.isSome_iff_exists.mp this
  refine ⟨t, ?_⟩
  unfold Lib.thread cell
  rw [if_neg (by omega), List.getD_eq_getElem?_getD, List.getElem?_eq_getElem hn, ht]
  rfl

theorem pool_empty_of_full {MAX_THREAD_NUM : Nat} {s : Lib} (hinv : Inv MAX_THREAD_NUM s)
    (hlive : live_count s = MAX_THREAD_NUM) : s.tid_que = [] := by
  apply List.eq_nil_iff_forall_not_mem.mpr
  intro i hi
  obtain ⟨h1, h2, hnone⟩ := (hinv.pool_iff i).mp hi
  obtain ⟨t, ht⟩ := full_table hinv hlive i (by omega) h2
  rw [ht] at hnone
  cases hnone

/-- In a state that satisfies the invariant and has a free id, a spawn with a
non-null entry point and a valid priority returns the least free id. -/
theorem spawn_least_free {MAX_THREAD_NUM : Nat} {s : Lib} (hinv : Inv MAX_THREAD_NUM s)
    (hfree : ∃ i : Int, 1 ≤ i ∧ i < MAX_THREAD_NUM ∧ s.thread i = none)
    (a : Nat) (p : Int) (hp : 0 ≤ p ∧ p < s.priority_array_size) :
    ∃ (tid : Int) (T : List (Option Thread)),
      uthread_spawn Sys.ok (some a) p s = .returned tid { s with threads := T, ready_threads := s.ready_threads ++ [tid], tid_que := s.tid_que.erase tid } ∧
      1 ≤ tid ∧ tid < MAX_THREAD_NUM ∧ s.thread tid = none ∧
      (∀ j : Int, 1 ≤ j → j < MAX_THREAD_NUM → s.thread j = none → tid ≤ j) ∧
      T.length = s.threads.length ∧
      (∀ j, cell T j = if j = tid then some (Thread.mk' (some a) tid p) else s.thread j) ∧
      Inv MAX_THREAD_NUM { s with threads := T, ready_threads := s.ready_threads ++ [tid], tid_que := s.tid_que.erase tid } := by
  obtain ⟨i, hi1, hi2, hi3⟩ := hfree
  have hmem : i ∈ s.tid_que := (hinv.pool_iff i).mpr ⟨hi1, hi2, hi3⟩
  obtain ⟨tid, hmin⟩ := min_exists (List.ne_nil_of_mem hmem)
  obtain ⟨hmt, hle⟩ := min_spec hmin
  obtain ⟨h1, h2, hnone⟩ := (hinv.pool_iff tid).mp hmt
  have hlen := hinv.len
  have hvp := (valid_priority_iff s p).mpr hp
  obtain ⟨T, hres, hT, hcell⟩ := spawn_spec s a p tid hvp hmin (by omega) (by omega)
  exact ⟨tid, T, hres, h1, h2, hnone,
    fun j hj1 hj2 hj3 => hle j ((hinv.pool_iff j).mpr ⟨hj1, hj2, hj3⟩), hT, hcell,
    inv_spawn MAX_THREAD_NUM s tid p (some a) T hinv hmt hvp hT hcell⟩

/-- As long as every system call and allocation has succeeded (`Reachable`) and
fewer than `MAX_THREAD_NUM` threads are live, `uthread_spawn` with a non-null
entry point and a valid priority, its allocations succeeding, returns the
smallest id in `[1, MAX_THREAD_NUM)` that has no live thread; the returned id
differs from the id of every live thread. -/
theorem spawn_smallest_free_id_of_reachable (MAX_THREAD_NUM : Nat) (s : Lib) (a : Nat) (p : Int)
    (hreach : Reachable MAX_THREAD_NUM s) (hlive : live_count s < MAX_THREAD_NUM)
    (hp : 0 ≤ p ∧ p < s.priority_array_size) :
    ∃ (tid : Int) (s' : Lib),
      uthread_spawn Sys.ok (some a) p s = .returned tid s' ∧
      1 ≤ tid ∧ tid < MAX_THREAD_NUM ∧ s.thread tid = none ∧
      (∀ j : Int, 1 ≤ j → j < MAX_THREAD_NUM → s.thread j = none → tid ≤ j) ∧
      (∀ (j : Int) (t : Thread), s.thread j = some t → tid ≠ j) := by
  have hinv := reachable_inv MAX_THREAD_NUM s hreach
  obtain ⟨tid, T, hres, h1, h2, hnone, hle, _, _, _⟩ :=
    spawn_least_free hinv (exists_free_cell hinv hlive) a p hp
  refine ⟨tid, _, hres, h1, h2, hnone, hle, ?_⟩
  rintro j t ht rfl
  rw [ht] at hnone
  cases hnone

theorem spawn_smallest_free_id_of_reachable_example :
    live_count demo_init < 3 ∧ ((0 : Int) ≤ 1 ∧ (1 : Int) < demo_init.priority_array_size) ∧
    ∃ (tid : Int) (s' : Lib),
      uthread_spawn Sys.ok (some 7) 1 demo_init = .returned tid s' ∧
      1 ≤ tid ∧ tid < (3 : Nat) ∧ demo_init.thread tid = none ∧
      (∀ j : Int, 1 ≤ j → j < (3 : Nat) → demo_init.thread j = none → tid ≤ j) ∧
      (∀ (j : Int) (t : Thread), demo_init.thread j = some t → tid ≠ j) :=
  ⟨by decide, by decide,
    spawn_smallest_free_id_of_reachable 3 demo_init 7 1 demo_init_reachable (by decide) (by decide)⟩

/-- C2: in every reachable state in which `MAX_THREAD_NUM` threads are live,
`uthread_spawn` with any entry point and any priority returns `-1` and leaves the
whole state (thread table, free-id pool, ready queue, running id, quantum
counters) as it was. -/
theorem spawn_at_capacity_fails (MAX_THREAD_NUM : Nat) (s : Lib) (sys : Sys) (f : Option Nat)
    (p : Int) (hreach : Reachable MAX_THREAD_NUM s)
    (hlive : live_count s = MAX_THREAD_NUM) :
    uthread_spawn sys f p s = .returned (-1) s := by
  have hinv := reachable_inv MAX_THREAD_NUM s hreach
  have hq := pool_empty_of_full hinv hlive
  unfold uthread_spawn
  split
  · rfl
  · simp [get_next_tid, hq]

theorem spawn_at_capacity_fails_witness :
    live_count (demo_after [.spawn (some 1) 1, .spawn (some 2) 0]) = 3 ∧
    uthread_spawn Sys.ok (some 5) 0 (demo_after [.spawn (some 1) 1, .spawn (some 2) 0])
      = .returned (-1) (demo_after [.spawn (some 1) 1, .spawn (some 2) 0]) :=
  ⟨by decide, spawn_at_capacity_fails 3 _ Sys.ok (some 5) 0
    (demo_after_reachable _ (by decide)) (by decide)⟩

/-! ## Usage errors -/

theorem scan_false (q : List Int) (i : Nat) (x : Int) (hx : q[i]? = some x) (hle : x ≤ 0) :
    ∀ (n start : Nat), start ≤ i → i < start + n →
      scan_quantum_usecs q start n = some false := by
  intro n
  induction n with
  | zero => intro start h1 h2; omega
  | succ n ih =>
    intro start h1 h2
    have hi : i < q.length := (List.getElem?_eq_some_iff.mp hx).1
    have hs : start < q.length := by omega
    unfold scan_quantum_usecs
    rw [List.getElem?_eq_getElem hs]
    simp only []
    split
    · rfl
    · rename_i hpos
      have hne : start ≠ i := by
        rintro rfl
        rw [List.getElem?_eq_getElem hs] at hx
        cases hx
        exact hpos hle
      exact ih (start + 1) (by omega) (by omega)

theorem valid_tid_false (MAX_THREAD_NUM : Nat) (s : Lib) (tid : Int)
    (h : tid < 0 ∨ (MAX_THREAD_NUM : Int) ≤ tid ∨ s.thread tid = none) :
    valid_tid MAX_THREAD_NUM s tid = false := by
  rw [← Bool.not_eq_true, valid_tid_iff]
  rintro ⟨h0, h1, t, ht⟩
  rcases h with h | h | h
  · omega
  · omega
  · rw [ht] at h; cases h

theorem valid_priority_false (s : Lib) (p : Int)
    (h : p < 0 ∨ s.priority_array_size ≤ p) : valid_priority s p = false := by
  rw [← Bool.not_eq_true, valid_priority_iff]
  rintro ⟨h0, h1⟩
  rcases h with h | h <;> omega

/-- C3: every usage error returns `-1` and leaves the whole state unchanged:
`uthread_init` with `size <= 0` or with a non-positive duration among the first
`size` ones; `uthread_spawn` with a null entry point or a priority outside
`[0, priority_array_size)`; `uthread_change_priority` with such a priority or
with an id that is out of range or has no thread; `uthread_terminate`,
`uthread_resume`, `uthread_get_quantums` and `uthread_block` with such an id;
`uthread_block` with id 0. -/
theorem usage_errors_change_nothing (MAX_THREAD_NUM : Nat) (sys : Sys) (s : Lib) :
    (∀ (q : List Int) (size : Int), size ≤ 0 →
      uthread_init MAX_THREAD_NUM sys q size s = .returned (-1) s) ∧
    (∀ (q : List Int) (size : Int) (i : Nat) (x : Int),
      (i : Int) < size → q[i]? = some x → x ≤ 0 →
      uthread_init MAX_THREAD_NUM sys q size s = .returned (-1) s) ∧
    (∀ (f : Option Nat) (p : Int), f = none ∨ p < 0 ∨ s.priority_array_size ≤ p →
      uthread_spawn sys f p s = .returned (-1) s) ∧
    (∀ (tid p : Int),
      (p < 0 ∨ s.priority_array_size ≤ p) ∨
        (tid < 0 ∨ (MAX_THREAD_NUM : Int) ≤ tid ∨ s.thread tid = none) →
      uthread_change_priority MAX_THREAD_NUM tid p s = .returned (-1) s) ∧
    (∀ (tid : Int), tid < 0 ∨ (MAX_THREAD_NUM : Int) ≤ tid ∨ s.thread tid = none →
      uthread_terminate MAX_THREAD_NUM sys tid s = .returned (-1) s ∧
      uthread_resume MAX_THREAD_NUM tid s = .returned (-1) s ∧
      uthread_get_quantums MAX_THREAD_NUM tid s = .returned (-1) s ∧
      uthread_block MAX_THREAD_NUM sys tid s = .returned (-1) s) ∧
    uthread_block MAX_THREAD_NUM sys 0 s = .returned (-1) s := by
  refine ⟨?_, ?_, ?_, ?_, ?_, ?_⟩
  · intro q size hsize
    simp [uthread_init, hsize]
  · intro q size i x hi hx hle
    have hpos : ¬ size ≤ 0 := by omega
    have := scan_false q i x hx hle size.toNat 0 (Nat.zero_le _) (by omega)
    simp [uthread_init, hpos, this]
  · rintro f p (hf | hp)
    · simp [uthread_spawn, hf]
    · simp [uthread_spawn, valid_priority_false s p hp]
  · rintro tid p (hp | ht)
    · simp [uthread_change_priority, valid_priority_false s p hp]
    · simp [uthread_change_priority, valid_tid_false MAX_THREAD_NUM s tid ht]
  · intro tid ht
    have hv := valid_tid_false MAX_THREAD_NUM s tid ht
    refine ⟨?_, ?_, ?_, ?_⟩
    · simp [uthread_terminate, hv]
    · simp [uthread_resume, hv]
    · simp [uthread_get_quantums, hv]
    · simp [uthread_block, hv]
  · simp [uthread_block]

theorem usage_errors_change_nothing_witness :
    uthread_init 100 Sys.ok [100, 0] 2 demo_init_100 = .returned (-1) demo_init_100 ∧
    uthread_spawn Sys.ok (some 1) 2 demo_init_100 = .returned (-1) demo_init_100 ∧
    uthread_change_priority 100 99 0 demo_init_100 = .returned (-1) demo_init_100 ∧
    uthread_terminate 100 Sys.ok (-1) demo_init_100 = .returned (-1) demo_init_100 :=
  ⟨(usage_errors_change_nothing 100 Sys.ok demo_init_100).2.1 [100, 0] 2 1 0
      (by decide) (by decide) (by decide),
   (usage_errors_change_nothing 100 Sys.ok demo_init_100).2.2.1 (some 1) 2
      (Or.inr (Or.inr (by decide))),
   (usage_errors_change_nothing 100 Sys.ok demo_init_100).2.2.2.1 99 0
      (Or.inr (Or.inr (Or.inr (by decide)))),
   ((usage_errors_change_nothing 100 Sys.ok demo_init_100).2.2.2.2.1 (-1)
      (Or.inl (by decide))).1⟩

/-! ## Quantum counters -/

theorem step_total {s s' : Lib} {e : Event} (h : StepEffect s e s') :
    s'.total_quantums = s.total_quantums + (if e.schedules s = true then 1 else 0) := by
  cases h with
  | same e hs => simp [hs]
  | spawn a p tid T => simp [Event.schedules]
  | change_priority tid p t T => simp [Event.schedules]
  | terminate_other tid t T ht hne0 hner => simp [Event.schedules, hner]
  | terminate_running tr th h rest v T hr hne0 => simp [Event.schedules, hne0]
  | block_other tid t T ht hst hne0 hner => simp [Event.schedules, hner]
  | block_running tr th h rest v T hr hne0 => simp [Event.schedules, hne0]
  | resume tid t T => simp [Event.schedules]
  | expiry tr th h rest v T => simp [Event.schedules]

theorem run_counting_total (MAX_THREAD_NUM : Nat) (es : List Event) :
    ∀ (s s' : Lib) (N : Nat), Inv MAX_THREAD_NUM s →
      run_counting MAX_THREAD_NUM es s = some (s', N) →
      s'.total_quantums = s.total_quantums + N := by
  induction es with
  | nil =>
    intro s s' N _ h
    simp only [run_counting, Option.some.injEq, Prod.mk.injEq] at h
    rw [← h.1, ← h.2]; simp
  | cons e es ih =>
    intro s s' N hinv h
    simp only [run_counting] at h
    split at h
    · cases h
    · rename_i s1 hstep
      split at h
      · cases h
      · rename_i s2 n hrest
        simp only [Option.some.injEq, Prod.mk.injEq] at h
        have h1 := step_total (step_effect MAX_THREAD_NUM e s s1 hinv hstep)
        have h2 := ih s1 s2 n (step_inv MAX_THREAD_NUM e s s1 hinv hstep) hrest
        rw [← h.1, ← h.2, h2, h1]
        split
        · push_cast; ring
        · simp

/-- C4: `uthread_get_total_quantums` is 1 right after a successful `uthread_init`;
after an execution with exactly `N` scheduler-invoking events (quantum expiries,
blocks of the running thread, terminations of the running non-main thread) it
is `N + 1`; a step adds 1 to it when it invokes the scheduler and leaves it
unchanged otherwise, so it never decreases. -/
theorem total_quantums_counts_dispatches (MAX_THREAD_NUM : Nat) (q : List Int) (size : Int)
    (s0 : Lib)
    (hinit : uthread_init MAX_THREAD_NUM Sys.ok q size (Lib.initial MAX_THREAD_NUM)
      = .returned 0 s0) :
    uthread_get_total_quantums s0 = 1 ∧
    (∀ (es : List Event) (s : Lib) (N : Nat),
      run_counting MAX_THREAD_NUM es s0 = some (s, N) →
      uthread_get_total_quantums s = N + 1) ∧
    (∀ (s s' : Lib) (e : Event), Reachable MAX_THREAD_NUM s →
      step MAX_THREAD_NUM e s = some s' →
      uthread_get_total_quantums s' =
        uthread_get_total_quantums s + (if e.schedules s = true then 1 else 0) ∧
      uthread_get_total_quantums s ≤ uthread_get_total_quantums s') := by
  have hinv0 := inv_init MAX_THREAD_NUM q size s0 hinit
  obtain ⟨_, _, _, v, _, hs0⟩ := init_spec MAX_THREAD_NUM q size s0 hinit
  have h1 : s0.total_quantums = 1 := by rw [hs0]
  refine ⟨h1, ?_, ?_⟩
  · intro es s N hrun
    have := run_counting_total MAX_THREAD_NUM es s0 s N hinv0 hrun
    simp only [uthread_get_total_quantums]
    rw [this, h1]; ring
  · intro s s' e hreach hstep
    have := step_total (step_effect MAX_THREAD_NUM e s s'
      (reachable_inv MAX_THREAD_NUM s hreach) hstep)
    simp only [uthread_get_total_quantums]
    refine ⟨this, ?_⟩
    rw [this]
    split <;> omega

theorem total_quantums_counts_dispatches_witness :
    run_counting 3 [.spawn (some 1) 1, .spawn (some 2) 0, .expiry, .block 1, .resume 1, .expiry]
        demo_init
      = some (demo_after [.spawn (some 1) 1, .spawn (some 2) 0, .expiry, .block 1, .resume 1,
          .expiry], 3) ∧
    uthread_get_total_quantums (demo_after [.spawn (some 1) 1, .spawn (some 2) 0, .expiry,
      .block 1, .resume 1, .expiry]) = (3 : Nat) + 1 :=
  ⟨by decide,
    (total_quantums_counts_dispatches 3 [100, 200] 2 demo_init (by decide)).2.1
      [.spawn (some 1) 1, .spawn (some 2) 0, .expiry, .block 1, .resume 1, .expiry] _ 3
      (by decide)⟩

theorem get_quantums_live (MAX_THREAD_NUM : Nat) (s : Lib) (t : Int) (x : Thread)
    (hv : valid_tid MAX_THREAD_NUM s t = true) (hx : s.thread t = some x) :
    uthread_get_quantums MAX_THREAD_NUM t s = .returned x.__num_of_quantum s := by
  simp [uthread_get_quantums, hv, hx, Thread.getQuantum]

theorem step_quantum {s s' : Lib} {e : Event} (h : StepEffect s e s') (t : Int)
    (x x' : Thread) (hx : s.thread t = some x) (hx' : s'.thread t = some x') :
    x'.__num_of_quantum = x.__num_of_quantum +
      (if e.schedules s = true ∧ s'.running_thread = t then 1 else 0) := by
  cases h with
  | same e hs =>
    rw [hx] at hx'; cases hx'
    simp [hs]
  | spawn a p tid T hvp hmin hnone hlen hcell =>
    have hx'' : cell T t = some x' := hx'
    rw [hcell] at hx''
    split at hx''
    · rename_i e; rw [e, hnone] at hx; cases hx
    · rw [hx] at hx''; cases hx''
      simp [Event.schedules]
  | change_priority tid p t0 T hvp ht hlen hcell =>
    have hx'' : cell T t = some x' := hx'
    rw [hcell] at hx''
    split at hx''
    · rename_i e
      rw [e, ht] at hx; cases hx; cases hx''
      simp [Event.schedules, Thread.setPriority]
    · rw [hx] at hx''; cases hx''
      simp [Event.schedules]
  | terminate_other tid t0 T ht hne0 hner hlen hcell =>
    have hx'' : cell T t = some x' := hx'
    rw [hcell] at hx''
    split at hx''
    · cases hx''
    · rw [hx] at hx''; cases hx''
      simp [Event.schedules, hner]
  | terminate_running tr th h rest v T hr hne0 hq hh hne hv hlen hcell =>
    have hx'' : cell T t = some x' := hx'
    rw [hcell] at hx''
    split at hx''
    · cases hx''
    · split at hx''
      · rename_i e
        rw [e, hh] at hx; cases hx; cases hx''
        simp [Event.schedules, hne0, e, Thread.setState, Thread.incrQuantum]
      · rename_i e
        rw [hx] at hx''; cases hx''
        simp [Event.schedules, hne0, Ne.symm e]
  | block_other tid t0 T ht hst hne0 hner hlen hcell =>
    have hx'' : cell T t = some x' := hx'
    rw [hcell] at hx''
    split at hx''
    · rename_i e
      rw [e, ht] at hx; cases hx; cases hx''
      simp [Event.schedules, hner, Thread.setState]
    · rw [hx] at hx''; cases hx''
      simp [Event.schedules, hner]
  | block_running tr th h rest v T hr hne0 hq hh hne hv hlen hcell =>
    have hx'' : cell T t = some x' := hx'
    rw [hcell] at hx''
    split at hx''
    · rename_i e
      rw [e, hh] at hx; cases hx; cases hx''
      simp [Event.schedules, hne0, e, Thread.setState, Thread.incrQuantum]
    · rename_i e
      split at hx''
      · rename_i e2
        rw [e2, hr] at hx; cases hx; cases hx''
        simp [Event.schedules, hne0, Ne.symm e, Thread.setState]
      · rw [hx] at hx''; cases hx''
        simp [Event.schedules, hne0, Ne.symm e]
  | resume tid t0 T ht hst hlen hcell =>
    have hx'' : cell T t = some x' := hx'
    rw [hcell] at hx''
    split at hx''
    · rename_i e
      rw [e, ht] at hx; cases hx; cases hx''
      simp [Event.schedules, Thread.setState]
    · rw [hx] at hx''; cases hx''
      simp [Event.schedules]
  | expiry tr th h rest v T hr hq hh hv hlen hcell =>
    have hx'' : cell T t = some x' := hx'
    rw [hcell] at hx''
    split at hx''
    · rename_i e
      cases hx''
      split at hh
      · rename_i e2
        rw [e, e2, hr] at hx; cases hx; cases hh
        simp [Event.schedules, e, Thread.setState, Thread.incrQuantum]
      · rw [e, hh] at hx; cases hx
        simp [Event.schedules, e, Thread.setState, Thread.incrQuantum]
    · rename_i e
      split at hx''
      · rename_i e2
        rw [e2, hr] at hx; cases hx; cases hx''
        simp [Event.schedules, Ne.symm e, Thread.setState]
      · rw [hx] at hx''; cases hx''
        simp [Event.schedules, Ne.symm e]

theorem init_thread (MAX_THREAD_NUM : Nat) (q : List Int) (size : Int) (s0 : Lib)
    (hinit : uthread_init MAX_THREAD_NUM Sys.ok q size (Lib.initial MAX_THREAD_NUM)
      = .returned 0 s0) (j : Int) :
    s0.thread j =
      if j = 0 then some ((Thread.mk' none 0 0).setState RUNNING).incrQuantum else none := by
  obtain ⟨hM, _, _, v, _, hs0⟩ := init_spec MAX_THREAD_NUM q size s0 hinit
  have hthreads : s0.threads = (List.replicate MAX_THREAD_NUM none).set (0 : Int).toNat
      (some ((Thread.mk' none 0 0).setState RUNNING).incrQuantum) := by rw [hs0]; rfl
  unfold Lib.thread
  rw [hthreads, cell_set _ 0 j _ (le_refl _) (by simpa using hM)]
  simp only [cell_replicate]

theorem step_quantums_api (MAX_THREAD_NUM : Nat) (s s' : Lib) (e : Event) (t : Int)
    (hinv : Inv MAX_THREAD_NUM s) (hstep : step MAX_THREAD_NUM e s = some s')
    (hv : valid_tid MAX_THREAD_NUM s t = true) (hv' : valid_tid MAX_THREAD_NUM s' t = true) :
    ∃ n : Int, uthread_get_quantums MAX_THREAD_NUM t s = .returned n s ∧
      uthread_get_quantums MAX_THREAD_NUM t s' = .returned
        (n + (if e.schedules s = true ∧ uthread_get_tid s' = t then 1 else 0)) s' := by
  obtain ⟨_, _, x, hx⟩ := (valid_tid_iff _ _ _).mp hv
  obtain ⟨_, _, x', hx'⟩ := (valid_tid_iff _ _ _).mp hv'
  refine ⟨x.__num_of_quantum, get_quantums_live MAX_THREAD_NUM s t x hv hx, ?_⟩
  rw [get_quantums_live MAX_THREAD_NUM s' t x' hv' hx',
    step_quantum (step_effect MAX_THREAD_NUM e s s' hinv hstep) t x x' hx hx']
  rfl

theorem get_quantums_valid (MAX_THREAD_NUM : Nat) (s : Lib) (t n : Int)
    (h : uthread_get_quantums MAX_THREAD_NUM t s = .returned n s) (hn : n ≠ -1) :
    valid_tid MAX_THREAD_NUM s t = true := by
  by_contra hv
  simp only [Bool.not_eq_true] at hv
  simp only [uthread_get_quantums, hv, if_true, Res.returned.injEq, and_true] at h
  exact hn h.symm

/-- C5: the quantum count of thread 0 is 1 right after `uthread_init`; the
quantum count of a thread is 0 right after the spawn that created it; a step
adds exactly 1 to the count of the thread it dispatches (the step invokes the
scheduler and that thread is the running one afterwards) and changes the count
of no other live thread, so a count of 0 becomes 1 at the first dispatch. -/
theorem quantums_count_own_dispatches (MAX_THREAD_NUM : Nat) :
    (∀ (q : List Int) (size : Int) (s0 : Lib),
      uthread_init MAX_THREAD_NUM Sys.ok q size (Lib.initial MAX_THREAD_NUM) = .returned 0 s0 →
      uthread_get_tid s0 = 0 ∧ uthread_get_quantums MAX_THREAD_NUM 0 s0 = .returned 1 s0) ∧
    (∀ (s s' : Lib) (a : Nat) (p tid : Int), Reachable MAX_THREAD_NUM s →
      uthread_spawn Sys.ok (some a) p s = .returned tid s' → tid ≠ -1 →
      uthread_get_quantums MAX_THREAD_NUM tid s' = .returned 0 s') ∧
    (∀ (s s' : Lib) (e : Event) (t : Int), Reachable MAX_THREAD_NUM s →
      step MAX_THREAD_NUM e s = some s' →
      valid_tid MAX_THREAD_NUM s t = true → valid_tid MAX_THREAD_NUM s' t = true →
      ∃ n : Int, uthread_get_quantums MAX_THREAD_NUM t s = .returned n s ∧
        uthread_get_quantums MAX_THREAD_NUM t s' = .returned
          (n + (if e.schedules s = true ∧ uthread_get_tid s' = t then 1 else 0)) s') ∧
    (∀ (s s' : Lib) (e : Event) (t : Int), Reachable MAX_THREAD_NUM s →
      step MAX_THREAD_NUM e s = some s' →
      uthread_get_quantums MAX_THREAD_NUM t s = .returned 0 s →
      e.schedules s = true → uthread_get_tid s' = t →
      uthread_get_quantums MAX_THREAD_NUM t s' = .returned 1 s') := by
  refine ⟨?_, ?_, ?_, ?_⟩
  · intro q size s0 hinit
    have hinv0 := inv_init MAX_THREAD_NUM q size s0 hinit
    obtain ⟨hM, _, _, v, _, hs0⟩ := init_spec MAX_THREAD_NUM q size s0 hinit
    have hrun : s0.running_thread = 0 := by rw [hs0]
    have hth : s0.thread 0 = some ((Thread.mk' none 0 0).setState RUNNING).incrQuantum := by
      rw [init_thread MAX_THREAD_NUM q size s0 hinit, if_pos rfl]
    refine ⟨hrun, ?_⟩
    rw [get_quantums_live MAX_THREAD_NUM s0 0 _
      (valid_tid_of_live MAX_THREAD_NUM s0 0 _ hinv0.len hth) hth]
    rfl
  · intro s s' a p tid hreach hsp hne
    have hinv := reachable_inv MAX_THREAD_NUM s hreach
    rcases spawn_cases MAX_THREAD_NUM s (some a) p hinv with
      hfail | ⟨a', tid', T, hf, _, _, hres, _, hcell, hinv'⟩
    · rw [hfail] at hsp
      simp only [Res.returned.injEq] at hsp
      exact absurd hsp.1.symm hne
    · rw [hres] at hsp
      simp only [Res.returned.injEq] at hsp
      obtain ⟨rfl, rfl⟩ := hsp
      have hth : Lib.thread { s with threads := T, ready_threads := s.ready_threads ++ [tid'], tid_que := s.tid_que.erase tid' } tid' = some (Thread.mk' (some a') tid' p) := by
        show cell T tid' = _
        rw [hcell, if_pos rfl]
      rw [get_quantums_live MAX_THREAD_NUM _ tid' _
        (valid_tid_of_live MAX_THREAD_NUM _ tid' _ hinv'.len hth) hth]
      rfl
  · intro s s' e t hreach hstep hv hv'
    exact step_quantums_api MAX_THREAD_NUM s s' e t (reachable_inv MAX_THREAD_NUM s hreach)
      hstep hv hv'
  · intro s s' e t hreach hstep hq hsched hrun
    have hinv := reachable_inv MAX_THREAD_NUM s hreach
    have hinv' := step_inv MAX_THREAD_NUM e s s' hinv hstep
    have hv := get_quantums_valid MAX_THREAD_NUM s t 0 hq (by decide)
    obtain ⟨tr, htr, _⟩ := hinv'.run_live
    have hv' : valid_tid MAX_THREAD_NUM s' t = true := by
      rw [← hrun]
      exact valid_tid_of_live MAX_THREAD_NUM s' _ tr hinv'.len htr
    obtain ⟨n, hn, hn'⟩ := step_quantums_api MAX_THREAD_NUM s s' e t hinv hstep hv hv'
    rw [hq] at hn
    simp only [Res.returned.injEq, and_true] at hn
    rw [hn', ← hn]
    simp [hsched, hrun]

theorem quantums_count_own_dispatches_witness :
    (uthread_get_tid demo_init = 0 ∧ uthread_get_quantums 3 0 demo_init = .returned 1 demo_init) ∧
    uthread_get_quantums 3 1 (demo_after [.spawn (some 1) 1]) =
      .returned 0 (demo_after [.spawn (some 1) 1]) ∧
    uthread_get_quantums 3 1 (demo_after [.spawn (some 1) 1, .expiry]) =
      .returned 1 (demo_after [.spawn (some 1) 1, .expiry]) :=
  ⟨(quantums_count_own_dispatches 3).1 [100, 200] 2 demo_init (by decide),
   (quantums_count_own_dispatches 3).2.1 demo_init (demo_after [.spawn (some 1) 1]) 1 1 1
      demo_init_reachable (by decide) (by decide),
   (quantums_count_own_dispatches 3).2.2.2 (demo_after [.spawn (some 1) 1])
      (demo_after [.spawn (some 1) 1, .expiry]) .expiry 1
      (demo_after_reachable _ (by decide)) (by decide) (by decide) (by decide) (by decide)⟩

/-! ## Blocking the running thread and quantum expiry -/

/-- C6: in every reachable state whose running thread `r` is not 0 and whose
ready queue is `h :: rest`, `uthread_block(r)` leaves through the switch with
`h` RUNNING (`uthread_get_tid() = h`), the ready queue equal to `rest`, `r`
BLOCKED and absent from the ready queue, and `uthread_get_total_quantums()`
increased by exactly 1. -/
theorem block_running_dispatches_head (MAX_THREAD_NUM : Nat) (s : Lib) (h : Int)
    (rest : List Int) (hreach : Reachable MAX_THREAD_NUM s) (hne0 : s.running_thread ≠ 0)
    (hq : s.ready_threads = h :: rest) :
    ∃ s' : Lib,
      uthread_block MAX_THREAD_NUM Sys.ok s.running_thread s = .switched s' ∧
      uthread_get_tid s' = h ∧
      (∃ th, s'.thread h = some th ∧ th.__thread_cs = RUNNING) ∧
      s'.ready_threads = rest ∧
      (∃ tr, s'.thread s.running_thread = some tr ∧ tr.__thread_cs = BLOCKED) ∧
      s.running_thread ∉ s'.ready_threads ∧
      uthread_get_total_quantums s' = uthread_get_total_quantums s + 1 := by
  have hinv := reachable_inv MAX_THREAD_NUM s hreach
  obtain ⟨tr, th, hd, rest', v, T, hr, hrs, hq', hh, _, hres, _, hcell, hinv'⟩ :=
    dispatch_spec MAX_THREAD_NUM s BLOCKED (Or.inr ⟨rfl, hne0⟩) hinv
  rw [if_neg (by decide), hq] at hq'
  obtain ⟨rfl, rfl⟩ := List.cons.inj hq'
  have hne : h ≠ s.running_thread := by
    intro e
    have := inv_not_ready_of_running hinv
    rw [hq, ← e] at this
    exact this (List.mem_cons_self _ _)
  have hv := valid_tid_of_live MAX_THREAD_NUM s _ tr hinv.len hr
  have hblocked : Lib.thread { s with threads := T, ready_threads := rest, running_thread := h, total_quantums := s.total_quantums + 1, vt_usec := v } s.running_thread = some (tr.setState BLOCKED) := by
    show cell T s.running_thread = _
    rw [hcell, if_neg (Ne.symm hne), if_pos rfl]
  refine ⟨{ s with threads := T, ready_threads := rest, running_thread := h, total_quantums := s.total_quantums + 1, vt_usec := v }, ?_, rfl, ?_, rfl, ⟨_, hblocked, rfl⟩, ?_, rfl⟩
  · rw [block_running_spec MAX_THREAD_NUM Sys.ok s tr hv hr hne0 (by rw [hrs]; decide), hres]
    rfl
  · refine ⟨th.incrQuantum.setState RUNNING, ?_, rfl⟩
    show cell T h = _
    rw [hcell, if_pos rfl]
  · intro hmem
    obtain ⟨t', ht', hst'⟩ := (hinv'.ready_iff _).mp hmem
    rw [hblocked] at ht'
    cases ht'
    exact absurd hst' (by simp [Thread.setState])

theorem block_running_dispatches_head_witness :
    (demo_after [.spawn (some 1) 1, .spawn (some 2) 0, .expiry]).running_thread ≠ 0 ∧
    (demo_after [.spawn (some 1) 1, .spawn (some 2) 0, .expiry]).ready_threads = [2, 0] ∧
    ∃ s' : Lib,
      uthread_block 3 Sys.ok
        (demo_after [.spawn (some 1) 1, .spawn (some 2) 0, .expiry]).running_thread
        (demo_after [.spawn (some 1) 1, .spawn (some 2) 0, .expiry]) = .switched s' ∧
      uthread_get_tid s' = 2 ∧
      (∃ th, s'.thread 2 = some th ∧ th.__thread_cs = RUNNING) ∧
      s'.ready_threads = [0] ∧
      (∃ tr, s'.thread
        (demo_after [.spawn (some 1) 1, .spawn (some 2) 0, .expiry]).running_thread = some tr ∧
        tr.__thread_cs = BLOCKED) ∧
      (demo_after [.spawn (some 1) 1, .spawn (some 2) 0, .expiry]).running_thread
        ∉ s'.ready_threads ∧
      uthread_get_total_quantums s' =
        uthread_get_total_quantums (demo_after [.spawn (some 1) 1, .spawn (some 2) 0, .expiry])
          + 1 :=
  ⟨by decide, by decide,
    block_running_dispatches_head 3 _ 2 [0] (demo_after_reachable _ (by decide)) (by decide)
      (by decide)⟩

theorem init_ok (MAX_THREAD_NUM : Nat) (q : List Int) (size : Int) (hM : 0 < MAX_THREAD_NUM)
    (hsize : 0 < size) (hscan : scan_quantum_usecs q 0 size.toNat = some true) :
    ∃ s0 : Lib, uthread_init MAX_THREAD_NUM Sys.ok q size (Lib.initial MAX_THREAD_NUM)
      = .returned 0 s0 := by
  obtain ⟨v, hv, _⟩ := scan_true q _ 0 hscan 0 (le_refl _) (by omega)
  have h0 : (List.take size.toNat q)[0]? = some v := by
    rw [List.getElem?_take_of_lt (by omega)]; exact hv
  have hns : ¬ size ≤ 0 := by omega
  simp [uthread_init, hns, hscan, Sys.ok, Lib.store, Lib.initial, Lib.modify, Lib.thread, cell,
    hM, set_virtual_timer, Thread.getPriority, Thread.setState, Thread.incrQuantum, Thread.mk',
    Res.andThen, h0]

/-- Effect of a quantum expiry in a state that satisfies the invariant. -/
theorem expiry_spec (MAX_THREAD_NUM : Nat) (s : Lib) (hinv : Inv MAX_THREAD_NUM s) :
    ∃ s' : Lib,
      vt_handler_function Sys.ok s = .switched s' ∧
      s.ready_threads ++ [s.running_thread] = s'.running_thread :: s'.ready_threads ∧
      s'.total_quantums = s.total_quantums + 1 ∧
      (∃ t, s'.thread s'.running_thread = some t ∧ t.__thread_cs = RUNNING) ∧
      (s'.running_thread ≠ s.running_thread →
        ∃ t, s'.thread s.running_thread = some t ∧ t.__thread_cs = READY) ∧
      Inv MAX_THREAD_NUM s' := by
  obtain ⟨tr, th, hd, rest, v, T, hr, _, hq, hh, _, hres, _, hcell, hinv'⟩ :=
    dispatch_spec MAX_THREAD_NUM s READY (Or.inl rfl) hinv
  rw [if_pos rfl] at hq
  refine ⟨{ s with threads := T, ready_threads := rest, running_thread := hd, total_quantums := s.total_quantums + 1, vt_usec := v }, ?_, hq, rfl, hinv'.run_live, ?_, hinv'⟩
  · simp only [vt_handler_function, switch_threads, hres, Res.andThen]
  · intro hne
    refine ⟨tr.setState READY, ?_, rfl⟩
    show cell T s.running_thread = _
    rw [hcell, if_neg (Ne.symm hne), if_pos rfl]

/-- C7: a quantum expiry in a reachable state with running thread `r` and ready
queue `q` makes the head of `q ++ [r]` the RUNNING thread, leaves the ready
queue equal to the tail of `q ++ [r]` (so `r` is READY at the tail, or `r` is
dispatched again when `q` is empty) and adds 1 to the total quantum count.
Scenario, for any table of at least 3 threads: after `uthread_init([100, 200])`,
`spawn(f, 1)` returns 1 and `spawn(g, 0)` returns 2, the ready queue is `[1, 2]`,
and three expiries give the running sequence 0, 1, 2, 0 with a total of 4. -/
theorem expiry_round_robin (MAX_THREAD_NUM : Nat) :
    (∀ s : Lib, Reachable MAX_THREAD_NUM s →
      ∃ s' : Lib,
        vt_handler_function Sys.ok s = .switched s' ∧
        (s.ready_threads ++ [s.running_thread]).head? = some (uthread_get_tid s') ∧
        s'.ready_threads = (s.ready_threads ++ [s.running_thread]).tail ∧
        (∃ t, s'.thread (uthread_get_tid s') = some t ∧ t.__thread_cs = RUNNING) ∧
        (s.ready_threads ≠ [] →
          (∃ t, s'.thread s.running_thread = some t ∧ t.__thread_cs = READY) ∧
          s'.ready_threads.getLast? = some s.running_thread) ∧
        (s.ready_threads = [] →
          uthread_get_tid s' = s.running_thread ∧ s'.ready_threads = []) ∧
        uthread_get_total_quantums s' = uthread_get_total_quantums s + 1) ∧
    (3 ≤ MAX_THREAD_NUM → ∀ f g : Nat,
      ∃ s0 s1 s2 s3 s4 s5 : Lib,
        uthread_init MAX_THREAD_NUM Sys.ok [100, 200] 2 (Lib.initial MAX_THREAD_NUM)
          = .returned 0 s0 ∧
        uthread_spawn Sys.ok (some f) 1 s0 = .returned 1 s1 ∧
        uthread_spawn Sys.ok (some g) 0 s1 = .returned 2 s2 ∧
        s2.ready_threads = [1, 2] ∧ uthread_get_tid s2 = 0 ∧
        vt_handler_function Sys.ok s2 = .switched s3 ∧ uthread_get_tid s3 = 1 ∧
        vt_handler_function Sys.ok s3 = .switched s4 ∧ uthread_get_tid s4 = 2 ∧
        vt_handler_function Sys.ok s4 = .switched s5 ∧ uthread_get_tid s5 = 0 ∧
        uthread_get_total_quantums s5 = 4) := by
  constructor
  · intro s hreach
    have hinv := reachable_inv MAX_THREAD_NUM s hreach
    obtain ⟨s', hres, hq, htot, hrun, hprev, hinv'⟩ := expiry_spec MAX_THREAD_NUM s hinv
    refine ⟨s', hres, by rw [hq]; rfl, by rw [hq]; rfl, hrun, ?_, ?_, htot⟩
    · intro hne
      obtain ⟨x, xs, hx⟩ := List.exists_cons_of_ne_nil hne
      rw [hx, List.cons_append] at hq
      obtain ⟨hhead, htail⟩ := List.cons.inj hq
      have hdiff : s'.running_thread ≠ s.running_thread := by
        intro e
        have := inv_not_ready_of_running hinv
        rw [hx, ← e, ← hhead] at this
        exact this (List.mem_cons_self _ _)
      refine ⟨hprev hdiff, ?_⟩
      rw [← htail]
      simp
    · intro hnil
      rw [hnil, List.nil_append] at hq
      obtain ⟨hhead, htail⟩ := List.cons.inj hq
      exact ⟨hhead.symm, htail.symm⟩
  · intro hM f g
    obtain ⟨s0, hinit⟩ := init_ok MAX_THREAD_NUM [100, 200] 2 (by omega) (by decide)
      (by decide)
    have hinv0 := inv_init MAX_THREAD_NUM _ _ s0 hinit
    have hth0 := init_thread MAX_THREAD_NUM _ _ s0 hinit
    obtain ⟨_, _, _, v, _, hs0⟩ := init_spec MAX_THREAD_NUM _ _ s0 hinit
    have hready0 : s0.ready_threads = [] := by rw [hs0]
    have hrun0 : s0.running_thread = 0 := by rw [hs0]
    have htot0 : s0.total_quantums = 1 := by rw [hs0]
    have hsize0 : s0.priority_array_size = 2 := by rw [hs0]
    -- first spawn
    obtain ⟨t1, T1, hsp1, h1a, h1b, _, h1le, _, hcell1, hinv1⟩ :=
      spawn_least_free hinv0 ⟨1, le_refl _, by omega, by rw [hth0]; rfl⟩ f 1
        (by rw [hsize0]; decide)
    have ht1 : t1 = 1 := by
      have := h1le 1 (le_refl _) (by omega) (by rw [hth0]; rfl)
      omega
    subst ht1
    -- second spawn
    have hfree2 : Lib.thread { s0 with threads := T1, ready_threads := s0.ready_threads ++ [1], tid_que := s0.tid_que.erase 1 } 2 = none := by
      show cell T1 2 = none
      rw [hcell1, if_neg (by decide), hth0]; rfl
    obtain ⟨t2, T2, hsp2, h2a, h2b, h2none, h2le, _, _, hinv2⟩ :=
      spawn_least_free hinv1 ⟨2, by decide, by omega, hfree2⟩ g 0
        (by show (0 : Int) ≤ 0 ∧ (0 : Int) < s0.priority_array_size; rw [hsize0]; decide)
    have ht2 : t2 = 2 := by
      have hle := h2le 2 (by decide) (by omega) hfree2
      have hne1 : t2 ≠ 1 := by
        rintro rfl
        have : cell T1 1 = none := h2none
        rw [hcell1, if_pos rfl] at this
        cases this
      omega
    subst ht2
    -- three expiries
    obtain ⟨s3, he3, hq3, htot3, _, _, hinv3⟩ := expiry_spec MAX_THREAD_NUM _ hinv2
    simp only [hready0, hrun0, List.nil_append, List.cons_append, List.cons.injEq] at hq3
    obtain ⟨hr3, hrest3⟩ := hq3
    obtain ⟨s4, he4, hq4, htot4, _, _, hinv4⟩ := expiry_spec MAX_THREAD_NUM s3 hinv3
    rw [← hr3, ← hrest3] at hq4
    simp only [List.cons_append, List.nil_append, List.cons.injEq] at hq4
    obtain ⟨hr4, hrest4⟩ := hq4
    obtain ⟨s5, he5, hq5, htot5, _, _, _⟩ := expiry_spec MAX_THREAD_NUM s4 hinv4
    rw [← hr4, ← hrest4] at hq5
    simp only [List.cons_append, List.nil_append, List.cons.injEq] at hq5
    obtain ⟨hr5, _⟩ := hq5
    refine ⟨s0, _, _, s3, s4, s5, hinit, hsp1, hsp2, ?_, hrun0, he3, hr3.symm, he4, hr4.symm,
      he5, hr5.symm, ?_⟩
    · simp only [hready0, List.nil_append, List.cons_append]
    · simp only [uthread_get_total_quantums]
      rw [htot5, htot4, htot3]
      simp only [htot0]
      rfl

theorem expiry_round_robin_witness :
    (∃ s' : Lib,
      vt_handler_function Sys.ok (demo_after [.spawn (some 1) 1]) = .switched s' ∧
      ((demo_after [.spawn (some 1) 1]).ready_threads
        ++ [(demo_after [.spawn (some 1) 1]).running_thread]).head? = some (uthread_get_tid s') ∧
      s'.ready_threads = ((demo_after [.spawn (some 1) 1]).ready_threads
        ++ [(demo_after [.spawn (some 1) 1]).running_thread]).tail ∧
      (∃ t, s'.thread (uthread_get_tid s') = some t ∧ t.__thread_cs = RUNNING) ∧
      ((demo_after [.spawn (some 1) 1]).ready_threads ≠ [] →
        (∃ t, s'.thread (demo_after [.spawn (some 1) 1]).running_thread = some t ∧
          t.__thread_cs = READY) ∧
        s'.ready_threads.getLast? = some (demo_after [.spawn (some 1) 1]).running_thread) ∧
      ((demo_after [.spawn (some 1) 1]).ready_threads = [] →
        uthread_get_tid s' = (demo_after [.spawn (some 1) 1]).running_thread ∧
        s'.ready_threads = []) ∧
      uthread_get_total_quantums s' =
        uthread_get_total_quantums (demo_after [.spawn (some 1) 1]) + 1) ∧
    ∃ s0 s1 s2 s3 s4 s5 : Lib,
      uthread_init 100 Sys.ok [100, 200] 2 (Lib.initial 100) = .returned 0 s0 ∧
      uthread_spawn Sys.ok (some 1) 1 s0 = .returned 1 s1 ∧
      uthread_spawn Sys.ok (some 2) 0 s1 = .returned 2 s2 ∧
      s2.ready_threads = [1, 2] ∧ uthread_get_tid s2 = 0 ∧
      vt_handler_function Sys.ok s2 = .switched s3 ∧ uthread_get_tid s3 = 1 ∧
      vt_handler_function Sys.ok s3 = .switched s4 ∧ uthread_get_tid s4 = 2 ∧
      vt_handler_function Sys.ok s4 = .switched s5 ∧ uthread_get_tid s5 = 0 ∧
      uthread_get_total_quantums s5 = 4 :=
  ⟨(expiry_round_robin 3).1 _ (demo_after_reachable [.spawn (some 1) 1] (by decide)),
    (expiry_round_robin 100).2 (by decide) 1 2⟩

/-! ## Resume -/

/-- C8: for every live id `t`, `uthread_resume(t)` returns 0; when `t` is not
BLOCKED (READY or RUNNING) the whole state is unchanged; when `t` is BLOCKED it
becomes READY and is appended to the tail of the ready queue, while every
other thread, the existing queue entries and their order, the running id, the
quantum counters, the free-id pool, the priority table and the timer are
unchanged. -/
theorem resume_effect (MAX_THREAD_NUM : Nat) (s : Lib) (t : Int) (x : Thread)
    (hv : valid_tid MAX_THREAD_NUM s t = true) (hx : s.thread t = some x) :
    (x.__thread_cs ≠ BLOCKED → uthread_resume MAX_THREAD_NUM t s = .returned 0 s) ∧
    (x.__thread_cs = BLOCKED →
      ∃ s' : Lib,
        uthread_resume MAX_THREAD_NUM t s = .returned 0 s' ∧
        s'.thread t = some (x.setState READY) ∧
        (x.setState READY).__num_of_quantum = x.__num_of_quantum ∧
        (x.setState READY).__thread_priority = x.__thread_priority ∧
        s'.ready_threads = s.ready_threads ++ [t] ∧
        (∀ j, j ≠ t → s'.thread j = s.thread j) ∧
        uthread_get_tid s' = uthread_get_tid s ∧
        uthread_get_total_quantums s' = uthread_get_total_quantums s ∧
        s'.tid_que = s.tid_que ∧ s'.priority_array = s.priority_array ∧
        s'.priority_array_size = s.priority_array_size ∧ s'.vt_usec = s.vt_usec) := by
  obtain ⟨h0, h1⟩ := thread_bounds hx
  have hspec := resume_spec MAX_THREAD_NUM s t x hv hx
  constructor
  · intro hst
    rw [hspec, if_neg hst]
  · intro hst
    rw [if_pos hst] at hspec
    refine ⟨_, hspec, ?_, rfl, rfl, rfl, ?_, rfl, rfl, rfl, rfl, rfl, rfl⟩
    · show cell _ t = _
      rw [cell_set _ _ _ _ h0 h1, if_pos rfl]
    · intro j hj
      show cell _ j = _
      rw [cell_set _ _ _ _ h0 h1, if_neg hj]
      rfl

theorem resume_effect_witness :
    valid_tid 3 (demo_after [.spawn (some 1) 1, .block 1]) 1 = true ∧
    ∃ s' : Lib,
      uthread_resume 3 1 (demo_after [.spawn (some 1) 1, .block 1]) = .returned 0 s' ∧
      s'.thread 1 = some ((Thread.mk' (some 1) 1 1).setState READY) ∧
      s'.ready_threads = (demo_after [.spawn (some 1) 1, .block 1]).ready_threads ++ [1] :=
  ⟨by decide,
    let ⟨s', h1, h2, _, _, h3, _⟩ :=
      (resume_effect 3 (demo_after [.spawn (some 1) 1, .block 1]) 1
        ((Thread.mk' (some 1) 1 1).setState BLOCKED) (by decide) (by decide)).2 (by decide)
    ⟨s', h1, h2, h3⟩⟩

/-! ## Termination -/

/-- The loop of `uthread_terminate(0)` empties every cell it visits and returns
the ids to the pool; it needs only the pool part of the invariant. -/
theorem terminate_all_spec (MAX_THREAD_NUM : Nat) (ids : List Int) :
    ∀ s : Lib, (∀ i ∈ ids, 1 ≤ i ∧ i < MAX_THREAD_NUM) →
      s.threads.length = MAX_THREAD_NUM →
      (∀ i, i ∈ s.tid_que ↔ (1 ≤ i ∧ i < MAX_THREAD_NUM ∧ s.thread i = none)) →
      s.tid_que.Nodup →
      ∃ s' : Lib, terminate_all ids s = some s' ∧
        s'.threads.length = MAX_THREAD_NUM ∧
        (∀ i, i ∈ s'.tid_que ↔ (1 ≤ i ∧ i < MAX_THREAD_NUM ∧ s'.thread i = none)) ∧
        s'.tid_que.Nodup ∧
        (∀ i ∈ ids, s'.thread i = none) ∧
        (∀ j, s.thread j = none → s'.thread j = none) := by
  induction ids with
  | nil =>
    intro s _ hlen hpool hnd
    exact ⟨s, rfl, hlen, hpool, hnd, fun i hi => absurd hi (List.not_mem_nil i), fun _ h => h⟩
  | cons i ids ih =>
    intro s hids hlen hpool hnd
    obtain ⟨hi1, hi2⟩ := hids i (List.mem_cons_self _ _)
    have hids' : ∀ k ∈ ids, 1 ≤ k ∧ k < MAX_THREAD_NUM :=
      fun k hk => hids k (List.mem_cons_of_mem _ hk)
    have hread : s.threads.getD i.toNat none = s.thread i := by
      unfold Lib.thread cell
      rw [if_neg (by omega)]
    unfold terminate_all
    rw [hread]
    cases ht : s.thread i with
    | none =>
      simp only [Option.isSome_none, Bool.false_eq_true, if_false]
      obtain ⟨s', hres, hlen', hpool', hnd', hnone', hkeep⟩ := ih s hids' hlen hpool hnd
      refine ⟨s', hres, hlen', hpool', hnd', ?_, hkeep⟩
      intro k hk
      rcases List.mem_cons.mp hk with rfl | hk
      · exact hkeep _ ht
      · exact hnone' k hk
    | some t =>
      simp only [Option.isSome_some, if_true]
      rw [terminate_thread_spec s i t ht]
      simp only []
      obtain ⟨hb0, hb1⟩ := thread_bounds ht
      have hcell : ∀ j, cell (s.threads.set i.toNat none) j = if j = i then none else s.thread j :=
        fun j => cell_set _ _ _ _ hb0 hb1
      have hnp : i ∉ s.tid_que := by
        intro hm
        have := ((hpool i).mp hm).2.2
        rw [ht] at this
        cases this
      obtain ⟨s', hres, hlen', hpool', hnd', hnone', hkeep⟩ :=
        ih { s with threads := s.threads.set i.toNat none, ready_threads := (if t.__thread_cs = READY then s.ready_threads.filter (fun x => x ≠ i) else s.ready_threads), tid_que := s.tid_que ++ [i] }
          hids' (by simpa using hlen)
          (by
            intro k
            show k ∈ s.tid_que ++ [i] ↔ (1 ≤ k ∧ k < MAX_THREAD_NUM ∧
              cell (s.threads.set i.toNat none) k = none)
            rw [hcell, List.mem_append, List.mem_singleton, hpool]
            by_cases e : k = i
            · simp only [e, if_true, and_true, or_true, true_iff]
              exact ⟨hi1, hi2⟩
            · simp only [e, if_false, or_false])
          (List.Nodup.append hnd (List.nodup_singleton _) (by simpa using hnp))
      refine ⟨s', hres, hlen', hpool', hnd', ?_, ?_⟩
      · intro k hk
        rcases List.mem_cons.mp hk with rfl | hk
        · apply hkeep
          show cell (s.threads.set k.toNat none) k = none
          rw [hcell, if_pos rfl]
        · exact hnone' k hk
      · intro j hj
        apply hkeep
        show cell (s.threads.set i.toNat none) j = none
        rw [hcell]
        split
        · rfl
        · exact hj

/-- As long as every system call and allocation has succeeded (`Reachable`),
whichever thread is running, `uthread_terminate(0)` does not return: it ends the
process with exit status 0, and at that moment every id in
`[1, MAX_THREAD_NUM)` has an empty table cell and is in the free-id pool, once. -/
theorem terminate_main_exits_of_reachable (MAX_THREAD_NUM : Nat) (sys : Sys) (s : Lib)
    (hreach : Reachable MAX_THREAD_NUM s) :
    ∃ s' : Lib,
      uthread_terminate MAX_THREAD_NUM sys 0 s = .exited 0 s' ∧
      ∀ i : Int, 1 ≤ i → i < MAX_THREAD_NUM →
        s'.thread i = none ∧ i ∈ s'.tid_que ∧ s'.tid_que.count i = 1 := by
  have hinv := reachable_inv MAX_THREAD_NUM s hreach
  obtain ⟨t0, ht0, _⟩ := hinv.main_live
  have hv := valid_tid_of_live MAX_THREAD_NUM s 0 t0 hinv.len ht0
  obtain ⟨s', hres, _, hpool', hnd', hnone', _⟩ :=
    terminate_all_spec MAX_THREAD_NUM ((List.range' 1 (MAX_THREAD_NUM - 1)).map Int.ofNat) s
      (fun i hi => (mem_pool_init MAX_THREAD_NUM i).mp hi) hinv.len hinv.pool_iff hinv.pool_nodup
  refine ⟨s', ?_, ?_⟩
  · simp only [uthread_terminate, hv, Bool.not_true, Bool.false_eq_true, if_false,
      MAIN_THREAD_ID, if_true, hres]
  · intro i h1 h2
    have hnone := hnone' i ((mem_pool_init MAX_THREAD_NUM i).mpr ⟨h1, h2⟩)
    have hmem := (hpool' i).mpr ⟨h1, h2, hnone⟩
    exact ⟨hnone, hmem, List.count_eq_one_of_mem hnd' hmem⟩

theorem terminate_main_exits_of_reachable_example :
    ∃ s' : Lib,
      uthread_terminate 3 Sys.ok 0 (demo_after [.spawn (some 1) 1, .spawn (some 2) 0, .expiry])
        = .exited 0 s' ∧
      ∀ i : Int, 1 ≤ i → i < (3 : Nat) →
        s'.thread i = none ∧ i ∈ s'.tid_que ∧ s'.tid_que.count i = 1 :=
  terminate_main_exits_of_reachable 3 Sys.ok _ (demo_after_reachable _ (by decide))

/-- Effect of `uthread_terminate` on a live thread that is neither the main
thread nor the running one, in a state that satisfies the invariant. -/
theorem terminate_other_spec (MAX_THREAD_NUM : Nat) (sys : Sys) (s : Lib) (t : Int) (x : Thread)
    (hinv : Inv MAX_THREAD_NUM s) (hx : s.thread t = some x) (hne0 : t ≠ 0)
    (hner : t ≠ s.running_thread) :
    ∃ T : List (Option Thread),
      uthread_terminate MAX_THREAD_NUM sys t s = .returned 0 { s with threads := T, ready_threads := s.ready_threads.filter (fun y => y ≠ t), tid_que := s.tid_que ++ [t] } ∧
      (∀ j, cell T j = if j = t then none else s.thread j) ∧
      Inv MAX_THREAD_NUM { s with threads := T, ready_threads := s.ready_threads.filter (fun y => y ≠ t), tid_que := s.tid_que ++ [t] } := by
  obtain ⟨hb0, hb1⟩ := thread_bounds hx
  have hv := valid_tid_of_live MAX_THREAD_NUM s t x hinv.len hx
  have hready : (if x.__thread_cs = READY then
      s.ready_threads.filter (fun y => y ≠ t) else s.ready_threads)
      = s.ready_threads.filter (fun y => y ≠ t) := by
    split
    · rfl
    · rename_i hst
      rw [filter_ne_of_not_mem]
      intro hm
      obtain ⟨t', ht', hst'⟩ := (hinv.ready_iff _).mp hm
      rw [hx] at ht'; cases ht'
      exact hst hst'
  have hi := inv_terminate_thread MAX_THREAD_NUM s t x hinv hx hne0 hner
  rw [hready] at hi
  refine ⟨s.threads.set t.toNat none, ?_, fun j => cell_set _ _ _ _ hb0 hb1, hi⟩
  simp only [uthread_terminate, hv, Bool.not_true, Bool.false_eq_true, if_false, hne0,
    MAIN_THREAD_ID, hner, terminate_thread_spec s t x hx, hready]

/-- C11: in every reachable state whose running thread `r` is not 0 and whose
ready queue is `h :: rest`, `uthread_terminate(r)` does not return to its
caller: it leaves through the switch with the table cell of `r` empty and `r`
in the free-id pool (so `uthread_get_quantums(r)` fails), `r` absent from the
ready queue, `h` RUNNING with its quantum count increased by 1, the ready queue
equal to `rest` and the total quantum count increased by 1. -/
theorem terminate_running_dispatches_head (MAX_THREAD_NUM : Nat) (s : Lib) (h : Int)
    (rest : List Int) (th : Thread) (hreach : Reachable MAX_THREAD_NUM s)
    (hne0 : s.running_thread ≠ 0) (hq : s.ready_threads = h :: rest)
    (hh : s.thread h = some th) :
    ∃ s' : Lib,
      uthread_terminate MAX_THREAD_NUM Sys.ok s.running_thread s = .switched s' ∧
      s'.thread s.running_thread = none ∧
      s.running_thread ∈ s'.tid_que ∧
      uthread_get_quantums MAX_THREAD_NUM s.running_thread s' = .returned (-1) s' ∧
      s.running_thread ∉ s'.ready_threads ∧
      uthread_get_tid s' = h ∧
      (∃ th', s'.thread h = some th' ∧ th'.__thread_cs = RUNNING ∧
        th'.__num_of_quantum = th.__num_of_quantum + 1) ∧
      s'.ready_threads = rest ∧
      uthread_get_total_quantums s' = uthread_get_total_quantums s + 1 := by
  have hinv := reachable_inv MAX_THREAD_NUM s hreach
  obtain ⟨tr, th0, hd, rest', v, T, hr, hq', hh', hne, _, hres, _, hcell, hinv'⟩ :=
    terminate_running_spec MAX_THREAD_NUM s hinv hne0
  rw [hq] at hq'
  obtain ⟨rfl, rfl⟩ := List.cons.inj hq'
  rw [hh] at hh'
  cases hh'
  have hnone : Lib.thread { s with threads := T, ready_threads := rest, running_thread := h, total_quantums := s.total_quantums + 1, vt_usec := v, tid_que := s.tid_que ++ [s.running_thread] } s.running_thread = none := by
    show cell T s.running_thread = none
    rw [hcell, if_pos rfl]
  refine ⟨_, hres, hnone, ?_, ?_, ?_, rfl, ⟨th.incrQuantum.setState RUNNING, ?_, rfl, rfl⟩,
    rfl, rfl⟩
  · simp
  · simp [uthread_get_quantums, valid_tid_false MAX_THREAD_NUM _ _ (Or.inr (Or.inr hnone))]
  · intro hmem
    obtain ⟨t', ht', _⟩ := (hinv'.ready_iff _).mp hmem
    rw [hnone] at ht'
    cases ht'
  · show cell T h = _
    rw [hcell, if_neg hne, if_pos rfl]

theorem terminate_running_dispatches_head_witness :
    (demo_after [.spawn (some 1) 1, .spawn (some 2) 0, .expiry]).running_thread ≠ 0 ∧
    ∃ s' : Lib,
      uthread_terminate 3 Sys.ok
        (demo_after [.spawn (some 1) 1, .spawn (some 2) 0, .expiry]).running_thread
        (demo_after [.spawn (some 1) 1, .spawn (some 2) 0, .expiry]) = .switched s' ∧
      s'.thread (demo_after [.spawn (some 1) 1, .spawn (some 2) 0, .expiry]).running_thread
        = none ∧
      (demo_after [.spawn (some 1) 1, .spawn (some 2) 0, .expiry]).running_thread
        ∈ s'.tid_que ∧
      uthread_get_quantums 3
        (demo_after [.spawn (some 1) 1, .spawn (some 2) 0, .expiry]).running_thread s'
        = .returned (-1) s' ∧
      (demo_after [.spawn (some 1) 1, .spawn (some 2) 0, .expiry]).running_thread
        ∉ s'.ready_threads ∧
      uthread_get_tid s' = 2 ∧
      (∃ th', s'.thread 2 = some th' ∧ th'.__thread_cs = RUNNING ∧
        th'.__num_of_quantum = (Thread.mk' (some 2) 2 0).__num_of_quantum + 1) ∧
      s'.ready_threads = [0] ∧
      uthread_get_total_quantums s' =
        uthread_get_total_quantums (demo_after [.spawn (some 1) 1, .spawn (some 2) 0, .expiry])
          + 1 :=
  ⟨by decide,
    terminate_running_dispatches_head 3 _ 2 [0] (Thread.mk' (some 2) 2 0)
      (demo_after_reachable _ (by decide)) (by decide) (by decide) (by decide)⟩

/-! ## Blocking another thread -/

/-- C16: for every live thread `t` that is neither 0 nor the running thread,
`uthread_block(t)` returns 0 and triggers no dispatch (running id, total quantum
count and every quantum count unchanged): a READY thread becomes BLOCKED and
leaves the ready queue, the other entries keeping their order; a thread that is
not READY (already BLOCKED) leaves the state identical; blocking `t` a second
time changes nothing. -/
theorem block_other_effect (MAX_THREAD_NUM : Nat) (sys : Sys) (s : Lib) (t : Int) (x : Thread)
    (hv : valid_tid MAX_THREAD_NUM s t = true) (hx : s.thread t = some x) (hne0 : t ≠ 0)
    (hner : t ≠ s.running_thread) :
    ∃ s' : Lib,
      uthread_block MAX_THREAD_NUM sys t s = .returned 0 s' ∧
      uthread_get_tid s' = uthread_get_tid s ∧
      uthread_get_total_quantums s' = uthread_get_total_quantums s ∧
      (∀ j y, s.thread j = some y →
        ∃ y', s'.thread j = some y' ∧ y'.__num_of_quantum = y.__num_of_quantum) ∧
      (x.__thread_cs = READY →
        s'.thread t = some (x.setState BLOCKED) ∧
        s'.ready_threads = s.ready_threads.filter (fun y => y ≠ t) ∧
        t ∉ s'.ready_threads ∧
        (∀ j, j ≠ t → s'.thread j = s.thread j)) ∧
      (x.__thread_cs ≠ READY → s' = s) ∧
      uthread_block MAX_THREAD_NUM sys t s' = .returned 0 s' := by
  obtain ⟨h0, h1⟩ := thread_bounds hx
  have hspec := block_other_spec MAX_THREAD_NUM sys s t x hv hx hne0 hner
  by_cases hst : x.__thread_cs = READY
  · rw [if_pos hst] at hspec
    have hcell : ∀ j, cell (s.threads.set t.toNat (some (x.setState BLOCKED))) j =
        if j = t then some (x.setState BLOCKED) else s.thread j :=
      fun j => cell_set _ _ _ _ h0 h1
    have hx' : Lib.thread { s with threads := s.threads.set t.toNat (some (x.setState BLOCKED)), ready_threads := s.ready_threads.filter (fun y => y ≠ t) } t = some (x.setState BLOCKED) := by
      show cell _ t = _
      rw [hcell, if_pos rfl]
    have hv' : valid_tid MAX_THREAD_NUM { s with threads := s.threads.set t.toNat (some (x.setState BLOCKED)), ready_threads := s.ready_threads.filter (fun y => y ≠ t) } t = true := by
      obtain ⟨a, b, _⟩ := (valid_tid_iff _ _ _).mp hv
      exact (valid_tid_iff _ _ _).mpr ⟨a, b, _, hx'⟩
    refine ⟨_, hspec, rfl, rfl, ?_, ?_, fun h => absurd hst h, ?_⟩
    · intro j y hy
      by_cases e : j = t
      · subst e
        rw [hx] at hy; cases hy
        exact ⟨_, hx', rfl⟩
      · refine ⟨y, ?_, rfl⟩
        show cell _ j = _
        rw [hcell, if_neg e]
        exact hy
    · intro _
      refine ⟨hx', rfl, by simp [List.mem_filter], ?_⟩
      intro j hj
      show cell _ j = _
      rw [hcell, if_neg hj]
    · rw [block_other_spec MAX_THREAD_NUM sys _ t (x.setState BLOCKED) hv' hx' hne0 hner,
        if_neg (by simp [Thread.setState])]
  · rw [if_neg hst] at hspec
    refine ⟨s, hspec, rfl, rfl, fun j y hy => ⟨y, hy, rfl⟩, fun h => absurd h hst,
      fun _ => rfl, hspec⟩

theorem block_other_effect_witness :
    ∃ s' : Lib,
      uthread_block 3 Sys.ok 2 (demo_after [.spawn (some 1) 1, .spawn (some 2) 0]) =
        .returned 0 s' ∧
      s'.thread 2 = some ((Thread.mk' (some 2) 2 0).setState BLOCKED) ∧
      s'.ready_threads = [1] ∧
      uthread_block 3 Sys.ok 2 s' = .returned 0 s' :=
  let ⟨s', h1, _, _, _, h2, _, h3⟩ :=
    block_other_effect 3 Sys.ok (demo_after [.spawn (some 1) 1, .spawn (some 2) 0]) 2
      (Thread.mk' (some 2) 2 0) (by decide) (by decide) (by decide) (by decide)
  ⟨s', h1, (h2 (by decide)).1, (h2 (by decide)).2.1.trans (by decide), h3⟩

/-! ## Invariants of reachable states -/

/-- C17: in every state reachable from a successful `uthread_init` through the
public operations and quantum expiries, an id is in the ready queue if and only
if it has a TCB whose state is READY. -/
theorem ready_queue_iff_ready (MAX_THREAD_NUM : Nat) (s : Lib)
    (hreach : Reachable MAX_THREAD_NUM s) (i : Int) :
    i ∈ s.ready_threads ↔ ∃ t, s.thread i = some t ∧ t.getState = READY :=
  (reachable_inv MAX_THREAD_NUM s hreach).ready_iff i

theorem ready_queue_iff_ready_witness :
    ((1 : Int) ∈
        (demo_after [.spawn (some 1) 1, .spawn (some 2) 0, .expiry, .block 2]).ready_threads ↔
      ∃ t, (demo_after [.spawn (some 1) 1, .spawn (some 2) 0, .expiry, .block 2]).thread 1
          = some t ∧ t.getState = READY) ∧
    ((2 : Int) ∈
        (demo_after [.spawn (some 1) 1, .spawn (some 2) 0, .expiry, .block 2]).ready_threads ↔
      ∃ t, (demo_after [.spawn (some 1) 1, .spawn (some 2) 0, .expiry, .block 2]).thread 2
          = some t ∧ t.getState = READY) :=
  ⟨ready_queue_iff_ready 3 _ (demo_after_reachable _ (by decide)) 1,
    ready_queue_iff_ready 3 _ (demo_after_reachable _ (by decide)) 2⟩

/-- C18: in every reachable state, observed between operations, exactly one live
thread has state RUNNING, and it is the thread whose id `uthread_get_tid()`
returns. -/
theorem exactly_one_running (MAX_THREAD_NUM : Nat) (s : Lib)
    (hreach : Reachable MAX_THREAD_NUM s) :
    (∃ t, s.thread (uthread_get_tid s) = some t ∧ t.getState = RUNNING) ∧
    (∀ i t, s.thread i = some t → t.getState = RUNNING → i = uthread_get_tid s) ∧
    (∃! i : Int, ∃ t, s.thread i = some t ∧ t.getState = RUNNING) := by
  have hinv := reachable_inv MAX_THREAD_NUM s hreach
  obtain ⟨t, ht, hst⟩ := hinv.run_live
  refine ⟨⟨t, ht, hst⟩, hinv.run_unique, ⟨s.running_thread, ⟨t, ht, hst⟩, ?_⟩⟩
  rintro i ⟨t', ht', hst'⟩
  exact hinv.run_unique i t' ht' hst'

theorem exactly_one_running_witness :
    (∃ t, (demo_after [.spawn (some 1) 1, .expiry]).thread
        (uthread_get_tid (demo_after [.spawn (some 1) 1, .expiry])) = some t ∧
      t.getState = RUNNING) ∧
    (∀ i t, (demo_after [.spawn (some 1) 1, .expiry]).thread i = some t →
      t.getState = RUNNING → i = uthread_get_tid (demo_after [.spawn (some 1) 1, .expiry])) ∧
    (∃! i : Int, ∃ t, (demo_after [.spawn (some 1) 1, .expiry]).thread i = some t ∧
      t.getState = RUNNING) :=
  exactly_one_running 3 _ (demo_after_reachable _ (by decide))

/-- As long as every system call and allocation has succeeded (`Reachable`), the
free-id pool and the ids with a TCB partition `[0, MAX_THREAD_NUM)`: an id of
`[1, MAX_THREAD_NUM)` without a TCB is in the pool exactly once, an id with a TCB
is not in the pool, the pool holds only ids of `[1, MAX_THREAD_NUM)`, id 0 has a
TCB and is not in the pool, and the number of live threads is at most
`MAX_THREAD_NUM`. -/
theorem pool_and_table_partition_of_reachable (MAX_THREAD_NUM : Nat) (s : Lib)
    (hreach : Reachable MAX_THREAD_NUM s) :
    (∀ i : Int, 1 ≤ i → i < MAX_THREAD_NUM → s.thread i = none → s.tid_que.count i = 1) ∧
    (∀ (i : Int) (t : Thread), s.thread i = some t →
      0 ≤ i ∧ i < MAX_THREAD_NUM ∧ s.tid_que.count i = 0) ∧
    (∀ i ∈ s.tid_que, 1 ≤ i ∧ i < MAX_THREAD_NUM ∧ s.thread i = none) ∧
    (∃ t, s.thread 0 = some t) ∧ (0 : Int) ∉ s.tid_que ∧
    live_count s ≤ MAX_THREAD_NUM := by
  have hinv := reachable_inv MAX_THREAD_NUM s hreach
  obtain ⟨t0, ht0, _⟩ := hinv.main_live
  refine ⟨?_, ?_, ?_, ⟨t0, ht0⟩, inv_live_not_pool hinv ht0, ?_⟩
  · intro i h1 h2 hnone
    exact List.count_eq_one_of_mem hinv.pool_nodup ((hinv.pool_iff i).mpr ⟨h1, h2, hnone⟩)
  · intro i t ht
    obtain ⟨h0, h1⟩ := thread_bounds ht
    have hlen := hinv.len
    exact ⟨h0, by omega, List.count_eq_zero_of_not_mem (inv_live_not_pool hinv ht)⟩
  · intro i hi
    exact (hinv.pool_iff i).mp hi
  · rw [← hinv.len]
    exact List.countP_le_length _

theorem pool_and_table_partition_of_reachable_example :
    (∀ i : Int, 1 ≤ i → i < (3 : Nat) →
      (demo_after [.spawn (some 1) 1, .spawn (some 2) 0, .terminate 1]).thread i = none →
      (demo_after [.spawn (some 1) 1, .spawn (some 2) 0, .terminate 1]).tid_que.count i = 1) ∧
    (∀ (i : Int) (t : Thread),
      (demo_after [.spawn (some 1) 1, .spawn (some 2) 0, .terminate 1]).thread i = some t →
      0 ≤ i ∧ i < (3 : Nat) ∧
      (demo_after [.spawn (some 1) 1, .spawn (some 2) 0, .terminate 1]).tid_que.count i = 0) ∧
    (∀ i ∈ (demo_after [.spawn (some 1) 1, .spawn (some 2) 0, .terminate 1]).tid_que,
      1 ≤ i ∧ i < (3 : Nat) ∧
      (demo_after [.spawn (some 1) 1, .spawn (some 2) 0, .terminate 1]).thread i = none) ∧
    (∃ t, (demo_after [.spawn (some 1) 1, .spawn (some 2) 0, .terminate 1]).thread 0 = some t) ∧
    (0 : Int) ∉ (demo_after [.spawn (some 1) 1, .spawn (some 2) 0, .terminate 1]).tid_que ∧
    live_count (demo_after [.spawn (some 1) 1, .spawn (some 2) 0, .terminate 1]) ≤ 3 :=
  pool_and_table_partition_of_reachable 3 _ (demo_after_reachable _ (by decide))

/-- C20: the pop in `switch_threads_helper` never meets an empty queue. In every
reachable state thread 0 has a TCB whose state is RUNNING or READY; when the
running thread is not 0 the ready queue contains 0, so the queue is not empty
when that thread blocks or terminates itself, and both calls leave through the
switch; at a quantum expiry the running thread is pushed before the pop, so the
queue is not empty and the handler leaves through the switch. -/
theorem pop_never_on_empty_queue (MAX_THREAD_NUM : Nat) (s : Lib)
    (hreach : Reachable MAX_THREAD_NUM s) :
    (∃ t, s.thread 0 = some t ∧ (t.getState = RUNNING ∨ t.getState = READY)) ∧
    (s.running_thread ≠ 0 →
      (0 : Int) ∈ s.ready_threads ∧ queue_at_pop BLOCKED s ≠ [] ∧
      (∃ s', uthread_block MAX_THREAD_NUM Sys.ok s.running_thread s = .switched s') ∧
      (∃ s', uthread_terminate MAX_THREAD_NUM Sys.ok s.running_thread s = .switched s')) ∧
    (s.running_thread ∈ queue_at_pop READY s ∧ queue_at_pop READY s ≠ [] ∧
      ∃ s', vt_handler_function Sys.ok s = .switched s') := by
  have hinv := reachable_inv MAX_THREAD_NUM s hreach
  refine ⟨hinv.main_live, ?_, ?_⟩
  · intro hne0
    have hmem := inv_main_in_ready hinv hne0
    obtain ⟨tr, hr, hrs⟩ := hinv.run_live
    have hv := valid_tid_of_live MAX_THREAD_NUM s _ tr hinv.len hr
    refine ⟨hmem, ?_, ?_, ?_⟩
    · simp only [queue_at_pop, ne_eq, not_true_eq_false, if_false]
      exact List.ne_nil_of_mem hmem
    · obtain ⟨_, _, _, _, _, _, _, _, _, _, _, hres, _⟩ :=
        dispatch_spec MAX_THREAD_NUM s BLOCKED (Or.inr ⟨rfl, hne0⟩) hinv
      rw [block_running_spec MAX_THREAD_NUM Sys.ok s tr hv hr hne0 (by rw [hrs]; decide), hres]
      exact ⟨_, rfl⟩
    · obtain ⟨_, _, _, _, _, _, _, _, _, _, _, hres, _⟩ :=
        terminate_running_spec MAX_THREAD_NUM s hinv hne0
      exact ⟨_, hres⟩
  · obtain ⟨s', hres, _⟩ := expiry_spec MAX_THREAD_NUM s hinv
    refine ⟨?_, ?_, s', hres⟩
    · simp [queue_at_pop]
    · simp [queue_at_pop]

theorem pop_never_on_empty_queue_witness :
    (∃ t, (demo_after [.spawn (some 1) 1, .expiry]).thread 0 = some t ∧
      (t.getState = RUNNING ∨ t.getState = READY)) ∧
    ((demo_after [.spawn (some 1) 1, .expiry]).running_thread ≠ 0 →
      (0 : Int) ∈ (demo_after [.spawn (some 1) 1, .expiry]).ready_threads ∧
      queue_at_pop BLOCKED (demo_after [.spawn (some 1) 1, .expiry]) ≠ [] ∧
      (∃ s', uthread_block 3 Sys.ok (demo_after [.spawn (some 1) 1, .expiry]).running_thread
        (demo_after [.spawn (some 1) 1, .expiry]) = .switched s') ∧
      (∃ s', uthread_terminate 3 Sys.ok (demo_after [.spawn (some 1) 1, .expiry]).running_thread
        (demo_after [.spawn (some 1) 1, .expiry]) = .switched s')) ∧
    ((demo_after [.spawn (some 1) 1, .expiry]).running_thread
        ∈ queue_at_pop READY (demo_after [.spawn (some 1) 1, .expiry]) ∧
      queue_at_pop READY (demo_after [.spawn (some 1) 1, .expiry]) ≠ [] ∧
      ∃ s', vt_handler_function Sys.ok (demo_after [.spawn (some 1) 1, .expiry]) = .switched s') :=
  pop_never_on_empty_queue 3 _ (demo_after_reachable _ (by decide))

/-! ## The priority table and the timer -/

theorem step_table {s s' : Lib} {e : Event} (h : StepEffect s e s') :
    s'.priority_array = s.priority_array ∧ s'.priority_array_size = s.priority_array_size ∧
    s'.priority_array_cells = s.priority_array_cells := by
  cases h <;> exact ⟨rfl, rfl, rfl⟩

/-- A dispatch arms the timer with the table entry of the priority that the
thread made RUNNING has at that moment. -/
theorem step_dispatch_timer {s s' : Lib} {e : Event} (h : StepEffect s e s')
    (hs : e.schedules s = true) (x : Thread) (hx : s.thread s'.running_thread = some x) :
    s.priority_array[x.__thread_priority.toNat]? = some s'.vt_usec := by
  cases h with
  | same e hs' => rw [hs'] at hs; cases hs
  | spawn a p tid T => simp [Event.schedules] at hs
  | change_priority tid p t T => simp [Event.schedules] at hs
  | terminate_other tid t T ht hne0 hner => simp [Event.schedules, hner] at hs
  | terminate_running tr th h rest v T hr hne0 hq hh hne hv hlen hcell =>
    have hx' : s.thread h = some x := hx
    rw [hh] at hx'; cases hx'
    exact hv
  | block_other tid t T ht hst hne0 hner => simp [Event.schedules, hner] at hs
  | block_running tr th h rest v T hr hne0 hq hh hne hv hlen hcell =>
    have hx' : s.thread h = some x := hx
    rw [hh] at hx'; cases hx'
    exact hv
  | resume tid t T => simp [Event.schedules] at hs
  | expiry tr th h rest v T hr hq hh hv hlen hcell =>
    have hx' : s.thread h = some x := hx
    split at hh
    · rename_i e
      rw [e, hr] at hx'; cases hx'; cases hh
      exact hv
    · rw [hh] at hx'; cases hx'
      exact hv

/-- A step that does not invoke the scheduler leaves the armed timer as it is. -/
theorem step_timer_kept {s s' : Lib} {e : Event} (h : StepEffect s e s')
    (hs : e.schedules s = false) : s'.vt_usec = s.vt_usec := by
  cases h with
  | same e hs' => rfl
  | spawn a p tid T => rfl
  | change_priority tid p t T => rfl
  | terminate_other tid t T ht hne0 hner => rfl
  | terminate_running tr th h rest v T hr hne0 => simp [Event.schedules, hne0] at hs
  | block_other tid t T ht hst hne0 hner => rfl
  | block_running tr th h rest v T hr hne0 => simp [Event.schedules, hne0] at hs
  | resume tid t T => rfl
  | expiry tr th h rest v T => simp [Event.schedules] at hs

/-- C13 (code_bug), evaluation of `uthread_init([100, 200], 2)`: the call
succeeds and records two priorities, priority 1 passes `valid_priority`, but the
block that `new int (size)` allocates has a single cell, so index 1 of
`priority_array` lies outside it. -/
theorem init_allocates_one_cell :
    uthread_init 3 Sys.ok [100, 200] 2 (Lib.initial 3) = .returned 0 demo_init ∧
    demo_init.priority_array_size = 2 ∧
    demo_init.priority_array_cells = 1 ∧
    valid_priority demo_init 1 = true ∧
    priority_array_in_bounds demo_init 0 = true ∧
    priority_array_in_bounds demo_init 1 = false := by
  decide

/-! ## System errors -/

/-- C15 (code_bug), evaluation of the five system errors: a failed `sigaction`
and a failed allocation of a `Thread` object make `uthread_init` and
`uthread_spawn` return `-1` to the caller and end no process; the spawn has by
then popped id 1 from the pool and leaves it neither in the pool nor in the
table.  A failed stack allocation and a failed `setitimer` end the process with
status 1. -/
theorem system_errors_outcomes :
    uthread_init 3 Sys.sigaction_fails [100, 200] 2 (Lib.initial 3)
      = .returned (-1) (Lib.initial 3) ∧
    (uthread_init 3 Sys.new_Thread_fails [100, 200] 2 (Lib.initial 3)).returnValue
      = some (-1) ∧
    (uthread_init 3 Sys.new_Thread_fails [100, 200] 2 (Lib.initial 3)).exitStatus = none ∧
    demo_init.tid_que = [1, 2] ∧
    uthread_spawn Sys.new_Thread_fails (some 1) 0 demo_init
      = .returned (-1) { demo_init with tid_que := [2] } ∧
    demo_init.thread 1 = none ∧
    uthread_spawn Sys.new_stack_fails (some 1) 0 demo_init
      = .exited 1 { demo_init with tid_que := [2] } ∧
    (uthread_init 3 Sys.setitimer_fails [100, 200] 2 (Lib.initial 3)).exitStatus = some 1 ∧
    (vt_handler_function Sys.setitimer_fails demo_init).exitStatus = some 1 := by
  decide

/-! ## Changing a priority -/

/-- A step keeps the priority of every thread that the event neither sets the
priority of nor terminates. -/
theorem step_priority {s s' : Lib} {e : Event} (h : StepEffect s e s') (t : Int) (x : Thread)
    (ht : e.touches t = false) (hx : s.thread t = some x) :
    ∃ x', s'.thread t = some x' ∧ x'.__thread_priority = x.__thread_priority := by
  cases h with
  | same e hs => exact ⟨x, hx, rfl⟩
  | spawn a p tid T hvp hmin hnone hlen hcell =>
    refine ⟨x, ?_, rfl⟩
    show cell T t = _
    rw [hcell, if_neg (by rintro rfl; rw [hnone] at hx; cases hx)]
    exact hx
  | change_priority tid p t0 T hvp ht0 hlen hcell =>
    have hne : t ≠ tid := by
      rintro rfl
      simp [Event.touches] at ht
    refine ⟨x, ?_, rfl⟩
    show cell T t = _
    rw [hcell, if_neg hne]
    exact hx
  | terminate_other tid t0 T ht0 hne0 hner hlen hcell =>
    have hne : t ≠ tid := by
      rintro rfl
      simp [Event.touches] at ht
    refine ⟨x, ?_, rfl⟩
    show cell T t = _
    rw [hcell, if_neg hne]
    exact hx
  | terminate_running tr th h rest v T hr hne0 hq hh hne hv hlen hcell =>
    have hner : t ≠ s.running_thread := by
      rintro rfl
      simp [Event.touches] at ht
    by_cases e : t = h
    · refine ⟨th.incrQuantum.setState RUNNING, ?_, ?_⟩
      · show cell T t = _
        rw [hcell, if_neg hner, if_pos e]
      · rw [e, hh] at hx; cases hx; rfl
    · refine ⟨x, ?_, rfl⟩
      show cell T t = _
      rw [hcell, if_neg hner, if_neg e]
      exact hx
  | block_other tid t0 T ht0 hst hne0 hner hlen hcell =>
    by_cases e : t = tid
    · refine ⟨t0.setState BLOCKED, ?_, ?_⟩
      · show cell T t = _
        rw [hcell, if_pos e]
      · rw [e, ht0] at hx; cases hx; rfl
    · refine ⟨x, ?_, rfl⟩
      show cell T t = _
      rw [hcell, if_neg e]
      exact hx
  | block_running tr th h rest v T hr hne0 hq hh hne hv hlen hcell =>
    by_cases e : t = h
    · refine ⟨th.incrQuantum.setState RUNNING, ?_, ?_⟩
      · show cell T t = _
        rw [hcell, if_pos e]
      · rw [e, hh] at hx; cases hx; rfl
    · by_cases e2 : t = s.running_thread
      · refine ⟨tr.setState BLOCKED, ?_, ?_⟩
        · show cell T t = _
          rw [hcell, if_neg e, if_pos e2]
        · rw [e2, hr] at hx; cases hx; rfl
      · refine ⟨x, ?_, rfl⟩
        show cell T t = _
        rw [hcell, if_neg e, if_neg e2]
        exact hx
  | resume tid t0 T ht0 hst hlen hcell =>
    by_cases e : t = tid
    · refine ⟨t0.setState READY, ?_, ?_⟩
      · show cell T t = _
        rw [hcell, if_pos e]
      · rw [e, ht0] at hx; cases hx; rfl
    · refine ⟨x, ?_, rfl⟩
      show cell T t = _
      rw [hcell, if_neg e]
      exact hx
  | expiry tr th h rest v T hr hq hh hv hlen hcell =>
    by_cases e : t = h
    · refine ⟨th.incrQuantum.setState RUNNING, ?_, ?_⟩
      · show cell T t = _
        rw [hcell, if_pos e]
      · split at hh
        · rename_i e2
          rw [e, e2, hr] at hx; cases hx; cases hh; rfl
        · rw [e, hh] at hx; cases hx; rfl
    · by_cases e2 : t = s.running_thread
      · refine ⟨tr.setState READY, ?_, ?_⟩
        · show cell T t = _
          rw [hcell, if_neg e, if_pos e2]
        · rw [e2, hr] at hx; cases hx; rfl
      · refine ⟨x, ?_, rfl⟩
        show cell T t = _
        rw [hcell, if_neg e, if_neg e2]
        exact hx

theorem run_priority (MAX_THREAD_NUM : Nat) (t : Int) (es : List Event) :
    ∀ (s s' : Lib) (x : Thread), Inv MAX_THREAD_NUM s → s.thread t = some x →
      (∀ e ∈ es, e.touches t = false) → run MAX_THREAD_NUM es s = some s' →
      Inv MAX_THREAD_NUM s' ∧ s'.priority_array = s.priority_array ∧
      ∃ x', s'.thread t = some x' ∧ x'.__thread_priority = x.__thread_priority := by
  induction es with
  | nil =>
    intro s s' x hinv hx _ h
    simp only [run, Option.some.injEq] at h
    rw [← h]
    exact ⟨hinv, rfl, x, hx, rfl⟩
  | cons e es ih =>
    intro s s' x hinv hx hes h
    simp only [run] at h
    split at h
    · cases h
    · rename_i s1 hstep
      have heff := step_effect MAX_THREAD_NUM e s s1 hinv hstep
      obtain ⟨x1, hx1, hp1⟩ := step_priority heff t x (hes e (List.mem_cons_self _ _)) hx
      obtain ⟨hinv', harr, x', hx', hp'⟩ := ih s1 s' x1
        (step_inv MAX_THREAD_NUM e s s1 hinv hstep) hx1
        (fun e' he' => hes e' (List.mem_cons_of_mem _ he')) h
      exact ⟨hinv', by rw [harr, (step_table heff).1], x', hx', by rw [hp', hp1]⟩

/-- C12: for every live id `t` and valid priority `p`, `uthread_change_priority(t, p)`
returns 0 and changes only the priority field of `t`: the armed timer, the state
and quantum count of every thread, every other TCB, the ready queue, the
running id, the total quantum count, the pool and the table are unchanged, also
when `t` is the running thread.  In a reachable state the new priority is the
one that arms the timer at the next dispatch of `t`: after any events that
neither set the priority of `t` nor terminate it, a step that makes `t` RUNNING
arms the timer with the table entry of `p`. -/
theorem change_priority_effect (MAX_THREAD_NUM : Nat) (s : Lib) (t p : Int) (x : Thread)
    (hv : valid_tid MAX_THREAD_NUM s t = true) (hx : s.thread t = some x)
    (hp : 0 ≤ p ∧ p < s.priority_array_size) :
    ∃ s1 : Lib,
      uthread_change_priority MAX_THREAD_NUM t p s = .returned 0 s1 ∧
      s1.thread t = some (x.setPriority p) ∧
      (x.setPriority p).__thread_priority = p ∧
      (x.setPriority p).__thread_cs = x.__thread_cs ∧
      (x.setPriority p).__num_of_quantum = x.__num_of_quantum ∧
      (∀ j, j ≠ t → s1.thread j = s.thread j) ∧
      s1.vt_usec = s.vt_usec ∧ s1.ready_threads = s.ready_threads ∧
      uthread_get_tid s1 = uthread_get_tid s ∧
      uthread_get_total_quantums s1 = uthread_get_total_quantums s ∧
      s1.tid_que = s.tid_que ∧ s1.priority_array = s.priority_array ∧
      s1.priority_array_size = s.priority_array_size ∧
      (Reachable MAX_THREAD_NUM s →
        ∀ (es : List Event) (s2 s3 : Lib) (e : Event),
          (∀ e' ∈ es, e'.touches t = false) → run MAX_THREAD_NUM es s1 = some s2 →
          step MAX_THREAD_NUM e s2 = some s3 → e.schedules s2 = true →
          uthread_get_tid s3 = t →
          s.priority_array[p.toNat]? = some s3.vt_usec) := by
  obtain ⟨h0, h1⟩ := thread_bounds hx
  have hvp := (valid_priority_iff s p).mpr hp
  have hspec := change_priority_spec MAX_THREAD_NUM s t p x hvp hv hx
  have hcell : ∀ j, cell (s.threads.set t.toNat (some (x.setPriority p))) j =
      if j = t then some (x.setPriority p) else s.thread j :=
    fun j => cell_set _ _ _ _ h0 h1
  have hx1 : Lib.thread { s with threads := s.threads.set t.toNat (some (x.setPriority p)) } t = some (x.setPriority p) := by
    show cell _ t = _
    rw [hcell, if_pos rfl]
  refine ⟨_, hspec, hx1, rfl, rfl, rfl, ?_, rfl, rfl, rfl, rfl, rfl, rfl, rfl, ?_⟩
  · intro j hj
    show cell _ j = _
    rw [hcell, if_neg hj]
  · intro hreach es s2 s3 e hes hrun hstep hsched htid
    have hinv := reachable_inv MAX_THREAD_NUM s hreach
    have hinv1 := inv_change_priority MAX_THREAD_NUM s t p x hinv hx hvp
    obtain ⟨hinv2, harr, x2, hx2, hp2⟩ :=
      run_priority MAX_THREAD_NUM t es _ s2 _ hinv1 hx1 hes hrun
    have heff := step_effect MAX_THREAD_NUM e s2 s3 hinv2 hstep
    have htid' : s3.running_thread = t := htid
    have := step_dispatch_timer heff hsched x2 (by rw [htid']; exact hx2)
    rw [hp2, harr] at this
    exact this

theorem change_priority_effect_witness :
    ∃ s1 : Lib,
      uthread_change_priority 3 1 0 (demo_after [.spawn (some 1) 1]) = .returned 0 s1 ∧
      s1.thread 1 = some ((Thread.mk' (some 1) 1 1).setPriority 0) ∧
      s1.vt_usec = (demo_after [.spawn (some 1) 1]).vt_usec ∧
      (demo_after [.spawn (some 1) 1, .change_priority 1 0, .spawn (some 2) 1, .expiry]).vt_usec
        = 100 :=
  let ⟨s1, h1, h2, _, _, _, _, h3, _, _, _, _, _, _, h4⟩ :=
    change_priority_effect 3 (demo_after [.spawn (some 1) 1]) 1 0 (Thread.mk' (some 1) 1 1)
      (by decide) (by decide) (by decide)
  ⟨s1, h1, h2, h3, by
    have hs1 : s1 = demo_after [.spawn (some 1) 1, .change_priority 1 0] := by
      have h1' : uthread_change_priority 3 1 0 (demo_after [.spawn (some 1) 1])
          = .returned 0 (demo_after [.spawn (some 1) 1, .change_priority 1 0]) := by decide
      rw [h1'] at h1
      simp only [Res.returned.injEq, true_and] at h1
      exact h1.symm
    have := h4 (demo_after_reachable _ (by decide)) [.spawn (some 2) 1]
      (demo_after [.spawn (some 1) 1, .change_priority 1 0, .spawn (some 2) 1])
      (demo_after [.spawn (some 1) 1, .change_priority 1 0, .spawn (some 2) 1, .expiry])
      .expiry (by decide) (by rw [hs1]; decide) (by decide) (by decide) (by decide)
    have h100 : (demo_after [.spawn (some 1) 1]).priority_array[(0 : Int).toNat]? = some 100 := by
      decide
    rw [h100] at this
    simp only [Option.some.injEq] at this
    exact this.symm⟩

/-! ## Priorities do not influence the schedule -/

theorem strip_eq_iff (a b : Thread) :
    a.setPriority 0 = b.setPriority 0 ↔
      a.__thread_id = b.__thread_id ∧ a.__thread_cs = b.__thread_cs ∧
      a.__num_of_quantum = b.__num_of_quantum ∧ a.f = b.f := by
  cases a; cases b
  simp [Thread.setPriority]

theorem Similar.some {s1 s2 : Lib} (h : Similar s1 s2) {j : Int} {x1 : Thread}
    (hx : s1.thread j = some x1) :
    ∃ x2, s2.thread j = some x2 ∧ x1.setPriority 0 = x2.setPriority 0 := by
  have := h.cells j
  rw [hx] at this
  cases h2 : s2.thread j with
  | none => rw [h2] at this; cases this
  | some x2 =>
    rw [h2] at this
    simp only [Option.map_some', Option.some.injEq] at this
    exact ⟨x2, rfl, this⟩

theorem Similar.none {s1 s2 : Lib} (h : Similar s1 s2) {j : Int}
    (hx : s1.thread j = none) : s2.thread j = none := by
  have := h.cells j
  rw [hx] at this
  cases h2 : s2.thread j with
  | none => rfl
  | some x2 => rw [h2] at this; cases this

theorem Similar.valid_tid {s1 s2 : Lib} (h : Similar s1 s2) (MAX_THREAD_NUM : Nat) (t : Int) :
    valid_tid MAX_THREAD_NUM s1 t = valid_tid MAX_THREAD_NUM s2 t := by
  unfold UThreads.valid_tid
  cases h1 : s1.thread t with
  | none => rw [h.none h1]
  | some x1 =>
    obtain ⟨x2, h2, _⟩ := h.some h1
    rw [h2]
    rfl

theorem Similar.valid_priority {s1 s2 : Lib} (h : Similar s1 s2) (p : Int) :
    valid_priority s1 p = valid_priority s2 p := by
  unfold UThreads.valid_priority
  rw [h.size]

theorem Similar.refl (s : Lib) : Similar s s :=
  ⟨rfl, fun _ => rfl, rfl, rfl, rfl, rfl, rfl⟩

/-- Similar tables stay similar when the same cell receives similar contents. -/
theorem cells_update {c1 c2 : Int → Option Thread} {d1 d2 : Int → Option Thread}
    (t : Int) (p1 p2 : Option Thread)
    (hc : ∀ j, (c1 j).map (fun t => t.setPriority 0) = (c2 j).map (fun t => t.setPriority 0))
    (hp : p1.map (fun t => t.setPriority 0) = p2.map (fun t => t.setPriority 0))
    (h1 : ∀ j, d1 j = if j = t then p1 else c1 j)
    (h2 : ∀ j, d2 j = if j = t then p2 else c2 j) (j : Int) :
    (d1 j).map (fun t => t.setPriority 0) = (d2 j).map (fun t => t.setPriority 0) := by
  rw [h1, h2]
  split
  · exact hp
  · exact hc j

theorem strip_setState {a b : Thread} (h : a.setPriority 0 = b.setPriority 0) (m : Int) :
    (a.setState m).setPriority 0 = (b.setState m).setPriority 0 := by
  rw [strip_eq_iff] at h ⊢
  obtain ⟨h1, _, h3, h4⟩ := h
  exact ⟨h1, rfl, h3, h4⟩

theorem strip_dispatch {a b : Thread} (h : a.setPriority 0 = b.setPriority 0) :
    (a.incrQuantum.setState RUNNING).setPriority 0
      = (b.incrQuantum.setState RUNNING).setPriority 0 := by
  rw [strip_eq_iff] at h ⊢
  obtain ⟨h1, _, h3, h4⟩ := h
  refine ⟨h1, rfl, ?_, h4⟩
  show a.__num_of_quantum + 1 = b.__num_of_quantum + 1
  rw [h3]

theorem strip_setPriority {a b : Thread} (h : a.setPriority 0 = b.setPriority 0) (p q : Int) :
    (a.setPriority p).setPriority 0 = (b.setPriority q).setPriority 0 := h

/-- Similar states dispatch the same thread and stay similar. -/
theorem sim_dispatch (MAX_THREAD_NUM : Nat) (s1 s2 : Lib) (mode : Int)
    (hmode : mode = READY ∨ (mode = BLOCKED ∧ s1.running_thread ≠ 0))
    (hinv1 : Inv MAX_THREAD_NUM s1) (hinv2 : Inv MAX_THREAD_NUM s2) (hsim : Similar s1 s2) :
    ∃ s1' s2' : Lib,
      switch_threads_helper Sys.ok mode s1 = .returned () s1' ∧
      switch_threads_helper Sys.ok mode s2 = .returned () s2' ∧
      Similar s1' s2' := by
  have hmode2 : mode = READY ∨ (mode = BLOCKED ∧ s2.running_thread ≠ 0) := by
    rw [← hsim.running]; exact hmode
  obtain ⟨tr1, th1, h1, rest1, v1, T1, hr1, _, hq1, hh1, _, hres1, hT1, hcell1, _⟩ :=
    dispatch_spec MAX_THREAD_NUM s1 mode hmode hinv1
  obtain ⟨tr2, th2, h2, rest2, v2, T2, hr2, _, hq2, hh2, _, hres2, hT2, hcell2, _⟩ :=
    dispatch_spec MAX_THREAD_NUM s2 mode hmode2 hinv2
  rw [hsim.ready, hsim.running, hq2] at hq1
  obtain ⟨rfl, rfl⟩ := List.cons.inj hq1
  obtain ⟨tr2', hr2', htr⟩ := hsim.some hr1
  rw [hsim.running, hr2] at hr2'
  cases hr2'
  have hth : th1.setPriority 0 = th2.setPriority 0 := by
    rw [hsim.running] at hh1
    split at hh1
    · rename_i e
      rw [if_pos e] at hh2
      cases hh1; cases hh2
      exact strip_setState htr mode
    · rename_i e
      rw [if_neg e] at hh2
      obtain ⟨x2, hx2, hx⟩ := hsim.some hh1
      rw [hh2] at hx2
      cases hx2
      exact hx
  refine ⟨_, _, hres1, hres2, ⟨by simp only []; rw [hT1, hT2, hsim.len], ?_, rfl, ?_, rfl,
    hsim.pool, hsim.size⟩⟩
  · intro j
    show (cell T1 j).map _ = (cell T2 j).map _
    rw [hcell1, hcell2, hsim.running]
    split
    · simp only [Option.map_some', Option.some.injEq]
      exact strip_dispatch hth
    · split
      · simp only [Option.map_some', Option.some.injEq]
        exact strip_setState htr mode
      · exact hsim.cells j
  · show s1.total_quantums + 1 = s2.total_quantums + 1
    rw [hsim.total]

theorem terminate_main_spec (MAX_THREAD_NUM : Nat) (sys : Sys) (s : Lib)
    (hinv : Inv MAX_THREAD_NUM s) :
    ∃ s' : Lib, uthread_terminate MAX_THREAD_NUM sys 0 s = .exited 0 s' := by
  obtain ⟨t0, ht0, _⟩ := hinv.main_live
  have hv := valid_tid_of_live MAX_THREAD_NUM s 0 t0 hinv.len ht0
  obtain ⟨s', hres, _⟩ :=
    terminate_all_spec MAX_THREAD_NUM ((List.range' 1 (MAX_THREAD_NUM - 1)).map Int.ofNat) s
      (fun i hi => (mem_pool_init MAX_THREAD_NUM i).mp hi) hinv.len hinv.pool_iff hinv.pool_nodup
  refine ⟨s', ?_⟩
  simp only [uthread_terminate, hv, Bool.not_true, Bool.false_eq_true, if_false,
    MAIN_THREAD_ID, if_true, hres]

theorem sim_spawn (MAX_THREAD_NUM : Nat) (s1 s2 : Lib) (f : Option Nat) (p1 p2 : Int)
    (hinv1 : Inv MAX_THREAD_NUM s1) (hinv2 : Inv MAX_THREAD_NUM s2) (hsim : Similar s1 s2)
    (hp : p1 = p2 ∨ ((0 ≤ p1 ∧ p1 < s1.priority_array_size) ∧
      (0 ≤ p2 ∧ p2 < s1.priority_array_size))) :
    Res.alike (uthread_spawn Sys.ok f p1 s1) (uthread_spawn Sys.ok f p2 s2) := by
  have hvalid : valid_priority s1 p1 = valid_priority s2 p2 := by
    rcases hp with rfl | ⟨h1, h2⟩
    · exact hsim.valid_priority p1
    · rw [(valid_priority_iff s1 p1).mpr h1,
        (valid_priority_iff s2 p2).mpr (by rw [← hsim.size]; exact h2)]
  cases f with
  | none =>
    simp only [uthread_spawn, Option.isNone_none, Bool.true_or, if_true]
    exact ⟨rfl, hsim⟩
  | some a =>
    by_cases hvp : valid_priority s1 p1 = true
    · have hvp2 : valid_priority s2 p2 = true := by rw [← hvalid]; exact hvp
      cases hmin : s1.tid_que.min? with
      | none =>
        have hmin2 : s2.tid_que.min? = none := by rw [← hsim.pool]; exact hmin
        simp only [uthread_spawn, Option.isNone_some, hvp, hvp2, Bool.not_true, Bool.or_self,
          Bool.false_eq_true, if_false, get_next_tid, hmin, hmin2, if_true]
        exact ⟨rfl, hsim⟩
      | some tid =>
        have hmin2 : s2.tid_que.min? = some tid := by rw [← hsim.pool]; exact hmin
        obtain ⟨h1, h2, hn1⟩ := (hinv1.pool_iff tid).mp (min_spec hmin).1
        have hl1 := hinv1.len
        have hl2 := hinv2.len
        obtain ⟨T1, hres1, hT1, hcell1⟩ := spawn_spec s1 a p1 tid hvp hmin (by omega) (by omega)
        obtain ⟨T2, hres2, hT2, hcell2⟩ :=
          spawn_spec s2 a p2 tid hvp2 hmin2 (by omega) (by omega)
        rw [hres1, hres2]
        refine ⟨rfl, ⟨by simp only []; rw [hT1, hT2, hsim.len], ?_, ?_, hsim.total,
          hsim.running, ?_, hsim.size⟩⟩
        · exact cells_update tid (some (Thread.mk' (some a) tid p1))
            (some (Thread.mk' (some a) tid p2)) hsim.cells rfl hcell1 hcell2
        · show s1.ready_threads ++ [tid] = s2.ready_threads ++ [tid]
          rw [hsim.ready]
        · show s1.tid_que.erase tid = s2.tid_que.erase tid
          rw [hsim.pool]
    · have hvp2 : ¬ valid_priority s2 p2 = true := by rw [← hvalid]; exact hvp
      simp only [uthread_spawn, hvp, hvp2, Bool.not_false, Bool.or_true, if_true]
      exact ⟨rfl, hsim⟩

theorem sim_change_priority (MAX_THREAD_NUM : Nat) (s1 s2 : Lib) (t p1 p2 : Int)
    (hsim : Similar s1 s2)
    (hp : p1 = p2 ∨ ((0 ≤ p1 ∧ p1 < s1.priority_array_size) ∧
      (0 ≤ p2 ∧ p2 < s1.priority_array_size))) :
    Res.alike (uthread_change_priority MAX_THREAD_NUM t p1 s1)
      (uthread_change_priority MAX_THREAD_NUM t p2 s2) := by
  have hvalid : valid_priority s1 p1 = valid_priority s2 p2 := by
    rcases hp with rfl | ⟨h1, h2⟩
    · exact hsim.valid_priority p1
    · rw [(valid_priority_iff s1 p1).mpr h1,
        (valid_priority_iff s2 p2).mpr (by rw [← hsim.size]; exact h2)]
  have hvt := hsim.valid_tid MAX_THREAD_NUM t
  by_cases hvp : valid_priority s1 p1 = true
  · have hvp2 : valid_priority s2 p2 = true := by rw [← hvalid]; exact hvp
    by_cases hv : valid_tid MAX_THREAD_NUM s1 t = true
    · have hv2 : valid_tid MAX_THREAD_NUM s2 t = true := by rw [← hvt]; exact hv
      obtain ⟨_, _, x1, hx1⟩ := (valid_tid_iff _ _ _).mp hv
      obtain ⟨x2, hx2, hx⟩ := hsim.some hx1
      obtain ⟨a1, b1⟩ := thread_bounds hx1
      obtain ⟨a2, b2⟩ := thread_bounds hx2
      rw [change_priority_spec MAX_THREAD_NUM s1 t p1 x1 hvp hv hx1,
        change_priority_spec MAX_THREAD_NUM s2 t p2 x2 hvp2 hv2 hx2]
      refine ⟨rfl, ⟨by simp [hsim.len], ?_, hsim.ready, hsim.total, hsim.running, hsim.pool,
        hsim.size⟩⟩
      exact cells_update t (some (x1.setPriority p1)) (some (x2.setPriority p2)) hsim.cells
        (by simp only [Option.map_some', Option.some.injEq]; exact strip_setPriority hx p1 p2)
        (fun j => cell_set _ _ _ _ a1 b1) (fun j => cell_set _ _ _ _ a2 b2)
    · have hv2 : ¬ valid_tid MAX_THREAD_NUM s2 t = true := by rw [← hvt]; exact hv
      simp only [uthread_change_priority, hv, hv2, Bool.not_false, Bool.or_true, if_true]
      exact ⟨rfl, hsim⟩
  · have hvp2 : ¬ valid_priority s2 p2 = true := by rw [← hvalid]; exact hvp
    simp only [uthread_change_priority, hvp, hvp2, Bool.not_false, Bool.true_or, if_true]
    exact ⟨rfl, hsim⟩

theorem sim_terminate (MAX_THREAD_NUM : Nat) (s1 s2 : Lib) (t : Int)
    (hinv1 : Inv MAX_THREAD_NUM s1) (hinv2 : Inv MAX_THREAD_NUM s2) (hsim : Similar s1 s2) :
    Res.alike (uthread_terminate MAX_THREAD_NUM Sys.ok t s1)
      (uthread_terminate MAX_THREAD_NUM Sys.ok t s2) := by
  have hvt := hsim.valid_tid MAX_THREAD_NUM t
  by_cases hv : valid_tid MAX_THREAD_NUM s1 t = true
  · have hv2 : valid_tid MAX_THREAD_NUM s2 t = true := by rw [← hvt]; exact hv
    obtain ⟨_, _, x1, hx1⟩ := (valid_tid_iff _ _ _).mp hv
    obtain ⟨x2, hx2, hx⟩ := hsim.some hx1
    by_cases h0 : t = 0
    · subst h0
      obtain ⟨s1', hr1⟩ := terminate_main_spec MAX_THREAD_NUM Sys.ok s1 hinv1
      obtain ⟨s2', hr2⟩ := terminate_main_spec MAX_THREAD_NUM Sys.ok s2 hinv2
      rw [hr1, hr2]
      exact rfl
    · by_cases hr : t = s1.running_thread
      · subst hr
        have h0' : s2.running_thread ≠ 0 := by rw [← hsim.running]; exact h0
        obtain ⟨tr1, th1, h1, rest1, v1, T1, _, hq1, hh1, _, _, hres1, hT1, hcell1, _⟩ :=
          terminate_running_spec MAX_THREAD_NUM s1 hinv1 h0
        obtain ⟨tr2, th2, h2, rest2, v2, T2, _, hq2, hh2, _, _, hres2, hT2, hcell2, _⟩ :=
          terminate_running_spec MAX_THREAD_NUM s2 hinv2 h0'
        rw [hsim.ready, hq2] at hq1
        obtain ⟨rfl, rfl⟩ := List.cons.inj hq1
        obtain ⟨th2', hth2', hth⟩ := hsim.some hh1
        rw [hh2] at hth2'
        cases hth2'
        rw [hres1]
        rw [hsim.running, hres2]
        refine ⟨by simp only []; rw [hT1, hT2, hsim.len], ?_, rfl, ?_, rfl, ?_, hsim.size⟩
        · intro j
          show (cell T1 j).map _ = (cell T2 j).map _
          rw [hcell1, hcell2, hsim.running]
          split
          · rfl
          · split
            · simp only [Option.map_some', Option.some.injEq]
              exact strip_dispatch hth
            · exact hsim.cells j
        · show s1.total_quantums + 1 = s2.total_quantums + 1
          rw [hsim.total]
        · show s1.tid_que ++ [s2.running_thread] = s2.tid_que ++ [s2.running_thread]
          rw [hsim.pool]
      · have hr2 : t ≠ s2.running_thread := by rw [← hsim.running]; exact hr
        obtain ⟨T1, hres1, hcell1, hinv1'⟩ :=
          terminate_other_spec MAX_THREAD_NUM Sys.ok s1 t x1 hinv1 hx1 h0 hr
        obtain ⟨T2, hres2, hcell2, hinv2'⟩ :=
          terminate_other_spec MAX_THREAD_NUM Sys.ok s2 t x2 hinv2 hx2 h0 hr2
        rw [hres1, hres2]
        refine ⟨rfl, ⟨?_, ?_, ?_, hsim.total, hsim.running, ?_, hsim.size⟩⟩
        · rw [hinv1'.len, hinv2'.len]
        · exact cells_update t none none hsim.cells rfl hcell1 hcell2
        · show s1.ready_threads.filter _ = s2.ready_threads.filter _
          rw [hsim.ready]
        · show s1.tid_que ++ [t] = s2.tid_que ++ [t]
          rw [hsim.pool]
  · have hv2 : ¬ valid_tid MAX_THREAD_NUM s2 t = true := by rw [← hvt]; exact hv
    simp only [uthread_terminate, hv, hv2, Bool.not_false, if_true]
    exact ⟨rfl, hsim⟩

theorem sim_block (MAX_THREAD_NUM : Nat) (s1 s2 : Lib) (t : Int)
    (hinv1 : Inv MAX_THREAD_NUM s1) (hinv2 : Inv MAX_THREAD_NUM s2) (hsim : Similar s1 s2) :
    Res.alike (uthread_block MAX_THREAD_NUM Sys.ok t s1)
      (uthread_block MAX_THREAD_NUM Sys.ok t s2) := by
  have hvt := hsim.valid_tid MAX_THREAD_NUM t
  by_cases hv : valid_tid MAX_THREAD_NUM s1 t = true
  · have hv2 : valid_tid MAX_THREAD_NUM s2 t = true := by rw [← hvt]; exact hv
    obtain ⟨_, _, x1, hx1⟩ := (valid_tid_iff _ _ _).mp hv
    obtain ⟨x2, hx2, hx⟩ := hsim.some hx1
    have hcs : x1.__thread_cs = x2.__thread_cs := ((strip_eq_iff x1 x2).mp hx).2.1
    by_cases h0 : t = 0
    · simp only [uthread_block, h0, MAIN_THREAD_ID, decide_True, Bool.or_true, if_true]
      exact ⟨rfl, hsim⟩
    · by_cases hr : t = s1.running_thread
      · subst hr
        have h0' : s2.running_thread ≠ 0 := by rw [← hsim.running]; exact h0
        obtain ⟨tr1, htr1, hrs1⟩ := hinv1.run_live
        rw [hx1] at htr1; cases htr1
        have hrs2 : x2.__thread_cs = RUNNING := by rw [← hcs]; exact hrs1
        obtain ⟨s1', s2', hd1, hd2, hsim'⟩ :=
          sim_dispatch MAX_THREAD_NUM s1 s2 BLOCKED (Or.inr ⟨rfl, h0⟩) hinv1 hinv2 hsim
        rw [block_running_spec MAX_THREAD_NUM Sys.ok s1 x1 hv hx1 h0 (by rw [hrs1]; decide), hd1]
        have hx2' : s2.thread s2.running_thread = some x2 := by rw [← hsim.running]; exact hx2
        rw [hsim.running,
          block_running_spec MAX_THREAD_NUM Sys.ok s2 x2 (by rw [← hsim.running]; exact hv2)
            hx2' h0' (by rw [hrs2]; decide), hd2]
        exact hsim'
      · have hr2 : t ≠ s2.running_thread := by rw [← hsim.running]; exact hr
        obtain ⟨a1, b1⟩ := thread_bounds hx1
        obtain ⟨a2, b2⟩ := thread_bounds hx2
        rw [block_other_spec MAX_THREAD_NUM Sys.ok s1 t x1 hv hx1 h0 hr,
          block_other_spec MAX_THREAD_NUM Sys.ok s2 t x2 hv2 hx2 h0 hr2]
        by_cases hst : x1.__thread_cs = READY
        · rw [if_pos hst, if_pos (by rw [← hcs]; exact hst)]
          refine ⟨rfl, ⟨by simp [hsim.len], ?_, ?_, hsim.total, hsim.running, hsim.pool,
            hsim.size⟩⟩
          · exact cells_update t (some (x1.setState BLOCKED)) (some (x2.setState BLOCKED))
              hsim.cells
              (by simp only [Option.map_some', Option.some.injEq]; exact strip_setState hx _)
              (fun j => cell_set _ _ _ _ a1 b1) (fun j => cell_set _ _ _ _ a2 b2)
          · show s1.ready_threads.filter _ = s2.ready_threads.filter _
            rw [hsim.ready]
        · rw [if_neg hst, if_neg (by rw [← hcs]; exact hst)]
          exact ⟨rfl, hsim⟩
  · have hv2 : ¬ valid_tid MAX_THREAD_NUM s2 t = true := by rw [← hvt]; exact hv
    simp only [uthread_block, hv, hv2, Bool.not_false, Bool.true_or, if_true]
    exact ⟨rfl, hsim⟩

theorem sim_resume (MAX_THREAD_NUM : Nat) (s1 s2 : Lib) (t : Int) (hsim : Similar s1 s2) :
    Res.alike (uthread_resume MAX_THREAD_NUM t s1) (uthread_resume MAX_THREAD_NUM t s2) := by
  have hvt := hsim.valid_tid MAX_THREAD_NUM t
  by_cases hv : valid_tid MAX_THREAD_NUM s1 t = true
  · have hv2 : valid_tid MAX_THREAD_NUM s2 t = true := by rw [← hvt]; exact hv
    obtain ⟨_, _, x1, hx1⟩ := (valid_tid_iff _ _ _).mp hv
    obtain ⟨x2, hx2, hx⟩ := hsim.some hx1
    have hcs : x1.__thread_cs = x2.__thread_cs := ((strip_eq_iff x1 x2).mp hx).2.1
    obtain ⟨a1, b1⟩ := thread_bounds hx1
    obtain ⟨a2, b2⟩ := thread_bounds hx2
    rw [resume_spec MAX_THREAD_NUM s1 t x1 hv hx1, resume_spec MAX_THREAD_NUM s2 t x2 hv2 hx2]
    by_cases hst : x1.__thread_cs = BLOCKED
    · rw [if_pos hst, if_pos (by rw [← hcs]; exact hst)]
      refine ⟨rfl, ⟨by simp [hsim.len], ?_, ?_, hsim.total, hsim.running, hsim.pool,
        hsim.size⟩⟩
      · exact cells_update t (some (x1.setState READY)) (some (x2.setState READY))
          hsim.cells
          (by simp only [Option.map_some', Option.some.injEq]; exact strip_setState hx _)
          (fun j => cell_set _ _ _ _ a1 b1) (fun j => cell_set _ _ _ _ a2 b2)
      · show s1.ready_threads ++ [t] = s2.ready_threads ++ [t]
        rw [hsim.ready]
    · rw [if_neg hst, if_neg (by rw [← hcs]; exact hst)]
      exact ⟨rfl, hsim⟩
  · have hv2 : ¬ valid_tid MAX_THREAD_NUM s2 t = true := by rw [← hvt]; exact hv
    simp only [uthread_resume, hv, hv2, Bool.not_false, if_true]
    exact ⟨rfl, hsim⟩

theorem sim_get_quantums (MAX_THREAD_NUM : Nat) (s1 s2 : Lib) (t : Int)
    (hsim : Similar s1 s2) :
    Res.alike (uthread_get_quantums MAX_THREAD_NUM t s1)
      (uthread_get_quantums MAX_THREAD_NUM t s2) := by
  have hvt := hsim.valid_tid MAX_THREAD_NUM t
  by_cases hv : valid_tid MAX_THREAD_NUM s1 t = true
  · have hv2 : valid_tid MAX_THREAD_NUM s2 t = true := by rw [← hvt]; exact hv
    obtain ⟨_, _, x1, hx1⟩ := (valid_tid_iff _ _ _).mp hv
    obtain ⟨x2, hx2, hx⟩ := hsim.some hx1
    rw [get_quantums_live MAX_THREAD_NUM s1 t x1 hv hx1,
      get_quantums_live MAX_THREAD_NUM s2 t x2 hv2 hx2]
    exact ⟨((strip_eq_iff x1 x2).mp hx).2.2.1, hsim⟩
  · have hv2 : ¬ valid_tid MAX_THREAD_NUM s2 t = true := by rw [← hvt]; exact hv
    simp only [Bool.not_eq_true] at hv hv2
    simp only [uthread_get_quantums, hv, hv2, if_true]
    exact ⟨rfl, hsim⟩

/-- Similar reachable states answer alike events with alike outcomes. -/
theorem sim_run (MAX_THREAD_NUM : Nat) (s1 s2 : Lib) (e1 e2 : Event)
    (hinv1 : Inv MAX_THREAD_NUM s1) (hinv2 : Inv MAX_THREAD_NUM s2) (hsim : Similar s1 s2)
    (halike : Event.alike s1.priority_array_size e1 e2 = true) :
    Res.alike (e1.run MAX_THREAD_NUM Sys.ok s1) (e2.run MAX_THREAD_NUM Sys.ok s2) := by
  cases e1 <;> cases e2 <;>
    simp only [Event.alike, decide_eq_true_eq, Bool.and_eq_true, Bool.or_eq_true,
      Event.spawn.injEq, Event.change_priority.injEq, Event.terminate.injEq,
      Event.block.injEq, Event.resume.injEq, Event.get_quantums.injEq, reduceCtorEq] at halike
  case spawn.spawn f p1 g p2 =>
    obtain ⟨rfl, hp⟩ := halike
    exact sim_spawn MAX_THREAD_NUM s1 s2 f p1 p2 hinv1 hinv2 hsim
      (hp.imp id fun h => ⟨⟨h.1.1.1, h.1.1.2⟩, ⟨h.1.2, h.2⟩⟩)
  case change_priority.change_priority t1 p1 t2 p2 =>
    obtain ⟨rfl, hp⟩ := halike
    exact sim_change_priority MAX_THREAD_NUM s1 s2 t1 p1 p2 hsim
      (hp.imp id fun h => ⟨⟨h.1.1.1, h.1.1.2⟩, ⟨h.1.2, h.2⟩⟩)
  case terminate.terminate t1 t2 =>
    subst halike
    exact sim_terminate MAX_THREAD_NUM s1 s2 t1 hinv1 hinv2 hsim
  case block.block t1 t2 =>
    subst halike
    exact sim_block MAX_THREAD_NUM s1 s2 t1 hinv1 hinv2 hsim
  case resume.resume t1 t2 =>
    subst halike
    exact sim_resume MAX_THREAD_NUM s1 s2 t1 hsim
  case get_quantums.get_quantums t1 t2 =>
    subst halike
    exact sim_get_quantums MAX_THREAD_NUM s1 s2 t1 hsim
  case expiry.expiry =>
    obtain ⟨s1', s2', hd1, hd2, hsim'⟩ :=
      sim_dispatch MAX_THREAD_NUM s1 s2 READY (Or.inl rfl) hinv1 hinv2 hsim
    simp only [Event.run, vt_handler_function, switch_threads, hd1, hd2, Res.andThen]
    exact hsim'

theorem alike_next {r1 r2 : Res Int} (h : Res.alike r1 r2) {s1' : Lib}
    (h1 : r1.next = some s1') : ∃ s2', r2.next = some s2' ∧ Similar s1' s2' := by
  cases r1 <;> cases r2 <;> simp only [Res.alike] at h <;>
    simp only [Res.next, Option.some.injEq, reduceCtorEq] at h1
  · subst h1; exact ⟨_, rfl, h.2⟩
  · subst h1; exact ⟨_, rfl, h⟩

theorem sim_trace (MAX_THREAD_NUM : Nat) (size : Int) (pairs : List (Event × Event)) :
    ∀ (s1 s2 s1' : Lib), Inv MAX_THREAD_NUM s1 → Inv MAX_THREAD_NUM s2 → Similar s1 s2 →
      s1.priority_array_size = size →
      (∀ pr ∈ pairs, Event.alike size pr.1 pr.2 = true) →
      run MAX_THREAD_NUM (pairs.map Prod.fst) s1 = some s1' →
      ∃ s2', run MAX_THREAD_NUM (pairs.map Prod.snd) s2 = some s2' ∧ Similar s1' s2' := by
  induction pairs with
  | nil =>
    intro s1 s2 s1' _ _ hsim _ _ h
    simp only [List.map_nil, run, Option.some.injEq] at h
    rw [← h]
    exact ⟨s2, rfl, hsim⟩
  | cons pr pairs ih =>
    intro s1 s2 s1' hinv1 hinv2 hsim hsize hall h
    simp only [List.map_cons, run] at h
    split at h
    · cases h
    · rename_i m1 hstep1
      have hal := hall pr (List.mem_cons_self _ _)
      rw [← hsize] at hal
      obtain ⟨m2, hstep2, hsim'⟩ :=
        alike_next (sim_run MAX_THREAD_NUM s1 s2 pr.1 pr.2 hinv1 hinv2 hsim hal) hstep1
      have hstep2' : step MAX_THREAD_NUM pr.2 s2 = some m2 := hstep2
      have hsize' : m1.priority_array_size = size := by
        rw [(step_table (step_effect MAX_THREAD_NUM pr.1 s1 m1 hinv1 hstep1)).2.1, hsize]
      obtain ⟨s2', hrun2, hfin⟩ := ih m1 m2 s1'
        (step_inv MAX_THREAD_NUM pr.1 s1 m1 hinv1 hstep1)
        (step_inv MAX_THREAD_NUM pr.2 s2 m2 hinv2 hstep2') hsim' hsize'
        (fun q hq => hall q (List.mem_cons_of_mem _ hq)) h
      refine ⟨s2', ?_, hfin⟩
      simp only [List.map_cons, run, hstep2']
      exact hrun2

theorem sim_init (MAX_THREAD_NUM : Nat) (q1 q2 : List Int) (size : Int) (s1 s2 : Lib)
    (h1 : uthread_init MAX_THREAD_NUM Sys.ok q1 size (Lib.initial MAX_THREAD_NUM)
      = .returned 0 s1)
    (h2 : uthread_init MAX_THREAD_NUM Sys.ok q2 size (Lib.initial MAX_THREAD_NUM)
      = .returned 0 s2) : Similar s1 s2 := by
  obtain ⟨_, _, _, v1, _, hs1⟩ := init_spec MAX_THREAD_NUM q1 size s1 h1
  obtain ⟨_, _, _, v2, _, hs2⟩ := init_spec MAX_THREAD_NUM q2 size s2 h2
  rw [hs1, hs2]
  exact ⟨rfl, fun _ => rfl, rfl, rfl, rfl, rfl, rfl⟩

/-- C14: priorities never influence the scheduling order.  Two initialisations
with tables of the same length give similar states (equal but for priorities,
durations and the armed timer); from similar reachable states, events that
differ at most in valid priority arguments give the same return value or exit
status and similar states, so two such executions stay similar after every
event; similar states have the same running id, ready queue, total quantum
count and, for every thread, the same state and quantum count. -/
theorem priorities_do_not_reorder (MAX_THREAD_NUM : Nat) :
    (∀ (q1 q2 : List Int) (size : Int) (s1 s2 : Lib),
      uthread_init MAX_THREAD_NUM Sys.ok q1 size (Lib.initial MAX_THREAD_NUM) = .returned 0 s1 →
      uthread_init MAX_THREAD_NUM Sys.ok q2 size (Lib.initial MAX_THREAD_NUM) = .returned 0 s2 →
      Similar s1 s2) ∧
    (∀ (s1 s2 : Lib) (e1 e2 : Event), Reachable MAX_THREAD_NUM s1 → Reachable MAX_THREAD_NUM s2 →
      Similar s1 s2 → Event.alike s1.priority_array_size e1 e2 = true →
      Res.alike (e1.run MAX_THREAD_NUM Sys.ok s1) (e2.run MAX_THREAD_NUM Sys.ok s2)) ∧
    (∀ (s1 s2 s1' : Lib) (pairs : List (Event × Event)),
      Reachable MAX_THREAD_NUM s1 → Reachable MAX_THREAD_NUM s2 → Similar s1 s2 →
      (∀ pr ∈ pairs, Event.alike s1.priority_array_size pr.1 pr.2 = true) →
      run MAX_THREAD_NUM (pairs.map Prod.fst) s1 = some s1' →
      ∃ s2', run MAX_THREAD_NUM (pairs.map Prod.snd) s2 = some s2' ∧ Similar s1' s2') ∧
    (∀ s1 s2 : Lib, Similar s1 s2 →
      uthread_get_tid s1 = uthread_get_tid s2 ∧
      s1.ready_threads = s2.ready_threads ∧
      uthread_get_total_quantums s1 = uthread_get_total_quantums s2 ∧
      s1.tid_que = s2.tid_que ∧
      ∀ j : Int, (s1.thread j).map Thread.getState = (s2.thread j).map Thread.getState ∧
        (s1.thread j).map Thread.getQuantum = (s2.thread j).map Thread.getQuantum) := by
  refine ⟨sim_init MAX_THREAD_NUM, ?_, ?_, ?_⟩
  · intro s1 s2 e1 e2 hr1 hr2 hsim hal
    exact sim_run MAX_THREAD_NUM s1 s2 e1 e2 (reachable_inv _ _ hr1) (reachable_inv _ _ hr2)
      hsim hal
  · intro s1 s2 s1' pairs hr1 hr2 hsim hall hrun
    exact sim_trace MAX_THREAD_NUM s1.priority_array_size pairs s1 s2 s1'
      (reachable_inv _ _ hr1) (reachable_inv _ _ hr2) hsim rfl hall hrun
  · intro s1 s2 hsim
    refine ⟨hsim.running, hsim.ready, hsim.total, hsim.pool, ?_⟩
    intro j
    cases h1 : s1.thread j with
    | none => rw [hsim.none h1]; exact ⟨rfl, rfl⟩
    | some x1 =>
      obtain ⟨x2, h2, hx⟩ := hsim.some h1
      obtain ⟨_, hcs, hq, _⟩ := (strip_eq_iff x1 x2).mp hx
      rw [h2]
      simp only [Option.map_some', Option.some.injEq, Thread.getState, Thread.getQuantum]
      exact ⟨hcs, hq⟩

theorem demo_init_alt_reachable : Reachable 3 demo_init_alt :=
  Reachable.init [5, 7] 2 demo_init_alt (by decide)

theorem priorities_do_not_reorder_witness :
    Similar demo_init demo_init_alt ∧
    ∃ s2' : Lib,
      run 3 [.spawn (some 1) 0, .spawn (some 2) 1, .expiry, .change_priority 2 0, .block 1,
        .expiry] demo_init_alt = some s2' ∧
      Similar (demo_after [.spawn (some 1) 1, .spawn (some 2) 0, .expiry, .change_priority 2 1,
        .block 1, .expiry]) s2' :=
  ⟨(priorities_do_not_reorder 3).1 [100, 200] [5, 7] 2 demo_init demo_init_alt
      (by decide) (by decide),
   (priorities_do_not_reorder 3).2.2.1 demo_init demo_init_alt
      (demo_after [.spawn (some 1) 1, .spawn (some 2) 0, .expiry, .change_priority 2 1,
        .block 1, .expiry])
      [(.spawn (some 1) 1, .spawn (some 1) 0), (.spawn (some 2) 0, .spawn (some 2) 1),
        (.expiry, .expiry), (.change_priority 2 1, .change_priority 2 0),
        (.block 1, .block 1), (.expiry, .expiry)]
      demo_init_reachable demo_init_alt_reachable
      (sim_init 3 [100, 200] [5, 7] 2 demo_init demo_init_alt (by decide) (by decide))
      (by decide) (by decide)⟩

/-! ## Sum of the quantum counts -/

theorem quantum_sum_eq (MAX_THREAD_NUM : Nat) (s : Lib) :
    quantum_sum MAX_THREAD_NUM s =
      ((List.range MAX_THREAD_NUM).map fun i : Nat => cell_quantum (s.thread i)).sum := by
  unfold quantum_sum
  congr 1
  apply List.map_congr_left
  intro i hi
  have hlt : i < MAX_THREAD_NUM := List.mem_range.mp hi
  cases hx : s.thread (i : Int) with
  | none =>
    have hv := valid_tid_false MAX_THREAD_NUM s i (Or.inr (Or.inr hx))
    simp [hv, cell_quantum]
  | some x =>
    have hv : valid_tid MAX_THREAD_NUM s i = true :=
      (valid_tid_iff _ _ _).mpr ⟨by omega, by omega, x, hx⟩
    simp [hv, get_quantums_live MAX_THREAD_NUM s i x hv hx, Res.returnValue, Thread.getQuantum,
      cell_quantum]

/-- A sum over the ids below `n` changes by `d` when one summand, at an id below
`n`, changes by `d`. -/
theorem sum_update (f g : Int → Int) (a d : Int)
    (h : ∀ i : Int, g i = f i + (if i = a then d else 0)) :
    ∀ n : Nat, ((List.range n).map fun i : Nat => g i).sum =
      ((List.range n).map fun i : Nat => f i).sum + (if 0 ≤ a ∧ a < n then d else 0) := by
  intro n
  induction n with
  | zero =>
    have h0 : ¬ (0 ≤ a ∧ a < ((0 : Nat) : Int)) := by omega
    rw [if_neg h0]
    rfl
  | succ n ih =>
    rw [List.range_succ, List.map_append, List.map_append, List.sum_append, List.sum_append, ih]
    simp only [List.map_cons, List.map_nil, List.sum_cons, List.sum_nil, add_zero, h (n : Int)]
    by_cases hn : (n : Int) = a
    · have h1 : ¬ (0 ≤ a ∧ a < (n : Int)) := by omega
      have h2 : 0 ≤ a ∧ a < ((n + 1 : Nat) : Int) := by omega
      rw [if_neg h1, if_pos hn, if_pos h2]
      ring
    · by_cases hlt : 0 ≤ a ∧ a < (n : Int)
      · have h2 : 0 ≤ a ∧ a < ((n + 1 : Nat) : Int) := by omega
        rw [if_pos hlt, if_neg hn, if_pos h2]
        ring
      · have h2 : ¬ (0 ≤ a ∧ a < ((n + 1 : Nat) : Int)) := by omega
        rw [if_neg hlt, if_neg hn, if_neg h2]
        ring

/-- The sum changes by the difference of the quantum counts of the one cell that
a step rewrites. -/
theorem quantum_sum_update1 (MAX_THREAD_NUM : Nat) (s s' : Lib) (t : Int) (p : Option Thread)
    (ht : 0 ≤ t ∧ t < MAX_THREAD_NUM) (hp : s'.thread t = p)
    (hother : ∀ j, j ≠ t → s'.thread j = s.thread j) :
    quantum_sum MAX_THREAD_NUM s' =
      quantum_sum MAX_THREAD_NUM s + (cell_quantum p - cell_quantum (s.thread t)) := by
  rw [quantum_sum_eq, quantum_sum_eq,
    sum_update (fun i => cell_quantum (s.thread i)) (fun i => cell_quantum (s'.thread i)) t
      (cell_quantum p - cell_quantum (s.thread t)) ?_ MAX_THREAD_NUM, if_pos ht]
  intro i
  by_cases e : i = t
  · subst e
    simp only [hp, if_true]
    ring
  · simp only [hother i e, e, if_false, add_zero]

/-- The same for a step that rewrites two different cells. -/
theorem quantum_sum_update2 (MAX_THREAD_NUM : Nat) (s s' : Lib) (a b : Int)
    (p q : Option Thread) (ha : 0 ≤ a ∧ a < MAX_THREAD_NUM) (hb : 0 ≤ b ∧ b < MAX_THREAD_NUM)
    (hab : a ≠ b) (hp : s'.thread a = p) (hq : s'.thread b = q)
    (hother : ∀ j, j ≠ a → j ≠ b → s'.thread j = s.thread j) :
    quantum_sum MAX_THREAD_NUM s' =
      quantum_sum MAX_THREAD_NUM s + (cell_quantum p - cell_quantum (s.thread a))
        + (cell_quantum q - cell_quantum (s.thread b)) := by
  rw [quantum_sum_eq, quantum_sum_eq,
    sum_update
      (fun i => cell_quantum (s.thread i) +
        (if i = a then cell_quantum p - cell_quantum (s.thread a) else 0))
      (fun i => cell_quantum (s'.thread i)) b
      (cell_quantum q - cell_quantum (s.thread b)) ?_ MAX_THREAD_NUM, if_pos hb,
    sum_update (fun i => cell_quantum (s.thread i))
      (fun i => cell_quantum (s.thread i) +
        (if i = a then cell_quantum p - cell_quantum (s.thread a) else 0)) a
      (cell_quantum p - cell_quantum (s.thread a)) (fun _ => rfl) MAX_THREAD_NUM, if_pos ha]
  intro i
  by_cases e1 : i = a
  · subst e1
    simp only [hp, hab, if_true, if_false]
    ring
  · by_cases e2 : i = b
    · subst e2
      simp only [hq, e1, if_true, if_false]
      ring
    · simp only [hother i e1 e2, e1, e2, if_false, add_zero]

theorem inv_bounds {MAX_THREAD_NUM : Nat} {s : Lib} (hinv : Inv MAX_THREAD_NUM s) {i : Int}
    {x : Thread} (hx : s.thread i = some x) : 0 ≤ i ∧ i < MAX_THREAD_NUM := by
  obtain ⟨h0, h1⟩ := thread_bounds hx
  have := hinv.len
  exact ⟨h0, by omega⟩

/-- Effect of one step on the sum of the quantum counts: it follows the total
quantum count, less the count of a thread that the step terminates. -/
theorem step_sum (MAX_THREAD_NUM : Nat) {s s' : Lib} {e : Event}
    (hinv : Inv MAX_THREAD_NUM s) (h : StepEffect s e s') :
    ∃ d : Int,
      quantum_sum MAX_THREAD_NUM s' - s'.total_quantums
        = quantum_sum MAX_THREAD_NUM s - s.total_quantums - d ∧
      (d = 0 ∨ ∃ t x, e = .terminate t ∧ s.thread t = some x ∧ d = x.__num_of_quantum) := by
  cases h with
  | same e hs => exact ⟨0, by ring, Or.inl rfl⟩
  | spawn a p tid T hvp hmin hnone hlen hcell =>
    obtain ⟨h1, h2, _⟩ := (hinv.pool_iff tid).mp (min_spec hmin).1
    refine ⟨0, ?_, Or.inl rfl⟩
    rw [quantum_sum_update1 MAX_THREAD_NUM s _ tid (some (Thread.mk' (some a) tid p))
      ⟨by omega, h2⟩ (by show cell T tid = _; rw [hcell, if_pos rfl])
      (fun j hj => by show cell T j = _; rw [hcell, if_neg hj]), hnone]
    simp [cell_quantum, Thread.getQuantum, Thread.mk']
  | change_priority tid p t T hvp ht hlen hcell =>
    refine ⟨0, ?_, Or.inl rfl⟩
    rw [quantum_sum_update1 MAX_THREAD_NUM s _ tid (some (t.setPriority p))
      (inv_bounds hinv ht) (by show cell T tid = _; rw [hcell, if_pos rfl])
      (fun j hj => by show cell T j = _; rw [hcell, if_neg hj]), ht]
    simp [cell_quantum, Thread.getQuantum, Thread.setPriority]
  | terminate_other tid t T ht hne0 hner hlen hcell =>
    refine ⟨t.__num_of_quantum, ?_, Or.inr ⟨tid, t, rfl, ht, rfl⟩⟩
    rw [quantum_sum_update1 MAX_THREAD_NUM s _ tid none
      (inv_bounds hinv ht) (by show cell T tid = _; rw [hcell, if_pos rfl])
      (fun j hj => by show cell T j = _; rw [hcell, if_neg hj]), ht]
    simp only [cell_quantum, Thread.getQuantum, Option.map_none', Option.map_some',
      Option.getD_none, Option.getD_some]
    ring
  | terminate_running tr th h rest v T hr hne0 hq hh hne hv hlen hcell =>
    refine ⟨tr.__num_of_quantum, ?_, Or.inr ⟨s.running_thread, tr, rfl, hr, rfl⟩⟩
    rw [quantum_sum_update2 MAX_THREAD_NUM s _ s.running_thread h none
      (some (th.incrQuantum.setState RUNNING)) (inv_bounds hinv hr) (inv_bounds hinv hh)
      (Ne.symm hne) (by show cell T _ = _; rw [hcell, if_pos rfl])
      (by show cell T h = _; rw [hcell, if_neg hne, if_pos rfl])
      (fun j h1 h2 => by show cell T j = _; rw [hcell, if_neg h1, if_neg h2]), hr, hh]
    simp only [cell_quantum, Thread.getQuantum, Thread.setState, Thread.incrQuantum,
      Option.map_none', Option.map_some', Option.getD_none, Option.getD_some]
    ring
  | block_other tid t T ht hst hne0 hner hlen hcell =>
    refine ⟨0, ?_, Or.inl rfl⟩
    rw [quantum_sum_update1 MAX_THREAD_NUM s _ tid (some (t.setState BLOCKED))
      (inv_bounds hinv ht) (by show cell T tid = _; rw [hcell, if_pos rfl])
      (fun j hj => by show cell T j = _; rw [hcell, if_neg hj]), ht]
    simp [cell_quantum, Thread.getQuantum, Thread.setState]
  | block_running tr th h rest v T hr hne0 hq hh hne hv hlen hcell =>
    refine ⟨0, ?_, Or.inl rfl⟩
    rw [quantum_sum_update2 MAX_THREAD_NUM s _ h s.running_thread
      (some (th.incrQuantum.setState RUNNING)) (some (tr.setState BLOCKED))
      (inv_bounds hinv hh) (inv_bounds hinv hr) hne
      (by show cell T h = _; rw [hcell, if_pos rfl])
      (by show cell T _ = _; rw [hcell, if_neg (Ne.symm hne), if_pos rfl])
      (fun j h1 h2 => by show cell T j = _; rw [hcell, if_neg h1, if_neg h2]), hr, hh]
    simp only [cell_quantum, Thread.getQuantum, Thread.setState, Thread.incrQuantum,
      Option.map_some', Option.getD_some]
    ring
  | resume tid t T ht hst hlen hcell =>
    refine ⟨0, ?_, Or.inl rfl⟩
    rw [quantum_sum_update1 MAX_THREAD_NUM s _ tid (some (t.setState READY))
      (inv_bounds hinv ht) (by show cell T tid = _; rw [hcell, if_pos rfl])
      (fun j hj => by show cell T j = _; rw [hcell, if_neg hj]), ht]
    simp [cell_quantum, Thread.getQuantum, Thread.setState]
  | expiry tr th h rest v T hr hq hh hv hlen hcell =>
    refine ⟨0, ?_, Or.inl rfl⟩
    by_cases e : h = s.running_thread
    · rw [if_pos e] at hh
      cases hh
      rw [quantum_sum_update1 MAX_THREAD_NUM s _ h
        (some ((tr.setState READY).incrQuantum.setState RUNNING))
        (by rw [e]; exact inv_bounds hinv hr)
        (by show cell T h = _; rw [hcell, if_pos rfl])
        (fun j hj => by
          show cell T j = _
          rw [hcell, if_neg hj, if_neg (by rw [← e]; exact hj)]), e, hr]
      simp only [cell_quantum, Thread.getQuantum, Thread.setState, Thread.incrQuantum,
        Option.map_some', Option.getD_some]
      ring
    · rw [if_neg e] at hh
      rw [quantum_sum_update2 MAX_THREAD_NUM s _ h s.running_thread
        (some (th.incrQuantum.setState RUNNING)) (some (tr.setState READY))
        (inv_bounds hinv hh) (inv_bounds hinv hr) e
        (by show cell T h = _; rw [hcell, if_pos rfl])
        (by show cell T _ = _; rw [hcell, if_neg (Ne.symm e), if_pos rfl])
        (fun j h1 h2 => by show cell T j = _; rw [hcell, if_neg h1, if_neg h2]), hr, hh]
      simp only [cell_quantum, Thread.getQuantum, Thread.setState, Thread.incrQuantum,
        Option.map_some', Option.getD_some]
      ring

/-- No quantum count is negative, and a step keeps it so. -/
theorem step_nonneg {s s' : Lib} {e : Event} (h : StepEffect s e s')
    (hs : ∀ j x, s.thread j = some x → 0 ≤ x.__num_of_quantum) (j : Int) (x' : Thread)
    (hx' : s'.thread j = some x') : 0 ≤ x'.__num_of_quantum := by
  cases hx : s.thread j with
  | some x =>
    have := step_quantum h j x x' hx hx'
    have := hs j x hx
    split at * <;> omega
  | none =>
    cases h with
    | same e hs' => rw [hx] at hx'; cases hx'
    | spawn a p tid T hvp hmin hnone hlen hcell =>
      have hx'' : cell T j = some x' := hx'
      rw [hcell] at hx''
      split at hx''
      · cases hx''; exact le_refl _
      · rw [hx] at hx''; cases hx''
    | change_priority tid p t T hvp ht hlen hcell =>
      have hx'' : cell T j = some x' := hx'
      rw [hcell] at hx''
      split at hx''
      · rename_i e; rw [e, ht] at hx; cases hx
      · rw [hx] at hx''; cases hx''
    | terminate_other tid t T ht hne0 hner hlen hcell =>
      have hx'' : cell T j = some x' := hx'
      rw [hcell] at hx''
      split at hx''
      · cases hx''
      · rw [hx] at hx''; cases hx''
    | terminate_running tr th h rest v T hr hne0 hq hh hne hv hlen hcell =>
      have hx'' : cell T j = some x' := hx'
      rw [hcell] at hx''
      split at hx''
      · cases hx''
      · split at hx''
        · rename_i e; rw [e, hh] at hx; cases hx
        · rw [hx] at hx''; cases hx''
    | block_other tid t T ht hst hne0 hner hlen hcell =>
      have hx'' : cell T j = some x' := hx'
      rw [hcell] at hx''
      split at hx''
      · rename_i e; rw [e, ht] at hx; cases hx
      · rw [hx] at hx''; cases hx''
    | block_running tr th h rest v T hr hne0 hq hh hne hv hlen hcell =>
      have hx'' : cell T j = some x' := hx'
      rw [hcell] at hx''
      split at hx''
      · rename_i e; rw [e, hh] at hx; cases hx
      · split at hx''
        · rename_i e; rw [e, hr] at hx; cases hx
        · rw [hx] at hx''; cases hx''
    | resume tid t T ht hst hlen hcell =>
      have hx'' : cell T j = some x' := hx'
      rw [hcell] at hx''
      split at hx''
      · rename_i e; rw [e, ht] at hx; cases hx
      · rw [hx] at hx''; cases hx''
    | expiry tr th h rest v T hr hq hh hv hlen hcell =>
      have hx'' : cell T j = some x' := hx'
      rw [hcell] at hx''
      split at hx''
      · rename_i e
        split at hh
        · rename_i e2; rw [e, e2, hr] at hx; cases hx
        · rw [e, hh] at hx; cases hx
      · split at hx''
        · rename_i e; rw [e, hr] at hx; cases hx
        · rw [hx] at hx''; cases hx''

theorem init_sum (MAX_THREAD_NUM : Nat) (q : List Int) (size : Int) (s0 : Lib)
    (hinit : uthread_init MAX_THREAD_NUM Sys.ok q size (Lib.initial MAX_THREAD_NUM)
      = .returned 0 s0) :
    quantum_sum MAX_THREAD_NUM s0 = 1 ∧ s0.total_quantums = 1 ∧
    ∀ j x, s0.thread j = some x → 0 ≤ x.__num_of_quantum := by
  obtain ⟨hM, _, _, v, _, hs0⟩ := init_spec MAX_THREAD_NUM q size s0 hinit
  have hth := init_thread MAX_THREAD_NUM q size s0 hinit
  refine ⟨?_, by rw [hs0], ?_⟩
  · rw [quantum_sum_eq,
      sum_update (fun _ => 0) (fun i => cell_quantum (s0.thread i)) 0 1 ?_ MAX_THREAD_NUM,
      if_pos ⟨le_refl _, by omega⟩]
    · simp
    · intro i
      simp only [hth i]
      split
      · rfl
      · rfl
  · intro j x hx
    rw [hth] at hx
    split at hx
    · cases hx
      decide
    · cases hx

/-- In every reachable state no quantum count is negative and their sum is at
most the total quantum count. -/
theorem reachable_sum (MAX_THREAD_NUM : Nat) (s : Lib) (h : Reachable MAX_THREAD_NUM s) :
    (∀ j x, s.thread j = some x → 0 ≤ x.__num_of_quantum) ∧
    quantum_sum MAX_THREAD_NUM s ≤ s.total_quantums := by
  induction h with
  | init q size s hinit =>
    obtain ⟨h1, h2, h3⟩ := init_sum MAX_THREAD_NUM q size s hinit
    exact ⟨h3, by rw [h1, h2]⟩
  | step e s s' hs hstep ih =>
    have hinv := reachable_inv MAX_THREAD_NUM s hs
    have heff := step_effect MAX_THREAD_NUM e s s' hinv hstep
    refine ⟨step_nonneg heff ih.1, ?_⟩
    obtain ⟨d, hd, hcase⟩ := step_sum MAX_THREAD_NUM hinv heff
    have hd0 : 0 ≤ d := by
      rcases hcase with rfl | ⟨t, x, _, hx, rfl⟩
      · exact le_refl _
      · exact ih.1 t x hx
    have := ih.2
    omega

theorem run_terminations_sum (MAX_THREAD_NUM : Nat) (es : List Event) :
    ∀ (s s' : Lib), Inv MAX_THREAD_NUM s →
      quantum_sum MAX_THREAD_NUM s = s.total_quantums →
      run_terminations MAX_THREAD_NUM es s = some (s', 0) →
      quantum_sum MAX_THREAD_NUM s' = s'.total_quantums := by
  induction es with
  | nil =>
    intro s s' _ heq h
    simp only [run_terminations, Option.some.injEq, Prod.mk.injEq, and_true] at h
    rw [← h]; exact heq
  | cons e es ih =>
    intro s s' hinv heq h
    simp only [run_terminations] at h
    split at h
    · cases h
    · rename_i s1 hstep
      split at h
      · cases h
      · rename_i s2 n hrest
        simp only [Option.some.injEq, Prod.mk.injEq] at h
        obtain ⟨rfl, hn⟩ := h
        have hterm : e.terminates MAX_THREAD_NUM s = false := by
          by_contra hc
          simp only [Bool.not_eq_false] at hc
          rw [if_pos hc] at hn
          omega
        rw [hterm] at hn
        simp only [Bool.false_eq_true, if_false, add_zero] at hn
        subst hn
        have heff := step_effect MAX_THREAD_NUM e s s1 hinv hstep
        obtain ⟨d, hd, hcase⟩ := step_sum MAX_THREAD_NUM hinv heff
        have hd0 : d = 0 := by
          rcases hcase with rfl | ⟨t, x, rfl, hx, _⟩
          · rfl
          · have hv := valid_tid_of_live MAX_THREAD_NUM s t x hinv.len hx
            simp only [Event.terminates, hv] at hterm
            cases hterm
        exact ih s1 s2 (step_inv MAX_THREAD_NUM e s s1 hinv hstep) (by omega) hrest

/-- C21: in every state reachable from a successful `uthread_init` the sum of
`uthread_get_quantums(t)` over the live threads `t` is at most
`uthread_get_total_quantums()`, and the two are equal after every execution in
which no event terminated a thread. -/
theorem quantum_sum_le_total (MAX_THREAD_NUM : Nat) :
    (∀ s : Lib, Reachable MAX_THREAD_NUM s →
      quantum_sum MAX_THREAD_NUM s ≤ uthread_get_total_quantums s) ∧
    (∀ (q : List Int) (size : Int) (s0 s : Lib) (es : List Event),
      uthread_init MAX_THREAD_NUM Sys.ok q size (Lib.initial MAX_THREAD_NUM) = .returned 0 s0 →
      run_terminations MAX_THREAD_NUM es s0 = some (s, 0) →
      quantum_sum MAX_THREAD_NUM s = uthread_get_total_quantums s) := by
  refine ⟨fun s hs => (reachable_sum MAX_THREAD_NUM s hs).2, ?_⟩
  intro q size s0 s es hinit hrun
  obtain ⟨h1, h2, _⟩ := init_sum MAX_THREAD_NUM q size s0 hinit
  exact run_terminations_sum MAX_THREAD_NUM es s0 s (inv_init MAX_THREAD_NUM q size s0 hinit)
    (by rw [h1, h2]) hrun

theorem quantum_sum_le_total_witness :
    (quantum_sum 3 (demo_after [.spawn (some 1) 1, .spawn (some 2) 0, .expiry, .terminate 1,
        .expiry])
      ≤ uthread_get_total_quantums (demo_after [.spawn (some 1) 1, .spawn (some 2) 0, .expiry,
        .terminate 1, .expiry])) ∧
    quantum_sum 3 (demo_after [.spawn (some 1) 1, .spawn (some 2) 0, .expiry, .terminate 1,
        .expiry]) = 3 ∧
    uthread_get_total_quantums (demo_after [.spawn (some 1) 1, .spawn (some 2) 0, .expiry,
        .terminate 1, .expiry]) = 4 ∧
    quantum_sum 3 (demo_after [.spawn (some 1) 1, .spawn (some 2) 0, .expiry, .block 1,
        .terminate 7, .expiry])
      = uthread_get_total_quantums (demo_after [.spawn (some 1) 1, .spawn (some 2) 0, .expiry,
        .block 1, .terminate 7, .expiry]) :=
  ⟨(quantum_sum_le_total 3).1 _ (demo_after_reachable _ (by decide)), by decide, by decide,
    (quantum_sum_le_total 3).2 [100, 200] 2 demo_init _
      [.spawn (some 1) 1, .spawn (some 2) 0, .expiry, .block 1, .terminate 7, .expiry]
      (by decide) (by decide)⟩

/-! ## After a failed allocation in `uthread_spawn` -/

/-- C1 (code_bug), evaluation after a failed allocation: `uthread_init` succeeds;
a `uthread_spawn` in which `new (std::nothrow) Thread` answers `nullptr` returns
`-1` after `get_next_tid` has popped id 1, and leaves the program in
`demo_leaked`.  There one thread of three is live, id 1 has no thread and
priority 0 is valid, yet the next `uthread_spawn`, all allocations succeeding,
returns 2 and leaves id 1 without a thread; the spawn after that finds the pool
empty and returns `-1` with two threads of three live. -/
theorem spawn_after_failed_allocation_skips_id :
    uthread_init 3 Sys.ok [100, 200] 2 (Lib.initial 3) = .returned 0 demo_init ∧
    uthread_spawn Sys.new_Thread_fails (some 1) 0 demo_init = .returned (-1) demo_leaked ∧
    live_count demo_leaked = 1 ∧
    valid_priority demo_leaked 0 = true ∧
    demo_leaked.thread 1 = none ∧
    (uthread_spawn Sys.ok (some 1) 0 demo_leaked).returnValue = some 2 ∧
    ((uthread_spawn Sys.ok (some 1) 0 demo_leaked).next.map fun s => s.thread 1) = some none ∧
    ((uthread_spawn Sys.ok (some 1) 0 demo_leaked).next.map live_count) = some 2 ∧
    ((uthread_spawn Sys.ok (some 1) 0 demo_leaked).next.map fun s =>
      (uthread_spawn Sys.ok (some 1) 0 s).returnValue) = some (some (-1)) := by
  decide

/-- C9 (code_bug), evaluation after a failed allocation: from `demo_leaked`, the
state in which a `uthread_spawn` whose `new (std::nothrow) Thread` answered
`nullptr` has returned `-1`, `uthread_terminate(0)` ends the process with status
0 in a state where id 1 has no thread and is not in the free-id pool, which
holds id 2 only. -/
theorem terminate_main_after_failed_allocation :
    uthread_init 3 Sys.ok [100, 200] 2 (Lib.initial 3) = .returned 0 demo_init ∧
    uthread_spawn Sys.new_Thread_fails (some 1) 0 demo_init = .returned (-1) demo_leaked ∧
    uthread_terminate 3 Sys.ok 0 demo_leaked = .exited 0 demo_leaked ∧
    demo_leaked.thread 1 = none ∧
    demo_leaked.tid_que = [2] ∧
    (1 : Int) ∉ demo_leaked.tid_que := by
  decide

/-- C19 (code_bug), evaluation after a failed allocation: after `uthread_init`
the pool holds ids 1 and 2; a `uthread_spawn` in which
`new (std::nothrow) Thread` answers `nullptr` returns `-1` and leaves the
program in `demo_leaked`, where id 1 of `[1, 3)` has no thread and occurs in the
free-id pool zero times, while id 0 has a thread, id 2 is in the pool once and
one thread is live. -/
theorem pool_loses_id_after_failed_allocation :
    uthread_init 3 Sys.ok [100, 200] 2 (Lib.initial 3) = .returned 0 demo_init ∧
    demo_init.tid_que.count 1 = 1 ∧
    uthread_spawn Sys.new_Thread_fails (some 1) 0 demo_init = .returned (-1) demo_leaked ∧
    demo_leaked.thread 1 = none ∧
    demo_leaked.tid_que.count 1 = 0 ∧
    (demo_leaked.thread 0).isSome = true ∧
    demo_leaked.tid_que.count 0 = 0 ∧
    demo_leaked.thread 2 = none ∧
    demo_leaked.tid_que.count 2 = 1 ∧
    live_count demo_leaked = 1 := by
  decide

end UThreads
